import Mathlib

/-!
# The packet entity of the Shadow simulator (`src/main/routing/packet.c`)

A shallow embedding of the packet object: the protocol-tagged header variants,
the reference-counted envelope, the TCP control block and the delivery-status
trace, followed by theorems about them.

Conventions of the embedding.

* A C pointer that may be `NULL` is an `Option`; a `GList*` / `GQueue*` of integers
  stored in the data pointers is a `List Nat` (`NULL` is the empty `GList`).
* `guint`, `in_addr_t`, `in_port_t`, `guint64` and the flag enums are `Nat`, `gint` is `Int`;
  arithmetic that can leave the width is reduced explicitly (`% 2^32`).
* A function that can abort returns `Except Fault _`.
* Calls into collaborators that do not touch the packet (allocation telemetry,
  the payload's own reference count, the trace sink) leave no mark on the state.
-/

namespace Shadow

/-! ## Data model -/

/-- Protocol discriminant of a packet (`ProtocolType`). The enum is declared outside the
sources at hand; the five tags are the ones `packet.c` names, and `PNONE` is the value a
zero-initialised packet carries (the setters assert `protocol == PNONE` on a fresh packet). -/
inductive ProtocolType where
  | PNONE
  | PLOCAL
  | PUDP
  | PTCP
  | PMOCK
  deriving DecidableEq, Repr

/-- Ways in which a call does not return. -/
inductive Fault where
  /-- a `utility_debugAssert` (or `MAGIC_ASSERT`) whose condition is false -/
  | assertion
  /-- a call of `utility_panic` -/
  | panic
  /-- a tag-directed header cast that reads an absent or differently shaped header -/
  | undefined
  deriving DecidableEq, Repr

/-- A `gdouble` that is only stored, copied and returned: its 64-bit pattern
(`0` is the `0.0` that `g_new0` leaves behind). -/
abbrev gdouble := Nat

/-- The struct `_PacketLocalHeader`. -/
structure PacketLocalHeader where
  flags : Nat
  sourceDescriptorHandle : Int
  destinationDescriptorHandle : Int
  port : Nat
  deriving DecidableEq, Repr

/-- The struct `_PacketUDPHeader`. -/
structure PacketUDPHeader where
  flags : Nat
  sourceIP : Nat
  sourcePort : Nat
  destinationIP : Nat
  destinationPort : Nat
  deriving DecidableEq, Repr

/-- Modelled from the spec: `PacketTCPHeader` is declared in `packet.h`, which is not among the
sources. Its fields are the ones `packet.c` reads and writes: control flags, addressing,
sequence and acknowledgment numbers, the selective-ACK list, window and both timestamps. -/
structure PacketTCPHeader where
  flags : Nat
  sourceIP : Nat
  sourcePort : Nat
  destinationIP : Nat
  destinationPort : Nat
  sequence : Nat
  acknowledgment : Nat
  selectiveACKs : List Nat
  window : Nat
  timestampValue : Nat
  timestampEcho : Nat
  deriving DecidableEq, Repr

/-- What the untyped `gpointer header` points to: one of the three header records. -/
inductive Header where
  | ofLocal (h : PacketLocalHeader)
  | ofUDP (h : PacketUDPHeader)
  | ofTCP (h : PacketTCPHeader)
  deriving DecidableEq, Repr

/-- Modelled from the spec: `payload.c` is not among the sources. The packet knows a payload
only as a shared handle; the payload collaborator reports its byte length. -/
structure Payload where
  handle : Nat
  length : Nat
  deriving DecidableEq, Repr

/-- The struct `_Packet`. `orderedStatus` is allocated by both constructors and never reset, so
the queue pointer is always valid and the field holds the queue's contents, head first. -/
structure Packet where
  referenceCount : Nat
  hostID : Nat
  packetID : Nat
  protocol : ProtocolType
  header : Option Header
  payload : Option Payload
  priority : gdouble
  allStatus : Nat
  orderedStatus : List Nat
  deriving DecidableEq, Repr

/-- The emulated-memory pointer handed to `packet_setPayload`. -/
structure PluginVirtualPtr where
  val : Nat
  deriving DecidableEq, Repr

/-- Modelled from the spec: the execution context handed to `packet_setPayload`, reduced to what
the collaborators answer during that call: the payload object `payload_new` allocates and the
value `host_getNextPacketPriority(thread_getHost(thread))` returns. -/
structure Thread where
  newPayloadHandle : Nat
  nextPacketPriority : gdouble
  deriving DecidableEq, Repr

/-- The case labels of `_packet_deliveryStatusToAscii`, in the order of the switch. -/
inductive PDSLabel where
  | PDS_NONE
  | PDS_SND_CREATED
  | PDS_SND_TCP_ENQUEUE_THROTTLED
  | PDS_SND_TCP_ENQUEUE_RETRANSMIT
  | PDS_SND_TCP_DEQUEUE_RETRANSMIT
  | PDS_SND_TCP_RETRANSMITTED
  | PDS_SND_SOCKET_BUFFERED
  | PDS_SND_INTERFACE_SENT
  | PDS_INET_SENT
  | PDS_INET_DROPPED
  | PDS_ROUTER_ENQUEUED
  | PDS_ROUTER_DEQUEUED
  | PDS_ROUTER_DROPPED
  | PDS_RCV_INTERFACE_RECEIVED
  | PDS_RCV_INTERFACE_DROPPED
  | PDS_RCV_SOCKET_PROCESSED
  | PDS_RCV_SOCKET_DROPPED
  | PDS_RCV_TCP_ENQUEUE_UNORDERED
  | PDS_RCV_SOCKET_BUFFERED
  | PDS_RCV_SOCKET_DELIVERED
  | PDS_DESTROYED
  deriving DecidableEq, Repr

/-- Everything `packet.c` takes from headers that are not among the sources: the configured
sizes (`shd-config.h`), the values of the TCP flag enum and of the delivery-status enum
(`packet.h`), the byte-order conversions of the host and the address renderer. -/
structure Config where
  CONFIG_MTU : Nat
  CONFIG_HEADER_SIZE_UDPIP : Nat
  CONFIG_HEADER_SIZE_TCPIP : Nat
  PTCP_NONE : Nat
  PTCP_RST : Nat
  PTCP_SYN : Nat
  PTCP_FIN : Nat
  PTCP_ACK : Nat
  PTCP_DUPACK : Nat
  PTCP_SACK : Nat
  PDS : PDSLabel → Nat
  htonl : Nat → Nat
  ntohs : Nat → Nat
  address_ipToNewString : Nat → String

/-- The constant `INADDR_LOOPBACK` of `netinet/in.h` (127.0.0.1 in host byte order). -/
def INADDR_LOOPBACK : Nat := 0x7f000001

/-! ## Primitives -/

/-- Modelled from the spec: `utility_debugAssert` is defined in `utility.h`, which is not among
the sources. A violated assertion is a programming fault: the assertion-enabled build aborts
there, and a build that skips the check leaves the behaviour undefined, so in neither does the
call succeed. -/
def utility_debugAssert (cond : Prop) [Decidable cond] : Except Fault Unit :=
  if cond then .ok () else .error .assertion

/-- Modelled from the spec: `utility_panic` (`utility.h`, not among the sources) reports an
implementation fault and does not return. -/
def utility_panic {α : Type} : Except Fault α :=
  .error .panic

/-- The cast `(PacketLocalHeader*)packet->header` followed by a read. -/
def asLocal : Option Header → Except Fault PacketLocalHeader
  | some (.ofLocal h) => .ok h
  | _ => .error .undefined

/-- The cast `(PacketUDPHeader*)packet->header` followed by a read. -/
def asUDP : Option Header → Except Fault PacketUDPHeader
  | some (.ofUDP h) => .ok h
  | _ => .error .undefined

/-- The cast `(PacketTCPHeader*)packet->header` followed by a read. -/
def asTCP : Option Header → Except Fault PacketTCPHeader
  | some (.ofTCP h) => .ok h
  | _ => .error .undefined

/-- GLib `g_list_copy`: a new list with the same data pointers in the same order. -/
def g_list_copy (l : List Nat) : List Nat := l

/-- GLib `g_queue_copy`: a new queue with the same data pointers in the same order. -/
def g_queue_copy (q : List Nat) : List Nat := q

/-- GLib `g_queue_pop_head`: the data of the head (`NULL`, that is 0, on an empty queue) and
the rest. -/
def g_queue_pop_head : List Nat → Nat × List Nat
  | [] => (0, [])
  | x :: q => (x, q)

/-- GLib `g_queue_push_tail`. -/
def g_queue_push_tail (q : List Nat) (data : Nat) : List Nat := q ++ [data]

/-- Conversion of a value to `gint`: the low 32 bits read as two's complement. -/
def toGint (z : Int) : Int :=
  let m := z % 4294967296
  if m < 2147483648 then m else m - 4294967296

/-- The macro `GPOINTER_TO_INT` of GLib. -/
def GPOINTER_TO_INT (data : Nat) : Int := toGint (data : Int)

/-- Modelled from the spec: `payload_getLength` of the payload collaborator. -/
def payload_getLength (payload : Payload) : Nat := payload.length

/-- Modelled from the spec: `payload_new` reads `payloadLength` bytes into a newly created
payload object, which `thread` names in this embedding. -/
def payload_new (thread : Thread) (_payload : PluginVirtualPtr) (payloadLength : Nat) : Payload :=
  { handle := thread.newPayloadHandle, length := payloadLength }

/-! ## Construction, payload, copy -/

/-- Source `protocol_toString`. -/
def protocol_toString : ProtocolType → String
  | .PLOCAL => "LOCAL"
  | .PUDP => "UDP"
  | .PTCP => "TCP"
  | .PMOCK => "MOCK"
  | _ => "UNKNOWN"

/-- Source `packet_new_inner`: `g_new0` zeroes every field, then the count, the two
identifiers and an empty status queue are set. -/
def packet_new_inner (hostID packetID : Nat) : Packet :=
  { referenceCount := 1
    hostID := hostID
    packetID := packetID
    protocol := .PNONE
    header := none
    payload := none
    priority := 0
    allStatus := 0
    orderedStatus := [] }

/-- Source `packet_setPayload`. -/
def packet_setPayload (packet : Packet) (thread : Option Thread) (payload : PluginVirtualPtr)
    (payloadLength : Nat) : Except Fault Packet := do
  utility_debugAssert (thread ≠ none)
  utility_debugAssert (payload.val ≠ 0)
  utility_debugAssert (packet.payload = none)
  match thread with
  | none => .error .undefined
  | some t =>
    let packet := { packet with payload := some (payload_new t payload payloadLength) }
    pure { packet with priority := t.nextPacketPriority }

/-- The TCP arm of `packet_copy`: `memdup` of the header, then the SACK list is replaced by a
`g_list_copy` when the original has one. -/
def copyTCPHeader (packetHeader : PacketTCPHeader) : PacketTCPHeader :=
  let copyHeader := packetHeader
  let copyHeader := { copyHeader with selectiveACKs := [] }
  if packetHeader.selectiveACKs ≠ [] then
    { copyHeader with selectiveACKs := g_list_copy packetHeader.selectiveACKs }
  else copyHeader

/-- Source `packet_copy`. -/
def packet_copy (packet : Packet) : Except Fault Packet := do
  let copy : Packet :=
    { referenceCount := 1
      hostID := packet.hostID
      packetID := packet.packetID
      protocol := .PNONE
      header := none
      payload := none
      priority := 0
      allStatus := 0
      orderedStatus := [] }
  let copy :=
    match packet.payload with
    | some pl => { copy with payload := some pl, priority := packet.priority }
    | none => copy
  let copy := { copy with allStatus := packet.allStatus }
  let copy := { copy with orderedStatus := g_queue_copy packet.orderedStatus }
  let copy := { copy with protocol := packet.protocol }
  match packet.header with
  | none => pure copy
  | some _ =>
    match packet.protocol with
    | .PLOCAL => do
      let h ← asLocal packet.header
      pure { copy with header := some (.ofLocal h) }
    | .PUDP => do
      let h ← asUDP packet.header
      pure { copy with header := some (.ofUDP h) }
    | .PTCP => do
      let packetHeader ← asTCP packet.header
      pure { copy with header := some (.ofTCP (copyTCPHeader packetHeader)) }
    | _ => utility_panic

/-- Source `_packet_free`: the TCP arm reads the header before anything is released. -/
def _packet_free (packet : Packet) : Except Fault Unit := do
  if packet.protocol = .PTCP then
    let _header ← asTCP packet.header
    pure ()
  else
    pure ()

/-- Source `packet_ref`: `guint` increment. -/
def packet_ref (packet : Packet) : Packet :=
  { packet with referenceCount := (packet.referenceCount + 1) % 4294967296 }

/-- Source `packet_setPriority`. -/
def packet_setPriority (packet : Packet) (value : gdouble) : Packet :=
  { packet with priority := value }

/-- Source `packet_compareTCPSequence`; the unused `user_data` argument is left out. -/
def packet_compareTCPSequence (packet1 packet2 : Packet) : Except Fault Int := do
  utility_debugAssert (packet1.protocol = .PTCP)
  let h1 ← asTCP packet1.header
  let sequence1 := h1.sequence
  utility_debugAssert (packet2.protocol = .PTCP)
  let h2 ← asTCP packet2.header
  let sequence2 := h2.sequence
  pure (if sequence1 < sequence2 then -1 else if sequence1 > sequence2 then 1 else 0)

/-! ## Header setters and the TCP update -/

/-- Source `packet_setMock`. -/
def packet_setMock (packet : Packet) : Packet :=
  { packet with protocol := .PMOCK }

/-- Source `packet_setLocal`. -/
def packet_setLocal (packet : Packet) (flags : Nat) (sourceDescriptorHandle : Int)
    (destinationDescriptorHandle : Int) (port : Nat) : Except Fault Packet := do
  utility_debugAssert (packet.header = none ∧ packet.protocol = .PNONE)
  utility_debugAssert (port > 0)
  let header : PacketLocalHeader :=
    { flags := flags
      sourceDescriptorHandle := sourceDescriptorHandle
      destinationDescriptorHandle := destinationDescriptorHandle
      port := port }
  let packet := { packet with header := some (.ofLocal header) }
  pure { packet with protocol := .PLOCAL }

/-- Source `packet_setUDP`. -/
def packet_setUDP (packet : Packet) (flags : Nat) (sourceIP sourcePort : Nat)
    (destinationIP destinationPort : Nat) : Except Fault Packet := do
  utility_debugAssert (packet.header = none ∧ packet.protocol = .PNONE)
  utility_debugAssert (sourceIP ≠ 0 ∧ sourcePort ≠ 0 ∧ destinationIP ≠ 0 ∧ destinationPort ≠ 0)
  let header : PacketUDPHeader :=
    { flags := flags
      sourceIP := sourceIP
      sourcePort := sourcePort
      destinationIP := destinationIP
      destinationPort := destinationPort }
  let packet := { packet with header := some (.ofUDP header) }
  pure { packet with protocol := .PUDP }

/-- Source `packet_setTCP`: the fields that are not assigned keep the zero of `g_new0`. -/
def packet_setTCP (packet : Packet) (flags : Nat) (sourceIP sourcePort : Nat)
    (destinationIP destinationPort : Nat) (sequence : Nat) : Except Fault Packet := do
  utility_debugAssert (packet.header = none ∧ packet.protocol = .PNONE)
  utility_debugAssert (sourceIP ≠ 0 ∧ sourcePort ≠ 0 ∧ destinationIP ≠ 0 ∧ destinationPort ≠ 0)
  let header : PacketTCPHeader :=
    { flags := flags
      sourceIP := sourceIP
      sourcePort := sourcePort
      destinationIP := destinationIP
      destinationPort := destinationPort
      sequence := sequence
      acknowledgment := 0
      selectiveACKs := []
      window := 0
      timestampValue := 0
      timestampEcho := 0 }
  let packet := { packet with header := some (.ofTCP header) }
  pure { packet with protocol := .PTCP }

/-- Source `packet_updateTCP`. -/
def packet_updateTCP (cfg : Config) (packet : Packet) (acknowledgement : Nat)
    (selectiveACKs : List Nat) (window : Nat) (timestampValue timestampEcho : Nat) :
    Except Fault Packet := do
  utility_debugAssert (packet.header ≠ none ∧ packet.protocol = .PTCP)
  let header ← asTCP packet.header
  let header :=
    if selectiveACKs ≠ [] ∧ selectiveACKs.length > 0 then
      let header :=
        if header.selectiveACKs ≠ [] then { header with selectiveACKs := [] } else header
      let header := { header with flags := header.flags ||| cfg.PTCP_SACK }
      { header with selectiveACKs := g_list_copy selectiveACKs }
    else header
  let header := { header with acknowledgment := acknowledgement }
  let header := { header with window := window }
  let header := { header with timestampValue := timestampValue }
  let header := { header with timestampEcho := timestampEcho }
  pure { packet with header := some (.ofTCP header) }

/-! ## Accessors -/

/-- Source `packet_getPayloadSize`. -/
def packet_getPayloadSize (cfg : Config) (packet : Packet) : Nat :=
  if packet.protocol = .PMOCK then cfg.CONFIG_MTU
  else
    match packet.payload with
    | some pl => payload_getLength pl
    | none => 0

/-- Source `packet_getHeaderSize`. -/
def packet_getHeaderSize (cfg : Config) (packet : Packet) : Nat :=
  if packet.protocol = .PUDP then cfg.CONFIG_HEADER_SIZE_UDPIP
  else if packet.protocol = .PTCP then cfg.CONFIG_HEADER_SIZE_TCPIP
  else 0

/-- Source `packet_getTotalSize`. -/
def packet_getTotalSize (cfg : Config) (packet : Packet) : Nat :=
  packet_getPayloadSize cfg packet + packet_getHeaderSize cfg packet

/-- Source `packet_getPriority`. -/
def packet_getPriority (packet : Packet) : gdouble := packet.priority

/-- Source `packet_getDestinationIP`. -/
def packet_getDestinationIP (cfg : Config) (packet : Packet) : Except Fault Nat :=
  match packet.protocol with
  | .PLOCAL => pure (cfg.htonl INADDR_LOOPBACK)
  | .PUDP => do
    let header ← asUDP packet.header
    pure header.destinationIP
  | .PTCP => do
    let header ← asTCP packet.header
    pure header.destinationIP
  | _ => utility_panic

/-- Source `packet_getDestinationPort`. -/
def packet_getDestinationPort (packet : Packet) : Except Fault Nat :=
  match packet.protocol with
  | .PLOCAL => do
    let header ← asLocal packet.header
    pure header.port
  | .PUDP => do
    let header ← asUDP packet.header
    pure header.destinationPort
  | .PTCP => do
    let header ← asTCP packet.header
    pure header.destinationPort
  | _ => utility_panic

/-- Source `packet_getSourceIP`. -/
def packet_getSourceIP (cfg : Config) (packet : Packet) : Except Fault Nat :=
  match packet.protocol with
  | .PLOCAL => pure (cfg.htonl INADDR_LOOPBACK)
  | .PUDP => do
    let header ← asUDP packet.header
    pure header.sourceIP
  | .PTCP => do
    let header ← asTCP packet.header
    pure header.sourceIP
  | _ => utility_panic

/-- Source `packet_getSourcePort`. -/
def packet_getSourcePort (packet : Packet) : Except Fault Nat :=
  match packet.protocol with
  | .PLOCAL => do
    let header ← asLocal packet.header
    pure header.port
  | .PUDP => do
    let header ← asUDP packet.header
    pure header.sourcePort
  | .PTCP => do
    let header ← asTCP packet.header
    pure header.sourcePort
  | _ => utility_panic

/-- Source `packet_getProtocol`. -/
def packet_getProtocol (packet : Packet) : ProtocolType := packet.protocol

/-- Source `packet_copyTCPSelectiveACKs`. -/
def packet_copyTCPSelectiveACKs (packet : Packet) : Except Fault (List Nat) := do
  utility_debugAssert (packet.protocol = .PTCP)
  let packetHeader ← asTCP packet.header
  pure (if packetHeader.selectiveACKs ≠ [] then g_list_copy packetHeader.selectiveACKs else [])

/-- Source `packet_getTCPHeader`: the header pointer itself, which may be `NULL`. -/
def packet_getTCPHeader (packet : Packet) : Except Fault (Option Header) := do
  utility_debugAssert (packet.protocol = .PTCP)
  pure packet.header

/-- Source `packet_getDeliveryStatus`. -/
def packet_getDeliveryStatus (packet : Packet) : Nat := packet.allStatus

/-! ## Rendering and the delivery-status trace -/

/-- The conversion `%u` (and `G_GUINT64_FORMAT`) of `printf`. -/
def printf_u (n : Nat) : String := Nat.repr n

/-- The conversions `%d` and `%i` of `printf`. -/
def printf_d (z : Int) : String :=
  if z < 0 then "-" ++ Nat.repr z.natAbs else Nat.repr z.toNat

/-- The macro `GPOINTER_TO_UINT` of GLib. -/
def GPOINTER_TO_UINT (data : Nat) : Nat := data % 4294967296

/-- The names of the case labels of `_packet_deliveryStatusToAscii`. -/
def PDSLabel.ascii : PDSLabel → String
  | .PDS_NONE => "NONE"
  | .PDS_SND_CREATED => "SND_CREATED"
  | .PDS_SND_TCP_ENQUEUE_THROTTLED => "SND_TCP_ENQUEUE_THROTTLED"
  | .PDS_SND_TCP_ENQUEUE_RETRANSMIT => "SND_TCP_ENQUEUE_RETRANSMIT"
  | .PDS_SND_TCP_DEQUEUE_RETRANSMIT => "SND_TCP_DEQUEUE_RETRANSMIT"
  | .PDS_SND_TCP_RETRANSMITTED => "SND_TCP_RETRANSMITTED"
  | .PDS_SND_SOCKET_BUFFERED => "SND_SOCKET_BUFFERED"
  | .PDS_SND_INTERFACE_SENT => "SND_INTERFACE_SENT"
  | .PDS_INET_SENT => "INET_SENT"
  | .PDS_INET_DROPPED => "INET_DROPPED"
  | .PDS_ROUTER_ENQUEUED => "ROUTER_ENQUEUED"
  | .PDS_ROUTER_DEQUEUED => "ROUTER_DEQUEUED"
  | .PDS_ROUTER_DROPPED => "ROUTER_DROPPED"
  | .PDS_RCV_INTERFACE_RECEIVED => "RCV_INTERFACE_RECEIVED"
  | .PDS_RCV_INTERFACE_DROPPED => "RCV_INTERFACE_DROPPED"
  | .PDS_RCV_SOCKET_PROCESSED => "RCV_SOCKET_PROCESSED"
  | .PDS_RCV_SOCKET_DROPPED => "RCV_SOCKET_DROPPED"
  | .PDS_RCV_TCP_ENQUEUE_UNORDERED => "RCV_TCP_ENQUEUE_UNORDERED"
  | .PDS_RCV_SOCKET_BUFFERED => "RCV_SOCKET_BUFFERED"
  | .PDS_RCV_SOCKET_DELIVERED => "RCV_SOCKET_DELIVERED"
  | .PDS_DESTROYED => "PDS_DESTROYED"

/-- The case labels of `_packet_deliveryStatusToAscii` from top to bottom. -/
def PDSLabel.all : List PDSLabel :=
  [.PDS_NONE, .PDS_SND_CREATED, .PDS_SND_TCP_ENQUEUE_THROTTLED, .PDS_SND_TCP_ENQUEUE_RETRANSMIT,
   .PDS_SND_TCP_DEQUEUE_RETRANSMIT, .PDS_SND_TCP_RETRANSMITTED, .PDS_SND_SOCKET_BUFFERED,
   .PDS_SND_INTERFACE_SENT, .PDS_INET_SENT, .PDS_INET_DROPPED, .PDS_ROUTER_ENQUEUED,
   .PDS_ROUTER_DEQUEUED, .PDS_ROUTER_DROPPED, .PDS_RCV_INTERFACE_RECEIVED,
   .PDS_RCV_INTERFACE_DROPPED, .PDS_RCV_SOCKET_PROCESSED, .PDS_RCV_SOCKET_DROPPED,
   .PDS_RCV_TCP_ENQUEUE_UNORDERED, .PDS_RCV_SOCKET_BUFFERED, .PDS_RCV_SOCKET_DELIVERED,
   .PDS_DESTROYED]

/-- Source `_packet_deliveryStatusToAscii`: the label whose value is `status`, else the default. -/
def _packet_deliveryStatusToAscii (cfg : Config) (status : Nat) : String :=
  match PDSLabel.all.find? (fun l => cfg.PDS l == status) with
  | some l => l.ascii
  | none => "UKNOWN"

/-- The SACK loop of `packet_toString`: `firstSack`, `lastSack` and the text at loop exit. The sum
`lastSack + 1` is taken in `gint`. -/
def sackLoop : List Nat → Int → Int → String → Int × Int × String
  | [], firstSack, lastSack, packetString => (firstSack, lastSack, packetString)
  | data :: iter, firstSack, lastSack, packetString =>
    let seq := GPOINTER_TO_INT data
    if firstSack = -1 then
      sackLoop iter seq lastSack packetString
    else if lastSack = -1 ∨ seq = toGint (lastSack + 1) then
      sackLoop iter firstSack seq packetString
    else
      sackLoop iter seq (-1)
        (packetString ++ printf_d firstSack ++ "-" ++ printf_d lastSack ++ " ")

/-- The `sack=` field of `packet_toString`: the SACK loop and the text appended after it. -/
def renderSACKs (selectiveACKs : List Nat) (packetString : String) : String :=
  let (firstSack, lastSack, packetString) := sackLoop selectiveACKs (-1) (-1) packetString
  if firstSack ≠ -1 then
    let packetString := packetString ++ printf_d firstSack
    if lastSack ≠ -1 then packetString ++ "-" ++ printf_d lastSack else packetString
  else
    packetString ++ "NA"

/-- The `header=` field of `packet_toString`. -/
def renderTCPFlags (cfg : Config) (flags : Nat) (packetString : String) : String :=
  if flags &&& cfg.PTCP_NONE = 0 then
    let packetString := packetString ++ " header="
    let packetString := if flags &&& cfg.PTCP_RST ≠ 0 then packetString ++ "RST" else packetString
    let packetString := if flags &&& cfg.PTCP_SYN ≠ 0 then packetString ++ "SYN" else packetString
    let packetString := if flags &&& cfg.PTCP_FIN ≠ 0 then packetString ++ "FIN" else packetString
    let packetString := if flags &&& cfg.PTCP_ACK ≠ 0 then packetString ++ "ACK" else packetString
    if flags &&& cfg.PTCP_DUPACK ≠ 0 then packetString ++ "DUPACK" else packetString
  else packetString

/-- The status loop of `packet_toString` with `remaining` iterations to go (the C counter `i` is
`statusLength - remaining`): pop the head, render it, push it to the tail. -/
def statusLoop (cfg : Config) (statusLength : Nat) :
    Nat → List Nat → String → String × List Nat
  | 0, orderedStatus, packetString => (packetString, orderedStatus)
  | remaining + 1, orderedStatus, packetString =>
    let i := statusLength - (remaining + 1)
    let (statusPtr, orderedStatus) := g_queue_pop_head orderedStatus
    let status := GPOINTER_TO_UINT statusPtr
    let packetString :=
      if i < statusLength - 1 then
        packetString ++ _packet_deliveryStatusToAscii cfg status ++ ","
      else
        packetString ++ _packet_deliveryStatusToAscii cfg status
    statusLoop cfg statusLength remaining (g_queue_push_tail orderedStatus statusPtr) packetString

/-- The protocol switch of `packet_toString`: the text after the arm of the packet's tag has been
appended, or the panic of the default arm. -/
def renderProtocol (cfg : Config) (packet : Packet) (payloadLength : Nat)
    (packetString : String) : Except Fault String :=
  match packet.protocol with
  | .PLOCAL => do
    let header ← asLocal packet.header
    pure (packetString ++ printf_d header.sourceDescriptorHandle ++ " -> " ++
      printf_d header.destinationDescriptorHandle ++ " bytes=" ++ printf_u payloadLength)
  | .PUDP => do
    let header ← asUDP packet.header
    let sourceIPString := cfg.address_ipToNewString header.sourceIP
    let destinationIPString := cfg.address_ipToNewString header.destinationIP
    let packetString :=
      packetString ++ sourceIPString ++ ":" ++ printf_u (cfg.ntohs header.sourcePort) ++ " -> "
    pure (packetString ++ destinationIPString ++ ":" ++
      printf_u (cfg.ntohs header.destinationPort) ++ " bytes=" ++ printf_u payloadLength)
  | .PTCP => do
    let header ← asTCP packet.header
    let sourceIPString := cfg.address_ipToNewString header.sourceIP
    let destinationIPString := cfg.address_ipToNewString header.destinationIP
    let packetString :=
      packetString ++ sourceIPString ++ ":" ++ printf_u (cfg.ntohs header.sourcePort) ++ " -> "
    let packetString :=
      packetString ++ destinationIPString ++ ":" ++
        printf_u (cfg.ntohs header.destinationPort) ++ " seq=" ++ printf_u header.sequence ++
        " ack=" ++ printf_u header.acknowledgment ++ " sack="
    let packetString := renderSACKs header.selectiveACKs packetString
    let packetString :=
      packetString ++ " window=" ++ printf_u header.window ++ " bytes=" ++ printf_u payloadLength
    let packetString := renderTCPFlags cfg header.flags packetString
    pure (packetString ++ " tsval=" ++ printf_u header.timestampValue ++ " tsechoreply=" ++
      printf_u header.timestampEcho)
  | _ => utility_panic

/-- Source `packet_toString`: the rendered text and the packet with the status queue as the
status loop leaves it. -/
def packet_toString (cfg : Config) (packet : Packet) : Except Fault (String × Packet) :=
  let packetString := ""
  let packetString :=
    packetString ++ "packetID=" ++ printf_u packet.hostID ++ ":" ++ printf_u packet.packetID ++ " "
  let payloadLength :=
    match packet.payload with
    | some pl => payload_getLength pl % 4294967296
    | none => 0
  match renderProtocol cfg packet payloadLength packetString with
  | .error e => .error e
  | .ok packetString =>
    let statusLength := packet.orderedStatus.length
    let packetString := if statusLength > 0 then packetString ++ " status=" else packetString
    let r := statusLoop cfg statusLength statusLength packet.orderedStatus packetString
    .ok (r.1, { packet with orderedStatus := r.2 })

/-- Source `packet_addDeliveryStatus`; `traceEnabled` is what `rustlogger_isEnabled(LOGLEVEL_TRACE)`
answers during the call. -/
def packet_addDeliveryStatus (cfg : Config) (traceEnabled : Bool) (packet : Packet)
    (status : Nat) : Except Fault Packet := do
  let packet := { packet with allStatus := packet.allStatus ||| status }
  if traceEnabled then
    let packet := { packet with orderedStatus := g_queue_push_tail packet.orderedStatus status }
    let r ← packet_toString cfg packet
    pure r.2
  else
    pure packet

/-- Source `packet_unref`: `guint` decrement; `none` is the packet that has been freed. -/
def packet_unref (cfg : Config) (traceEnabled : Bool) (packet : Packet) :
    Except Fault (Option Packet) := do
  let packet := { packet with referenceCount := (packet.referenceCount + 4294967295) % 4294967296 }
  if packet.referenceCount = 0 then
    let packet ← packet_addDeliveryStatus cfg traceEnabled packet (cfg.PDS .PDS_DESTROYED)
    _packet_free packet
    pure none
  else
    pure (some packet)

/-! ## The public operations as a transition system -/

/-- A call of one of the public operations on the packet under observation. The trace switch is
part of the call, since the logger is asked anew each time. After `copy` the packet under
observation is the copy that `packet_copy` returned. -/
inductive Op where
  | setPayload (thread : Option Thread) (payload : PluginVirtualPtr) (payloadLength : Nat)
  | copy
  | ref
  | unref (traceEnabled : Bool)
  | setPriority (value : gdouble)
  | setMock
  | setLocal (flags : Nat) (sourceDescriptorHandle destinationDescriptorHandle : Int) (port : Nat)
  | setUDP (flags sourceIP sourcePort destinationIP destinationPort : Nat)
  | setTCP (flags sourceIP sourcePort destinationIP destinationPort sequence : Nat)
  | updateTCP (acknowledgement : Nat) (selectiveACKs : List Nat)
      (window timestampValue timestampEcho : Nat)
  | render
  | addDeliveryStatus (traceEnabled : Bool) (status : Nat)
  deriving DecidableEq, Repr

/-- The effect of a call on the packet: a fault, the packet afterwards, or `none` once the call
has freed it. `render` is `packet_toString`, whose text is dropped here. -/
def Op.run (cfg : Config) (packet : Packet) : Op → Except Fault (Option Packet)
  | .setPayload thread payload payloadLength =>
    (packet_setPayload packet thread payload payloadLength).map some
  | .copy => (packet_copy packet).map some
  | .ref => .ok (some (packet_ref packet))
  | .unref traceEnabled => packet_unref cfg traceEnabled packet
  | .setPriority value => .ok (some (packet_setPriority packet value))
  | .setMock => .ok (some (packet_setMock packet))
  | .setLocal flags sourceDescriptorHandle destinationDescriptorHandle port =>
    (packet_setLocal packet flags sourceDescriptorHandle destinationDescriptorHandle port).map some
  | .setUDP flags sourceIP sourcePort destinationIP destinationPort =>
    (packet_setUDP packet flags sourceIP sourcePort destinationIP destinationPort).map some
  | .setTCP flags sourceIP sourcePort destinationIP destinationPort sequence =>
    (packet_setTCP packet flags sourceIP sourcePort destinationIP destinationPort sequence).map some
  | .updateTCP acknowledgement selectiveACKs window timestampValue timestampEcho =>
    (packet_updateTCP cfg packet acknowledgement selectiveACKs window timestampValue
      timestampEcho).map some
  | .render => (packet_toString cfg packet).map (fun r => some r.2)
  | .addDeliveryStatus traceEnabled status =>
    (packet_addDeliveryStatus cfg traceEnabled packet status).map some

/-- A sequence of calls, each on the packet the previous one left: the packet after the last
call, `none` when the last call freed it, or the first fault. A call on a freed packet trips
`MAGIC_ASSERT`. -/
def runOps (cfg : Config) : Packet → List Op → Except Fault (Option Packet)
  | packet, [] => .ok (some packet)
  | packet, op :: rest =>
    match op.run cfg packet with
    | .ok (some packet) => runOps cfg packet rest
    | .ok none => if rest = [] then .ok none else .error .assertion
    | .error e => .error e

/-- Whether the call is `packet_setMock`. -/
def Op.isSetMock : Op → Bool
  | .setMock => true
  | _ => false

/-- Whether the call is one of the three header setters. -/
def Op.isHeaderSetter : Op → Bool
  | .setLocal _ _ _ _ => true
  | .setUDP _ _ _ _ _ => true
  | .setTCP _ _ _ _ _ _ => true
  | _ => false

/-- The packets that can be observed after `start`: those a sequence of successful calls among
the `allowed` ones leads to. -/
def ReachFrom (cfg : Config) (allowed : Op → Bool) (start packet : Packet) : Prop :=
  ∃ ops : List Op, (∀ op ∈ ops, allowed op = true) ∧ runOps cfg start ops = .ok (some packet)

/-- Every public operation is allowed. -/
def anyOp : Op → Bool := fun _ => true

/-- Every public operation except `packet_setMock` is allowed. -/
def noSetMock : Op → Bool := fun op => !op.isSetMock

/-- The packets reachable from `packet_new_inner` through the allowed operations. -/
def Reachable (cfg : Config) (allowed : Op → Bool) (p : Packet) : Prop :=
  ∃ hostID packetID, ReachFrom cfg allowed (packet_new_inner hostID packetID) p

/-- The tag is one of the three that carry a header. -/
def ProtocolType.hasHeader : ProtocolType → Bool
  | .PLOCAL => true
  | .PUDP => true
  | .PTCP => true
  | _ => false

/-- The header a tag-directed cast expects under each tag: the matching record for `PLOCAL`,
`PUDP` and `PTCP`, none for `PNONE`, and no constraint for `PMOCK`. -/
def headerFits : ProtocolType → Option Header → Bool
  | .PNONE, none => true
  | .PLOCAL, some (.ofLocal _) => true
  | .PUDP, some (.ofUDP _) => true
  | .PTCP, some (.ofTCP _) => true
  | .PMOCK, _ => true
  | _, _ => false

/-- A run of `packet_addDeliveryStatus` calls, each with its own trace switch, stopping at the
first fault. -/
def addDeliveryStatuses (cfg : Config) : Packet → List (Bool × Nat) → Except Fault Packet
  | packet, [] => .ok packet
  | packet, (traceEnabled, status) :: rest =>
    match packet_addDeliveryStatus cfg traceEnabled packet status with
    | .ok packet => addDeliveryStatuses cfg packet rest
    | .error e => .error e

/-- The arguments of one `packet_updateTCP` call. -/
structure TCPUpdate where
  acknowledgement : Nat
  selectiveACKs : List Nat
  window : Nat
  timestampValue : Nat
  timestampEcho : Nat
  deriving DecidableEq, Repr

/-- A run of `packet_updateTCP` calls, stopping at the first fault. -/
def updateTCPs (cfg : Config) : Packet → List TCPUpdate → Except Fault Packet
  | packet, [] => .ok packet
  | packet, u :: rest =>
    match packet_updateTCP cfg packet u.acknowledgement u.selectiveACKs u.window u.timestampValue
        u.timestampEcho with
    | .ok packet => updateTCPs cfg packet rest
    | .error e => .error e

/-- The SACK bit of a TCP header's control flags is set (`flags & PTCP_SACK` in C). -/
def sackFlagSet (cfg : Config) (h : PacketTCPHeader) : Prop :=
  h.flags &&& cfg.PTCP_SACK ≠ 0

instance (cfg : Config) (h : PacketTCPHeader) : Decidable (sackFlagSet cfg h) :=
  inferInstanceAs (Decidable (h.flags &&& cfg.PTCP_SACK ≠ 0))

/-! ## A concrete configuration -/

/-- Byte swap of a 32-bit value: `htonl` on a little-endian host. -/
def bswap32 (x : Nat) : Nat :=
  (x % 256) * 16777216 + (x / 256 % 256) * 65536 + (x / 65536 % 256) * 256 + x / 16777216 % 256

/-- Byte swap of a 16-bit value: `ntohs` on a little-endian host. -/
def bswap16 (x : Nat) : Nat :=
  (x % 256) * 256 + x / 256 % 256

/-- Dotted-quad rendering of an address held in network byte order on a little-endian host. -/
def dottedQuad (ip : Nat) : String :=
  Nat.repr (ip % 256) ++ "." ++ Nat.repr (ip / 256 % 256) ++ "." ++
    Nat.repr (ip / 65536 % 256) ++ "." ++ Nat.repr (ip / 16777216 % 256)

/-- One assignment of the constants that are declared outside the sources, on which the
definitions are evaluated for concrete packets: a 1500-byte MTU, 28- and 40-byte headers,
one bit per TCP flag and per delivery status, and a little-endian host. -/
def sampleConfig : Config :=
  { CONFIG_MTU := 1500
    CONFIG_HEADER_SIZE_UDPIP := 28
    CONFIG_HEADER_SIZE_TCPIP := 40
    PTCP_NONE := 0
    PTCP_RST := 2
    PTCP_SYN := 4
    PTCP_ACK := 8
    PTCP_SACK := 16
    PTCP_FIN := 32
    PTCP_DUPACK := 64
    PDS := fun l => if l = .PDS_NONE then 0 else 2 ^ l.toCtorIdx
    htonl := bswap32
    ntohs := bswap16
    address_ipToNewString := dottedQuad }

/-- The calls that build `sampleTCPPacket` from `packet_new_inner 7 3`: a TCP header with the ACK
flag, an update carrying four SACK entries, two traced delivery statuses and one more reference. -/
def sampleTCPOps : List Op :=
  [.setTCP 8 16777226 53764 33554442 20480 100,
   .updateTCP 55 [5, 6, 7, 10] 1000 11 12,
   .addDeliveryStatus true 2,
   .addDeliveryStatus true 128,
   .ref]

/-- The header of `sampleTCPPacket`. -/
def sampleTCPHeader : PacketTCPHeader :=
  { flags := 24
    sourceIP := 16777226
    sourcePort := 53764
    destinationIP := 33554442
    destinationPort := 20480
    sequence := 100
    acknowledgment := 55
    selectiveACKs := [5, 6, 7, 10]
    window := 1000
    timestampValue := 11
    timestampEcho := 12 }

/-- A TCP packet from 10.0.0.1:1234 to 10.0.0.2:80 held by two owners, as `sampleTCPOps`
leaves it. -/
def sampleTCPPacket : Packet :=
  { referenceCount := 2
    hostID := 7
    packetID := 3
    protocol := .PTCP
    header := some (.ofTCP sampleTCPHeader)
    payload := none
    priority := 0
    allStatus := 130
    orderedStatus := [2, 128] }

/-- A TCP packet with the given sequence number and nothing else of note. -/
def tcpPacketWithSequence (sequence : Nat) : Packet :=
  { referenceCount := 1
    hostID := 0
    packetID := 0
    protocol := .PTCP
    header := some (.ofTCP ⟨0, 1, 1, 1, 1, sequence, 0, [], 0, 0, 0⟩)
    payload := none
    priority := 0
    allStatus := 0
    orderedStatus := [] }

/-- Further calls on `sampleTCPPacket`, none of them `packet_setMock`: a copy, a traced status, an
update without SACK entries, a payload of 77 bytes, a priority override, a reference taken and
dropped, and a rendering. -/
def sampleLaterOps : List Op :=
  [.copy,
   .addDeliveryStatus true 4,
   .updateTCP 56 [] 900 13 14,
   .setPayload (some ⟨1, 9⟩) ⟨4096⟩ 77,
   .setPriority 3,
   .ref,
   .unref false,
   .render]

/-- The packet `sampleLaterOps` leaves behind when run on `sampleTCPPacket`. -/
def sampleLaterPacket : Packet :=
  { referenceCount := 1
    hostID := 7
    packetID := 3
    protocol := .PTCP
    header := some (.ofTCP
      { sampleTCPHeader with
        acknowledgment := 56
        window := 900
        timestampValue := 13
        timestampEcho := 14 })
    payload := some { handle := 1, length := 77 }
    priority := 3
    allStatus := 134
    orderedStatus := [2, 128, 4] }

/-- The bit pattern of the `gdouble` 1.0. -/
def gdoubleOne : gdouble := 0x3FF0000000000000

/-- A TCP packet whose SACK list is [5, 10]: two entries that are not neighbours. -/
def sampleSparsePacket : Packet :=
  { referenceCount := 1
    hostID := 0
    packetID := 0
    protocol := .PTCP
    header := some (.ofTCP ⟨0, 16777226, 53764, 33554442, 20480, 100, 0, [5, 10], 0, 0, 0⟩)
    payload := none
    priority := 0
    allStatus := 0
    orderedStatus := [] }

/-- Whether the call is `packet_ref`. -/
def Op.isRef : Op → Bool
  | .ref => true
  | _ => false

/-- Whether the call is `packet_unref`. -/
def Op.isUnref : Op → Bool
  | .unref _ => true
  | _ => false

/-- The number of `packet_ref` calls in a sequence of calls. -/
def countRefs (ops : List Op) : Nat := ops.countP Op.isRef

/-- The number of `packet_unref` calls in a sequence of calls. -/
def countUnrefs (ops : List Op) : Nat := ops.countP Op.isUnref

/-! ## The same operations on the C heap

The definitions above treat a packet as a value. To speak about two packets that might share
memory, `packet_copy`, `packet_updateTCP`, `packet_addDeliveryStatus`, `packet_setPriority` and
`packet_toString` are also given on a heap of blocks, with the header, the SACK list and the
status queue held through pointers, as in the C structs. -/

namespace Mem

/-- The address of a block on the heap. -/
abbrev Addr := Nat

/-- The struct `PacketTCPHeader` in memory: `selectiveACKs` is a `GList*`, `none` being `NULL`. -/
structure TCPHeaderCell where
  flags : Nat
  sourceIP : Nat
  sourcePort : Nat
  destinationIP : Nat
  destinationPort : Nat
  sequence : Nat
  acknowledgment : Nat
  selectiveACKs : Option Addr
  window : Nat
  timestampValue : Nat
  timestampEcho : Nat
  deriving DecidableEq, Repr

/-- The struct `_Packet` in memory: `header` is the `gpointer`, `orderedStatus` the `GQueue*`;
`payload` is the handle of the payload object, which lives in the payload store. -/
structure PacketCell where
  referenceCount : Nat
  hostID : Nat
  packetID : Nat
  protocol : ProtocolType
  header : Option Addr
  payload : Option Payload
  priority : gdouble
  allStatus : Nat
  orderedStatus : Option Addr
  deriving DecidableEq, Repr

/-- What an allocated block holds: a packet, one of the three header records, the cells of a
`GList` or those of a `GQueue` (the data pointers, in order). -/
inductive Block where
  | packet (c : PacketCell)
  | localHeader (h : PacketLocalHeader)
  | udpHeader (h : PacketUDPHeader)
  | tcpHeader (h : TCPHeaderCell)
  | list (l : List Nat)
  | queue (q : List Nat)
  deriving DecidableEq, Repr

/-- The heap: the allocated blocks by address; the entry nearest the head is the current one. -/
structure Heap where
  blocks : List (Addr × Block)
  deriving Repr

/-- The block at an address, `none` when nothing is allocated there. -/
def Heap.get (m : Heap) (a : Addr) : Option Block := m.blocks.lookup a

/-- A store to the block at an address (also the initial store of a fresh block). -/
def Heap.set (m : Heap) (a : Addr) (b : Block) : Heap := ⟨(a, b) :: m.blocks⟩

/-- The calls `g_free` and `g_list_free`: the block is no longer allocated. -/
def Heap.free (m : Heap) (a : Addr) : Heap := ⟨m.blocks.filter (fun x => x.1 != a)⟩

/-- An allocator with the one property of `malloc` that matters here: the address it returns is
not that of an allocated block. It may hand out a freed address again. -/
def FreshAllocator (malloc : Heap → Addr) : Prop := ∀ m : Heap, m.get (malloc m) = none

/-- The largest allocated address. -/
def Heap.top (m : Heap) : Addr := (m.blocks.map Prod.fst).foldr max 0

/-- One allocator: the address after the largest allocated one. -/
def bumpMalloc (m : Heap) : Addr := m.top + 1

/-- The check `MAGIC_ASSERT(packet)` and the read of the packet struct. -/
def Heap.packetAt (m : Heap) (a : Addr) : Except Fault PacketCell :=
  match m.get a with
  | some (.packet c) => .ok c
  | _ => .error .assertion

/-- The cast `(PacketLocalHeader*)` of a header pointer and the read through it. -/
def Heap.localAt (m : Heap) (a : Addr) : Except Fault PacketLocalHeader :=
  match m.get a with
  | some (.localHeader h) => .ok h
  | _ => .error .undefined

/-- The cast `(PacketUDPHeader*)` of a header pointer and the read through it. -/
def Heap.udpAt (m : Heap) (a : Addr) : Except Fault PacketUDPHeader :=
  match m.get a with
  | some (.udpHeader h) => .ok h
  | _ => .error .undefined

/-- The cast `(PacketTCPHeader*)` of a header pointer and the read through it. -/
def Heap.tcpAt (m : Heap) (a : Addr) : Except Fault TCPHeaderCell :=
  match m.get a with
  | some (.tcpHeader h) => .ok h
  | _ => .error .undefined

/-- The cells of the `GList` at an address. -/
def Heap.listAt (m : Heap) (a : Addr) : Except Fault (List Nat) :=
  match m.get a with
  | some (.list l) => .ok l
  | _ => .error .undefined

/-- The cells of the `GQueue` at an address. -/
def Heap.queueAt (m : Heap) (a : Addr) : Except Fault (List Nat) :=
  match m.get a with
  | some (.queue q) => .ok q
  | _ => .error .undefined

/-- The TCP header as a value, given the entries of its SACK list. -/
def TCPHeaderCell.toHeader (h : TCPHeaderCell) (selectiveACKs : List Nat) : PacketTCPHeader :=
  { flags := h.flags
    sourceIP := h.sourceIP
    sourcePort := h.sourcePort
    destinationIP := h.destinationIP
    destinationPort := h.destinationPort
    sequence := h.sequence
    acknowledgment := h.acknowledgment
    selectiveACKs := selectiveACKs
    window := h.window
    timestampValue := h.timestampValue
    timestampEcho := h.timestampEcho }

/-- The header a header pointer leads to, read as a value: `some none` for `NULL`, `none` when
the pointer, or the list pointer of a TCP header, does not lead to a block of the right kind. -/
def viewHeader (m : Heap) : Option Addr → Option (Option Header)
  | none => some none
  | some ha =>
    match m.get ha with
    | some (.localHeader h) => some (some (.ofLocal h))
    | some (.udpHeader h) => some (some (.ofUDP h))
    | some (.tcpHeader h) =>
      match h.selectiveACKs with
      | none => some (some (.ofTCP (h.toHeader [])))
      | some la =>
        match m.get la with
        | some (.list l) => some (some (.ofTCP (h.toHeader l)))
        | _ => none
    | _ => none

/-- The status queue a queue pointer leads to. -/
def viewQueue (m : Heap) : Option Addr → Option (List Nat)
  | none => none
  | some qa =>
    match m.get qa with
    | some (.queue q) => some q
    | _ => none

/-- The packet at an address read as a value, following its pointers; `none` when one of them
does not lead to a block of the right kind. -/
def view (m : Heap) (packet : Addr) : Option Packet :=
  match m.get packet with
  | some (.packet pk) =>
    match viewHeader m pk.header, viewQueue m pk.orderedStatus with
    | some header, some orderedStatus =>
      some { referenceCount := pk.referenceCount
             hostID := pk.hostID
             packetID := pk.packetID
             protocol := pk.protocol
             header := header
             payload := pk.payload
             priority := pk.priority
             allStatus := pk.allStatus
             orderedStatus := orderedStatus }
    | _, _ => none
  | _ => none

/-- The SACK list block a header pointer leads to, if any. -/
def listOf (m : Heap) : Option Addr → List Addr
  | none => []
  | some ha =>
    match m.get ha with
    | some (.tcpHeader h) => h.selectiveACKs.toList
    | _ => []

/-- The blocks a packet owns: the packet struct, its header, the SACK list of a TCP header and
the status queue. -/
def footprint (m : Heap) (packet : Addr) : List Addr :=
  match m.get packet with
  | some (.packet pk) =>
    packet :: (pk.header.toList ++ listOf m pk.header ++ pk.orderedStatus.toList)
  | _ => [packet]

/-- The queue part of `packet_copy`: `g_queue_copy` of the status queue when there is one. -/
def copyQueue (malloc : Heap → Addr) (m : Heap) :
    Option Addr → Except Fault (Heap × Option Addr)
  | none => .ok (m, none)
  | some qa =>
    match m.queueAt qa with
    | .error e => .error e
    | .ok q =>
      let a := malloc m
      .ok (m.set a (.queue (g_queue_copy q)), some a)

/-- The header switch of `packet_copy`: `memdup` of the header record under the tag, and for TCP
the list pointer of the copy is cleared and then set to a `g_list_copy` of the list of the
original. -/
def copyHeader (malloc : Heap → Addr) (m : Heap) (protocol : ProtocolType) :
    Option Addr → Except Fault (Heap × Option Addr)
  | none => .ok (m, none)
  | some ha =>
    match protocol with
    | .PLOCAL =>
      match m.localAt ha with
      | .error e => .error e
      | .ok h =>
        let a := malloc m
        .ok (m.set a (.localHeader h), some a)
    | .PUDP =>
      match m.udpAt ha with
      | .error e => .error e
      | .ok h =>
        let a := malloc m
        .ok (m.set a (.udpHeader h), some a)
    | .PTCP =>
      match m.tcpAt ha with
      | .error e => .error e
      | .ok packetHeader =>
        let a := malloc m
        let m := m.set a (.tcpHeader packetHeader)
        let copyHeader := { packetHeader with selectiveACKs := none }
        let m := m.set a (.tcpHeader copyHeader)
        match packetHeader.selectiveACKs with
        | none => .ok (m, some a)
        | some la =>
          match m.listAt la with
          | .error e => .error e
          | .ok l =>
            let b := malloc m
            let m := m.set b (.list (g_list_copy l))
            .ok (m.set a (.tcpHeader { copyHeader with selectiveACKs := some b }), some a)
    | _ => utility_panic

/-- Source `packet_copy` on the heap: the new heap and the address of the copy. -/
def packet_copy (malloc : Heap → Addr) (m : Heap) (packet : Addr) :
    Except Fault (Heap × Addr) :=
  match m.packetAt packet with
  | .error e => .error e
  | .ok pk =>
    let copy := malloc m
    let cp : PacketCell :=
      { referenceCount := 1
        hostID := pk.hostID
        packetID := pk.packetID
        protocol := .PNONE
        header := none
        payload := none
        priority := 0
        allStatus := 0
        orderedStatus := none }
    let m := m.set copy (.packet cp)
    let cp :=
      match pk.payload with
      | some pl => { cp with payload := some pl, priority := pk.priority }
      | none => cp
    let cp := { cp with allStatus := pk.allStatus }
    match copyQueue malloc m pk.orderedStatus with
    | .error e => .error e
    | .ok (m, orderedStatus) =>
      let cp := { cp with orderedStatus := orderedStatus }
      let cp := { cp with protocol := pk.protocol }
      match copyHeader malloc m pk.protocol pk.header with
      | .error e => .error e
      | .ok (m, header) =>
        let cp := { cp with header := header }
        .ok (m.set copy (.packet cp), copy)

/-- Source `packet_updateTCP` on the heap; `selectiveACKs` are the entries of the list of the
caller, which is not one of the lists of the packet. -/
def packet_updateTCP (malloc : Heap → Addr) (cfg : Config) (m : Heap) (packet : Addr)
    (acknowledgement : Nat) (selectiveACKs : List Nat) (window : Nat)
    (timestampValue timestampEcho : Nat) : Except Fault Heap :=
  match m.packetAt packet with
  | .error e => .error e
  | .ok pk =>
    match utility_debugAssert (pk.header ≠ none ∧ pk.protocol = .PTCP), pk.header with
    | .error e, _ => .error e
    | .ok _, none => .error .undefined
    | .ok _, some ha =>
      match m.tcpAt ha with
      | .error e => .error e
      | .ok header =>
        if selectiveACKs ≠ [] ∧ selectiveACKs.length > 0 then
          let m :=
            match header.selectiveACKs with
            | some la => m.free la
            | none => m
          let header := { header with selectiveACKs := none }
          let header := { header with flags := header.flags ||| cfg.PTCP_SACK }
          let b := malloc m
          let m := m.set b (.list (g_list_copy selectiveACKs))
          let header := { header with selectiveACKs := some b }
          .ok (m.set ha (.tcpHeader
            { header with
              acknowledgment := acknowledgement
              window := window
              timestampValue := timestampValue
              timestampEcho := timestampEcho }))
        else
          .ok (m.set ha (.tcpHeader
            { header with
              acknowledgment := acknowledgement
              window := window
              timestampValue := timestampValue
              timestampEcho := timestampEcho }))

/-- Source `packet_toString` on the heap. It reads the packet through its pointers and its text
and faults are those of the value-level function on what it reads; the one block it writes is
the status queue, which the status loop pops and pushes. -/
def packet_toString (cfg : Config) (m : Heap) (packet : Addr) : Except Fault (String × Heap) :=
  match m.packetAt packet with
  | .error e => .error e
  | .ok pk =>
    match view m packet, pk.orderedStatus with
    | some v, some qa =>
      match Shadow.packet_toString cfg v with
      | .error e => .error e
      | .ok r => .ok (r.1, m.set qa (.queue r.2.orderedStatus))
    | _, _ => .error .undefined

/-- Source `packet_addDeliveryStatus` on the heap. -/
def packet_addDeliveryStatus (cfg : Config) (traceEnabled : Bool) (m : Heap) (packet : Addr)
    (status : Nat) : Except Fault Heap :=
  match m.packetAt packet with
  | .error e => .error e
  | .ok pk =>
    let m := m.set packet (.packet { pk with allStatus := pk.allStatus ||| status })
    if traceEnabled then
      match pk.orderedStatus with
      | none => .error .undefined
      | some qa =>
        match m.queueAt qa with
        | .error e => .error e
        | .ok q =>
          let m := m.set qa (.queue (g_queue_push_tail q status))
          match packet_toString cfg m packet with
          | .error e => .error e
          | .ok r => .ok r.2
    else
      .ok m

/-- Source `packet_setPriority` on the heap; the function has no `MAGIC_ASSERT`. -/
def packet_setPriority (m : Heap) (packet : Addr) (value : gdouble) : Except Fault Heap :=
  match m.get packet with
  | some (.packet pk) => .ok (m.set packet (.packet { pk with priority := value }))
  | _ => .error .undefined

/-- A call of one of the three operations that a holder of a packet uses to change it in
place. -/
inductive Mutation where
  | updateTCP (acknowledgement : Nat) (selectiveACKs : List Nat)
      (window timestampValue timestampEcho : Nat)
  | addDeliveryStatus (traceEnabled : Bool) (status : Nat)
  | setPriority (value : gdouble)
  deriving DecidableEq, Repr

/-- The call on the packet at an address. -/
def Mutation.run (malloc : Heap → Addr) (cfg : Config) (m : Heap) (packet : Addr) :
    Mutation → Except Fault Heap
  | .updateTCP acknowledgement selectiveACKs window timestampValue timestampEcho =>
    packet_updateTCP malloc cfg m packet acknowledgement selectiveACKs window timestampValue
      timestampEcho
  | .addDeliveryStatus traceEnabled status =>
    packet_addDeliveryStatus cfg traceEnabled m packet status
  | .setPriority value => packet_setPriority m packet value

/-- The same call on a packet value. -/
def Mutation.toOp : Mutation → Op
  | .updateTCP acknowledgement selectiveACKs window timestampValue timestampEcho =>
    .updateTCP acknowledgement selectiveACKs window timestampValue timestampEcho
  | .addDeliveryStatus traceEnabled status => .addDeliveryStatus traceEnabled status
  | .setPriority value => .setPriority value

/-- A sequence of calls on the packet at an address, stopping at the first fault. -/
def Mutation.runAll (malloc : Heap → Addr) (cfg : Config) (packet : Addr) :
    Heap → List Mutation → Except Fault Heap
  | m, [] => .ok m
  | m, call :: rest =>
    match call.run malloc cfg m packet with
    | .ok m => Mutation.runAll malloc cfg packet m rest
    | .error e => .error e

/-- A heap that holds `sampleTCPPacket` at address 1, its header at 2, its SACK list at 3 and
its status queue at 4. -/
def sampleHeap : Heap :=
  ⟨[(1, .packet ⟨2, 7, 3, .PTCP, some 2, none, 0, 130, some 4⟩),
    (2, .tcpHeader ⟨24, 16777226, 53764, 33554442, 20480, 100, 55, some 3, 1000, 11, 12⟩),
    (3, .list [5, 6, 7, 10]),
    (4, .queue [2, 128])]⟩

end Mem

/-- The flag a call appends to the ordered status log: the status of a
`packet_addDeliveryStatus` made while trace diagnostics are enabled; no other call appends. -/
def Op.tracedStatus : Op → Option Nat
  | .addDeliveryStatus true status => some status
  | _ => none

/-- The flags of the traced `packet_addDeliveryStatus` calls of a sequence of calls, in call
order. -/
def tracedStatuses (ops : List Op) : List Nat := ops.filterMap Op.tracedStatus

/-- The tag a header setter puts on the packet. -/
def Op.setterTag : Op → Option ProtocolType
  | .setLocal _ _ _ _ => some .PLOCAL
  | .setUDP _ _ _ _ _ => some .PUDP
  | .setTCP _ _ _ _ _ _ => some .PTCP
  | _ => none

/-- The name `packet_toString` prints for an entry of the ordered status queue. -/
def statusName (cfg : Config) (statusPtr : Nat) : String :=
  _packet_deliveryStatusToAscii cfg (GPOINTER_TO_UINT statusPtr)

/-- The calls that build `sampleSentinelPacket` from `packet_new_inner 0 0`: a TCP header with
the ACK flag and an update whose only SACK entry is the sequence number 4294967295. -/
def sampleSentinelOps : List Op :=
  [.setTCP 8 16777226 53764 33554442 20480 100,
   .updateTCP 0 [4294967295] 0 0 0]

/-- A TCP packet whose SACK list is [4294967295]. -/
def sampleSentinelPacket : Packet :=
  { referenceCount := 1
    hostID := 0
    packetID := 0
    protocol := .PTCP
    header := some (.ofTCP
      ⟨24, 16777226, 53764, 33554442, 20480, 100, 0, [4294967295], 0, 0, 0⟩)
    payload := none
    priority := 0
    allStatus := 0
    orderedStatus := [] }

/-- The packet `packet_new_inner 7 3` after `packet_setTCP` with the ACK flag, from
10.0.0.1:1234 to 10.0.0.2:80 with sequence number 100. -/
def sampleFreshTCPPacket : Packet :=
  { referenceCount := 1
    hostID := 7
    packetID := 3
    protocol := .PTCP
    header := some (.ofTCP ⟨8, 16777226, 53764, 33554442, 20480, 100, 0, [], 0, 0, 0⟩)
    payload := none
    priority := 0
    allStatus := 0
    orderedStatus := [] }

/-! ## Auxiliary facts about the operations -/

theorem statusLoop_snd (cfg : Config) (n : Nat) :
    ∀ (k : Nat) (q : List Nat) (s : String), k ≤ q.length →
      (statusLoop cfg n k q s).2 = q.drop k ++ q.take k := by
  intro k
  induction k with
  | zero => intro q s _; simp [statusLoop]
  | succ k ih =>
    intro q s hk
    cases q with
    | nil => simp at hk
    | cons x q =>
      have hk' : k ≤ q.length := by simpa using hk
      simp only [statusLoop, g_queue_pop_head, g_queue_push_tail]
      rw [ih _ _ (by simp; omega)]
      simp [List.drop_append_of_le_length hk', List.take_append_of_le_length hk']

theorem statusLoop_full (cfg : Config) (q : List Nat) (s : String) :
    (statusLoop cfg q.length q.length q s).2 = q := by
  rw [statusLoop_snd cfg q.length q.length q s (le_refl _)]
  simp

theorem copyTCPHeader_eq (h : PacketTCPHeader) : copyTCPHeader h = h := by
  unfold copyTCPHeader g_list_copy
  by_cases hs : h.selectiveACKs = []
  · simp [hs]
    cases h
    simp_all
  · simp [hs]

theorem renderProtocol_ok_iff (cfg : Config) (p : Packet) (n : Nat) (s : String) :
    (∃ t, renderProtocol cfg p n s = .ok t) ↔
      (p.protocol.hasHeader = true ∧ headerFits p.protocol p.header = true) := by
  unfold renderProtocol
  cases hp : p.protocol <;> cases hd : p.header <;>
    simp [asLocal, asUDP, asTCP, utility_panic, ProtocolType.hasHeader, headerFits, bind,
      Except.bind, pure, Except.pure]
  all_goals (
    rename_i hdr
    cases hdr <;> simp [asLocal, asUDP, asTCP, headerFits])

theorem renderProtocol_panic (cfg : Config) (p : Packet) (n : Nat) (s : String)
    (hh : p.protocol.hasHeader = false) : renderProtocol cfg p n s = .error .panic := by
  unfold renderProtocol
  cases hp : p.protocol <;> simp [hp, ProtocolType.hasHeader, utility_panic] at hh ⊢

/-- A successful `packet_toString` hands back the packet it was given: the status loop pops and
pushes once per entry, which restores the queue. -/
theorem packet_toString_snd (cfg : Config) (p : Packet) (r : String × Packet)
    (h : packet_toString cfg p = .ok r) : r.2 = p := by
  unfold packet_toString at h
  simp only at h
  split at h
  · exact absurd h (by simp)
  · injection h with h
    subst h
    simp [statusLoop_full]

/-- A call of `packet_toString` that returns was made on a packet whose tag is a header tag and
whose header has the shape of that tag. -/
theorem packet_toString_fits (cfg : Config) (p : Packet) (r : String × Packet)
    (h : packet_toString cfg p = .ok r) :
    p.protocol.hasHeader = true ∧ headerFits p.protocol p.header = true := by
  unfold packet_toString at h
  simp only at h
  split at h
  · exact absurd h (by simp)
  · rename_i t ht
    exact (renderProtocol_ok_iff cfg p _ _).1 ⟨t, ht⟩

/-- On a packet whose tag is a header tag and whose header has the matching shape,
`packet_toString` returns. -/
theorem packet_toString_ok (cfg : Config) (p : Packet)
    (hh : p.protocol.hasHeader = true) (hf : headerFits p.protocol p.header = true) :
    ∃ s, packet_toString cfg p = .ok (s, p) := by
  have key : ∃ r, packet_toString cfg p = .ok r := by
    unfold packet_toString
    simp only
    obtain ⟨t, ht⟩ := (renderProtocol_ok_iff cfg p
      (match p.payload with
        | some pl => payload_getLength pl % 4294967296
        | none => 0)
      ("" ++ "packetID=" ++ printf_u p.hostID ++ ":" ++ printf_u p.packetID ++ " ")).2 ⟨hh, hf⟩
    rw [ht]
    exact ⟨_, rfl⟩
  obtain ⟨r, hr⟩ := key
  have := packet_toString_snd cfg p r hr
  exact ⟨r.1, by rw [hr, ← this]⟩

/-- Without a header tag `packet_toString` panics. -/
theorem packet_toString_panic (cfg : Config) (p : Packet)
    (hh : p.protocol.hasHeader = false) : packet_toString cfg p = .error .panic := by
  unfold packet_toString
  simp only
  rw [renderProtocol_panic cfg p _ _ hh]

/-- The packet `packet_addDeliveryStatus` leaves behind when it returns. -/
theorem packet_addDeliveryStatus_eq (cfg : Config) (t : Bool) (p q : Packet) (status : Nat)
    (h : packet_addDeliveryStatus cfg t p status = .ok q) :
    q = { p with allStatus := p.allStatus ||| status,
                 orderedStatus := if t then p.orderedStatus ++ [status] else p.orderedStatus } := by
  unfold packet_addDeliveryStatus at h
  cases t with
  | false =>
    simp [pure, Except.pure] at h
    simp [← h]
  | true =>
    simp only [if_true, bind, Except.bind, pure, Except.pure, g_queue_push_tail] at h
    split at h
    · exact absurd h (by simp)
    · rename_i r hr
      injection h with h
      rw [← h, packet_toString_snd cfg _ r hr]
      simp

/-- With the trace switch off `packet_addDeliveryStatus` always returns. -/
theorem packet_addDeliveryStatus_quiet (cfg : Config) (p : Packet) (status : Nat) :
    packet_addDeliveryStatus cfg false p status =
      .ok { p with allStatus := p.allStatus ||| status } := by
  simp [packet_addDeliveryStatus, pure, Except.pure]

/-- With the trace switch on `packet_addDeliveryStatus` returns on a packet whose tag is a header
tag and whose header has the matching shape. -/
theorem packet_addDeliveryStatus_traced (cfg : Config) (p : Packet) (status : Nat)
    (hh : p.protocol.hasHeader = true) (hf : headerFits p.protocol p.header = true) :
    packet_addDeliveryStatus cfg true p status =
      .ok { p with allStatus := p.allStatus ||| status,
                   orderedStatus := p.orderedStatus ++ [status] } := by
  unfold packet_addDeliveryStatus
  simp only [if_true, bind, Except.bind, pure, Except.pure, g_queue_push_tail]
  obtain ⟨s, hs⟩ := packet_toString_ok cfg
    { p with allStatus := p.allStatus ||| status, orderedStatus := p.orderedStatus ++ [status] }
    hh hf
  rw [hs]

/-- With the trace switch on and no header tag, `packet_addDeliveryStatus` panics. -/
theorem packet_addDeliveryStatus_panic (cfg : Config) (p : Packet) (status : Nat)
    (hh : p.protocol.hasHeader = false) :
    packet_addDeliveryStatus cfg true p status = .error .panic := by
  unfold packet_addDeliveryStatus
  simp only [if_true, bind, Except.bind, pure, Except.pure, g_queue_push_tail]
  rw [packet_toString_panic cfg
    { p with allStatus := p.allStatus ||| status, orderedStatus := p.orderedStatus ++ [status] } hh]

/-- The packet a successful `packet_copy` returns: the original with count 1, and with the
priority kept only when a payload is attached. -/
theorem packet_copy_eq (p c : Packet) (h : packet_copy p = .ok c) :
    c = { p with referenceCount := 1,
                 priority := if p.payload.isSome then p.priority else 0 } := by
  unfold packet_copy at h
  simp only [bind, Except.bind, pure, Except.pure, g_queue_copy] at h
  cases hd : p.header with
  | none =>
    simp only [hd] at h
    injection h with h
    subst h
    cases hp : p.payload <;> cases p <;> simp_all
  | some hdr =>
    simp only [hd] at h
    cases hp : p.protocol <;> cases hdr <;>
      simp [hp, asLocal, asUDP, asTCP, utility_panic, copyTCPHeader_eq] at h
    all_goals (
      subst h
      cases hpl : p.payload <;> cases p <;> simp_all)

/-- The call `packet_copy` returns on every packet whose header, when present, has the shape of
a header tag. -/
theorem packet_copy_ok (p : Packet) (hf : headerFits p.protocol p.header = true)
    (hm : p.protocol ≠ .PMOCK) : ∃ c, packet_copy p = .ok c := by
  unfold packet_copy
  simp only [bind, Except.bind, pure, Except.pure, g_queue_copy]
  cases hd : p.header with
  | none => exact ⟨_, rfl⟩
  | some hdr =>
    cases hp : p.protocol <;> cases hdr <;>
      simp [hp, hd, headerFits, asLocal, asUDP, asTCP] at hf hm ⊢

/-- The header record `packet_setLocal` builds. -/
theorem packet_setLocal_iff (p q : Packet) (flags : Nat) (s d : Int) (port : Nat) :
    packet_setLocal p flags s d port = .ok q ↔
      (p.header = none ∧ p.protocol = .PNONE ∧ 0 < port ∧
        q = { p with header := some (.ofLocal ⟨flags, s, d, port⟩), protocol := .PLOCAL }) := by
  unfold packet_setLocal utility_debugAssert
  by_cases h1 : p.header = none ∧ p.protocol = .PNONE
  · by_cases h2 : port > 0
    · simp [h1, h2, bind, Except.bind, pure, Except.pure, eq_comm]
    · simp [h1, h2, bind, Except.bind, pure, Except.pure]
      try tauto
  · simp only [h1, if_false, bind, Except.bind]
    constructor
    · intro h; exact absurd h (by simp)
    · intro h; exact absurd ⟨h.1, h.2.1⟩ h1

/-- The header record `packet_setUDP` builds. -/
theorem packet_setUDP_iff (p q : Packet) (flags a b c d : Nat) :
    packet_setUDP p flags a b c d = .ok q ↔
      (p.header = none ∧ p.protocol = .PNONE ∧ (a ≠ 0 ∧ b ≠ 0 ∧ c ≠ 0 ∧ d ≠ 0) ∧
        q = { p with header := some (.ofUDP ⟨flags, a, b, c, d⟩), protocol := .PUDP }) := by
  unfold packet_setUDP utility_debugAssert
  by_cases h1 : p.header = none ∧ p.protocol = .PNONE
  · by_cases h2 : a ≠ 0 ∧ b ≠ 0 ∧ c ≠ 0 ∧ d ≠ 0
    · simp [h1, h2, bind, Except.bind, pure, Except.pure, eq_comm]
    · simp [h1, h2, bind, Except.bind, pure, Except.pure]
      try tauto
  · simp only [h1, if_false, bind, Except.bind]
    constructor
    · intro h; exact absurd h (by simp)
    · intro h; exact absurd ⟨h.1, h.2.1⟩ h1

/-- The header record `packet_setTCP` builds. -/
theorem packet_setTCP_iff (p q : Packet) (flags a b c d sequence : Nat) :
    packet_setTCP p flags a b c d sequence = .ok q ↔
      (p.header = none ∧ p.protocol = .PNONE ∧ (a ≠ 0 ∧ b ≠ 0 ∧ c ≠ 0 ∧ d ≠ 0) ∧
        q = { p with
              header := some (.ofTCP ⟨flags, a, b, c, d, sequence, 0, [], 0, 0, 0⟩),
              protocol := .PTCP }) := by
  unfold packet_setTCP utility_debugAssert
  by_cases h1 : p.header = none ∧ p.protocol = .PNONE
  · by_cases h2 : a ≠ 0 ∧ b ≠ 0 ∧ c ≠ 0 ∧ d ≠ 0
    · simp [h1, h2, bind, Except.bind, pure, Except.pure, eq_comm]
    · simp [h1, h2, bind, Except.bind, pure, Except.pure]
      try tauto
  · simp only [h1, if_false, bind, Except.bind]
    constructor
    · intro h; exact absurd h (by simp)
    · intro h; exact absurd ⟨h.1, h.2.1⟩ h1

/-- A header setter that does not return ends in the assertion fault. -/
theorem packet_setUDP_fault (p : Packet) (flags a b c d : Nat)
    (h : ¬ (p.header = none ∧ p.protocol = .PNONE ∧ a ≠ 0 ∧ b ≠ 0 ∧ c ≠ 0 ∧ d ≠ 0)) :
    packet_setUDP p flags a b c d = .error .assertion := by
  unfold packet_setUDP utility_debugAssert
  by_cases h1 : p.header = none ∧ p.protocol = .PNONE
  · have h2 : ¬ (a ≠ 0 ∧ b ≠ 0 ∧ c ≠ 0 ∧ d ≠ 0) := fun h2 => h ⟨h1.1, h1.2, h2⟩
    simp only [h1, h2, and_self, if_true, if_false, bind, Except.bind]
  · simp only [h1, if_false, bind, Except.bind]

theorem packet_setTCP_fault (p : Packet) (flags a b c d sequence : Nat)
    (h : ¬ (p.header = none ∧ p.protocol = .PNONE ∧ a ≠ 0 ∧ b ≠ 0 ∧ c ≠ 0 ∧ d ≠ 0)) :
    packet_setTCP p flags a b c d sequence = .error .assertion := by
  unfold packet_setTCP utility_debugAssert
  by_cases h1 : p.header = none ∧ p.protocol = .PNONE
  · have h2 : ¬ (a ≠ 0 ∧ b ≠ 0 ∧ c ≠ 0 ∧ d ≠ 0) := fun h2 => h ⟨h1.1, h1.2, h2⟩
    simp only [h1, h2, and_self, if_true, if_false, bind, Except.bind]
  · simp only [h1, if_false, bind, Except.bind]

theorem packet_setLocal_fault (p : Packet) (flags : Nat) (s d : Int) (port : Nat)
    (h : ¬ (p.header = none ∧ p.protocol = .PNONE ∧ 0 < port)) :
    packet_setLocal p flags s d port = .error .assertion := by
  unfold packet_setLocal utility_debugAssert
  by_cases h1 : p.header = none ∧ p.protocol = .PNONE
  · have h2 : ¬ (port > 0) := fun h2 => h ⟨h1.1, h1.2, h2⟩
    simp only [h1, h2, and_self, if_true, if_false, bind, Except.bind]
  · simp only [h1, if_false, bind, Except.bind]

/-- The packet `packet_updateTCP` leaves behind: it returns exactly on a TCP-tagged packet with a
TCP header. -/
theorem packet_updateTCP_iff (cfg : Config) (p q : Packet) (ack : Nat) (sacks : List Nat)
    (window tsv tse : Nat) :
    packet_updateTCP cfg p ack sacks window tsv tse = .ok q ↔
      (p.protocol = .PTCP ∧ ∃ h, p.header = some (.ofTCP h) ∧
        q = { p with header := some (.ofTCP
          { h with
            flags := if sacks = [] then h.flags else h.flags ||| cfg.PTCP_SACK
            selectiveACKs := if sacks = [] then h.selectiveACKs else sacks
            acknowledgment := ack
            window := window
            timestampValue := tsv
            timestampEcho := tse }) }) := by
  unfold packet_updateTCP utility_debugAssert
  by_cases hp : p.protocol = .PTCP
  · cases hd : p.header with
    | none => simp [hp, bind, Except.bind]
    | some hdr =>
      cases hdr with
      | ofTCP h =>
        simp only [hp, ne_eq, reduceCtorEq, not_false_eq_true, and_self, if_true, bind,
          Except.bind, asTCP, pure, Except.pure, g_list_copy, true_and]
        by_cases hs : sacks = []
        · subst hs
          simp [eq_comm]
        · have hl : sacks.length > 0 := List.length_pos.mpr hs
          by_cases ho : h.selectiveACKs = [] <;> simp [hs, hl, ho, eq_comm]
      | ofLocal h => simp [hp, bind, Except.bind, asTCP]
      | ofUDP h => simp [hp, bind, Except.bind, asTCP]
  · simp [hp, bind, Except.bind]

/-- The packet `packet_setPayload` leaves behind. -/
theorem packet_setPayload_eq (p q : Packet) (thread : Option Thread) (ptr : PluginVirtualPtr)
    (len : Nat) (h : packet_setPayload p thread ptr len = .ok q) :
    p.payload = none ∧ ∃ t, thread = some t ∧
      q = { p with payload := some (payload_new t ptr len), priority := t.nextPacketPriority } := by
  unfold packet_setPayload utility_debugAssert at h
  cases thread with
  | none => simp [bind, Except.bind] at h
  | some t =>
    by_cases h2 : ptr.val = 0
    · simp [h2, bind, Except.bind] at h
    · by_cases h3 : p.payload = none
      · simp [h2, h3, bind, Except.bind, pure, Except.pure] at h
        exact ⟨h3, t, rfl, h.symm⟩
      · simp [h2, h3, bind, Except.bind] at h

/-- The packet a non-final `packet_unref` leaves behind. -/
theorem packet_unref_eq (cfg : Config) (t : Bool) (p q : Packet)
    (h : packet_unref cfg t p = .ok (some q)) :
    q = { p with referenceCount := (p.referenceCount + 4294967295) % 4294967296 } := by
  unfold packet_unref at h
  simp only [bind, Except.bind, pure, Except.pure] at h
  split at h
  · split at h
    · exact absurd h (by simp)
    · split at h
      · exact absurd h (by simp)
      · exact absurd h (by simp)
  · exact (Option.some.inj (Except.ok.inj h)).symm

/-- What a successful call does to the tag and the header: it leaves both alone, or it is
`packet_setMock` and only the tag changes, or it is a header setter putting a matching header on
a packet that had neither tag nor header, or it is `packet_updateTCP` replacing a TCP header by
a TCP header. -/
theorem op_run_frame (cfg : Config) (op : Op) (p q : Packet) (h : op.run cfg p = .ok (some q)) :
    (q.protocol = p.protocol ∧ q.header = p.header) ∨
    (op = .setMock ∧ q.protocol = .PMOCK ∧ q.header = p.header) ∨
    (p.protocol = .PNONE ∧ p.header = none ∧ q.protocol.hasHeader = true ∧
      headerFits q.protocol q.header = true) ∨
    (p.protocol = .PTCP ∧ q.protocol = .PTCP ∧
      ∃ h1 h2, p.header = some (.ofTCP h1) ∧ q.header = some (.ofTCP h2)) := by
  cases op with
  | setPayload thread ptr len =>
    simp only [Op.run, Except.map] at h
    split at h
    · exact absurd h (by simp)
    · rename_i r hr
      injection h with h; injection h with h; subst h
      obtain ⟨_, t, _, hq⟩ := packet_setPayload_eq p r thread ptr len hr
      left; simp [hq]
  | copy =>
    simp only [Op.run, Except.map] at h
    split at h
    · exact absurd h (by simp)
    · rename_i r hr
      injection h with h; injection h with h; subst h
      left; simp [packet_copy_eq p r hr]
  | ref =>
    simp only [Op.run] at h
    injection h with h; injection h with h; subst h
    left; simp [packet_ref]
  | unref t =>
    simp only [Op.run] at h
    left; simp [packet_unref_eq cfg t p q h]
  | setPriority v =>
    simp only [Op.run] at h
    injection h with h; injection h with h; subst h
    left; simp [packet_setPriority]
  | setMock =>
    simp only [Op.run] at h
    injection h with h; injection h with h; subst h
    right; left; simp [packet_setMock]
  | setLocal flags s d port =>
    simp only [Op.run, Except.map] at h
    split at h
    · exact absurd h (by simp)
    · rename_i r hr
      injection h with h; injection h with h; subst h
      obtain ⟨h1, h2, _, hq⟩ := (packet_setLocal_iff p r flags s d port).1 hr
      right; right; left
      simp [hq, h1, h2, ProtocolType.hasHeader, headerFits]
  | setUDP flags a b c d =>
    simp only [Op.run, Except.map] at h
    split at h
    · exact absurd h (by simp)
    · rename_i r hr
      injection h with h; injection h with h; subst h
      obtain ⟨h1, h2, _, hq⟩ := (packet_setUDP_iff p r flags a b c d).1 hr
      right; right; left
      simp [hq, h1, h2, ProtocolType.hasHeader, headerFits]
  | setTCP flags a b c d sequence =>
    simp only [Op.run, Except.map] at h
    split at h
    · exact absurd h (by simp)
    · rename_i r hr
      injection h with h; injection h with h; subst h
      obtain ⟨h1, h2, _, hq⟩ := (packet_setTCP_iff p r flags a b c d sequence).1 hr
      right; right; left
      simp [hq, h1, h2, ProtocolType.hasHeader, headerFits]
  | updateTCP ack sacks window tsv tse =>
    simp only [Op.run, Except.map] at h
    split at h
    · exact absurd h (by simp)
    · rename_i r hr
      injection h with h; injection h with h; subst h
      obtain ⟨h1, hd, h2, hq⟩ := (packet_updateTCP_iff cfg p r ack sacks window tsv tse).1 hr
      right; right; right
      exact ⟨h1, by simp [hq, h1], hd, _, h2, by rw [hq]⟩
  | render =>
    simp only [Op.run, Except.map] at h
    split at h
    · exact absurd h (by simp)
    · rename_i r hr
      injection h with h; injection h with h; subst h
      left; simp [packet_toString_snd cfg p r hr]
  | addDeliveryStatus t status =>
    simp only [Op.run, Except.map] at h
    split at h
    · exact absurd h (by simp)
    · rename_i r hr
      injection h with h; injection h with h; subst h
      left; simp [packet_addDeliveryStatus_eq cfg t p r status hr]

/-- One more call at the end of a sequence. -/
theorem runOps_cons_ok (cfg : Config) (p q : Packet) (op : Op) (rest : List Op)
    (h : runOps cfg p (op :: rest) = .ok (some q)) :
    ∃ r, op.run cfg p = .ok (some r) ∧ runOps cfg r rest = .ok (some q) := by
  simp only [runOps] at h
  split at h
  · rename_i r hr
    exact ⟨r, hr, h⟩
  · split at h <;> exact absurd h (by simp)
  · exact absurd h (by simp)

/-- A property of packets that every successful allowed call preserves holds all along a
sequence of such calls. -/
theorem reachFrom_induct (cfg : Config) (allowed : Op → Bool) (P : Packet → Prop)
    (hstep : ∀ (op : Op) (p q : Packet), allowed op = true → P p →
      op.run cfg p = .ok (some q) → P q)
    (p q : Packet) (hr : ReachFrom cfg allowed p q) (hp : P p) : P q := by
  obtain ⟨ops, hall, hrun⟩ := hr
  induction ops generalizing p with
  | nil =>
    simp only [runOps] at hrun
    exact (Option.some.inj (Except.ok.inj hrun)) ▸ hp
  | cons op rest ih =>
    obtain ⟨r, h1, h2⟩ := runOps_cons_ok cfg p q op rest hrun
    exact ih r (hstep op p r (hall op (List.mem_cons_self _ _)) hp h1)
      (fun o ho => hall o (List.mem_cons_of_mem _ ho)) h2

/-- The shape of the header follows the tag in every packet observable after a packet in which
it does. -/
theorem reachFrom_headerFits (cfg : Config) (allowed : Op → Bool) (p q : Packet)
    (hr : ReachFrom cfg allowed p q) (hp : headerFits p.protocol p.header = true) :
    headerFits q.protocol q.header = true := by
  refine reachFrom_induct cfg allowed (fun x => headerFits x.protocol x.header = true) ?_ p q hr hp
  intro op a b _ ih hrun
  rcases op_run_frame cfg op _ _ hrun with h | h | h | h
  · rw [h.1, h.2]; exact ih
  · rw [h.2.1]; cases hd : Packet.header _ <;> simp [headerFits]
  · exact h.2.2.2
  · obtain ⟨_, h2, _, _, _, h4⟩ := h
    rw [h2, h4]; rfl

theorem headerFits_new (hostID packetID : Nat) :
    headerFits (packet_new_inner hostID packetID).protocol
      (packet_new_inner hostID packetID).header = true := rfl

/-- In every reachable packet the shape of the header follows the tag. -/
theorem reachable_headerFits (cfg : Config) (allowed : Op → Bool) (p : Packet)
    (hr : Reachable cfg allowed p) : headerFits p.protocol p.header = true := by
  obtain ⟨hostID, packetID, h⟩ := hr
  exact reachFrom_headerFits cfg allowed _ p h (headerFits_new hostID packetID)

theorem sampleTCPPacket_reachable : Reachable sampleConfig anyOp sampleTCPPacket :=
  ⟨7, 3, sampleTCPOps, by decide, rfl⟩

/-! ## C1: `packet_copy` -/

/-- C1: for every reachable packet whose tag is None, Local, UDP or TCP, `packet_copy` returns a
packet with the same protocol tag, the same header (hence the same flags, addresses, ports,
descriptor handles, sequence, acknowledgment, window, timestamps and, for TCP, the same SACK
entries in the same order), the same hostID and packetID, the same status bitmask, the same
ordered status log, the same payload handle, and reference count 1. -/
theorem packet_copy_faithful (cfg : Config) (p : Packet) (hr : Reachable cfg anyOp p)
    (hm : p.protocol ≠ .PMOCK) :
    ∃ c, packet_copy p = .ok c ∧
      packet_getProtocol c = packet_getProtocol p ∧
      c.header = p.header ∧
      (∀ h, p.header = some (.ofTCP h) →
        ∃ hc, c.header = some (.ofTCP hc) ∧ hc.selectiveACKs = h.selectiveACKs) ∧
      c.hostID = p.hostID ∧ c.packetID = p.packetID ∧
      packet_getDeliveryStatus c = packet_getDeliveryStatus p ∧
      c.orderedStatus = p.orderedStatus ∧
      c.payload = p.payload ∧
      c.referenceCount = 1 := by
  obtain ⟨c, hc⟩ := packet_copy_ok p (reachable_headerFits cfg anyOp p hr) hm
  refine ⟨c, hc, ?_⟩
  have he := packet_copy_eq p c hc
  subst he
  refine ⟨rfl, rfl, ?_, rfl, rfl, rfl, rfl, rfl, rfl⟩
  intro h hh
  exact ⟨h, hh, rfl⟩

/-- C1 on `sampleTCPPacket`, which two owners hold: the copy has count 1 and the same SACK list. -/
theorem packet_copy_faithful_witness :
    sampleTCPPacket.referenceCount = 2 ∧
    ∃ c, packet_copy sampleTCPPacket = .ok c ∧
      packet_getProtocol c = packet_getProtocol sampleTCPPacket ∧
      c.header = sampleTCPPacket.header ∧
      (∀ h, sampleTCPPacket.header = some (.ofTCP h) →
        ∃ hc, c.header = some (.ofTCP hc) ∧ hc.selectiveACKs = h.selectiveACKs) ∧
      c.hostID = sampleTCPPacket.hostID ∧ c.packetID = sampleTCPPacket.packetID ∧
      packet_getDeliveryStatus c = packet_getDeliveryStatus sampleTCPPacket ∧
      c.orderedStatus = sampleTCPPacket.orderedStatus ∧
      c.payload = sampleTCPPacket.payload ∧
      c.referenceCount = 1 :=
  ⟨rfl, packet_copy_faithful sampleConfig sampleTCPPacket sampleTCPPacket_reachable (by decide)⟩

/-! ## C2: the SACK list under `packet_updateTCP` -/

theorem lor_land_self (x m : Nat) : (x ||| m) &&& m = m := by
  apply Nat.eq_of_testBit_eq
  intro i
  simp only [Nat.testBit_and, Nat.testBit_or]
  cases x.testBit i <;> cases m.testBit i <;> rfl

/-- C2: `packet_updateTCP` on a TCP packet returns; with an empty (or absent) SACK list the
stored SACK list and the header flags, the SACK bit among them, are what they were; with a
non-empty list the stored list is the given list as given and the SACK bit is set. -/
theorem packet_updateTCP_sack (cfg : Config) (p : Packet) (h : PacketTCPHeader) (ack : Nat)
    (sacks : List Nat) (window tsv tse : Nat)
    (hp : p.protocol = .PTCP) (hh : p.header = some (.ofTCP h)) :
    ∃ q hq, packet_updateTCP cfg p ack sacks window tsv tse = .ok q ∧
      q.header = some (.ofTCP hq) ∧
      (sacks = [] → hq.selectiveACKs = h.selectiveACKs ∧ hq.flags = h.flags ∧
        hq.flags &&& cfg.PTCP_SACK = h.flags &&& cfg.PTCP_SACK) ∧
      (sacks ≠ [] → hq.selectiveACKs = sacks ∧ hq.flags &&& cfg.PTCP_SACK = cfg.PTCP_SACK) := by
  refine ⟨_, _, (packet_updateTCP_iff cfg p _ ack sacks window tsv tse).2 ⟨hp, h, hh, rfl⟩, rfl, ?_, ?_⟩
  · intro hs
    simp [hs]
  · intro hs
    simp [hs, lor_land_self]

/-- C2 on `sampleTCPPacket`, whose stored list is [5, 6, 7, 10]: the update with [9, 3, 9]
stores [9, 3, 9]. -/
theorem packet_updateTCP_sack_witness :
    ∃ q hq, packet_updateTCP sampleConfig sampleTCPPacket 1 [9, 3, 9] 2 3 4 = .ok q ∧
      q.header = some (.ofTCP hq) ∧
      ([9, 3, 9] = ([] : List Nat) → hq.selectiveACKs = sampleTCPHeader.selectiveACKs ∧
        hq.flags = sampleTCPHeader.flags ∧
        hq.flags &&& sampleConfig.PTCP_SACK = sampleTCPHeader.flags &&& sampleConfig.PTCP_SACK) ∧
      ([9, 3, 9] ≠ ([] : List Nat) → hq.selectiveACKs = [9, 3, 9] ∧
        hq.flags &&& sampleConfig.PTCP_SACK = sampleConfig.PTCP_SACK) :=
  packet_updateTCP_sack sampleConfig sampleTCPPacket sampleTCPHeader 1 [9, 3, 9] 2 3 4 rfl rfl

/-! ## C3: the accumulated delivery status -/

theorem foldl_lor_testBit (l : List Nat) (a i : Nat) :
    (l.foldl (· ||| ·) a).testBit i = (a.testBit i || l.any (fun x => x.testBit i)) := by
  induction l generalizing a with
  | nil => simp
  | cons x l ih =>
    simp only [List.foldl_cons, List.any_cons]
    rw [ih, Nat.testBit_or, Bool.or_assoc]

/-- Two runs of flags with the same members have the same bitwise OR. -/
theorem foldl_lor_congr (l1 l2 : List Nat) (a : Nat) (h : ∀ f, f ∈ l1 ↔ f ∈ l2) :
    l1.foldl (· ||| ·) a = l2.foldl (· ||| ·) a := by
  apply Nat.eq_of_testBit_eq
  intro i
  rw [foldl_lor_testBit, foldl_lor_testBit]
  congr 1
  rw [Bool.eq_iff_iff]
  simp only [List.any_eq_true]
  constructor
  · rintro ⟨x, hx, hb⟩; exact ⟨x, (h x).1 hx, hb⟩
  · rintro ⟨x, hx, hb⟩; exact ⟨x, (h x).2 hx, hb⟩

/-- The packet a run of `packet_addDeliveryStatus` calls leaves behind, when either no call is
traced or the tag of the packet is a header tag and its header has the shape of that tag. -/
theorem addDeliveryStatuses_eq (cfg : Config) (p : Packet) (calls : List (Bool × Nat))
    (hsafe : (∀ c ∈ calls, c.1 = false) ∨
      (p.protocol.hasHeader = true ∧ headerFits p.protocol p.header = true)) :
    addDeliveryStatuses cfg p calls =
      .ok { p with
            allStatus := (calls.map Prod.snd).foldl (· ||| ·) p.allStatus
            orderedStatus :=
              p.orderedStatus ++ (calls.filter (fun c => c.1)).map Prod.snd } := by
  induction calls generalizing p with
  | nil => simp [addDeliveryStatuses]
  | cons c rest ih =>
    obtain ⟨t, status⟩ := c
    have hstep : packet_addDeliveryStatus cfg t p status =
        .ok { p with allStatus := p.allStatus ||| status,
                     orderedStatus := if t then p.orderedStatus ++ [status]
                                      else p.orderedStatus } := by
      cases t with
      | false => simp [packet_addDeliveryStatus_quiet]
      | true =>
        rcases hsafe with h | h
        · exact absurd (h (true, status) (List.mem_cons_self _ _)) (by simp)
        · simp [packet_addDeliveryStatus_traced cfg p status h.1 h.2]
    simp only [addDeliveryStatuses, hstep]
    rw [ih]
    · cases t <;> simp
    · rcases hsafe with h | h
      · left; intro c hc; exact h c (List.mem_cons_of_mem _ hc)
      · right; exact h

/-- C3 as stated fails: on a fresh packet with trace diagnostics enabled the first
`packet_addDeliveryStatus` panics inside `packet_toString` (the tag is still None), so no
accumulated status is ever returned. -/
theorem addDeliveryStatus_fresh_traced_panics :
    addDeliveryStatuses sampleConfig (packet_new_inner 0 0) [(true, 2)] = .error .panic ∧
    ¬ ∃ q, addDeliveryStatuses sampleConfig (packet_new_inner 0 0) [(true, 2)] = .ok q ∧
        packet_getDeliveryStatus q = 0 ||| 2 := by
  have h : addDeliveryStatuses sampleConfig (packet_new_inner 0 0) [(true, 2)] = .error .panic :=
    rfl
  refine ⟨h, ?_⟩
  rintro ⟨q, hq, _⟩
  rw [h] at hq
  exact absurd hq (by simp)

/-- C3, amended: when no call is traced, or the tag of the packet is Local, UDP or TCP and its
header is the one of that tag, every run of `packet_addDeliveryStatus` calls returns and
`packet_getDeliveryStatus` is then the status before the run ORed with every flag passed (0 on a
fresh packet); a run with the same flags in another order or with repetitions gives the same
status; and a bit set after the run is still set after any later run. The condition is on the
tag: a header under the tag Mock does not make a traced call return. -/
theorem addDeliveryStatus_accumulates (cfg : Config) (p : Packet)
    (calls other later : List (Bool × Nat))
    (hsafe : (∀ c ∈ calls ++ other ++ later, c.1 = false) ∨
      (p.protocol.hasHeader = true ∧ headerFits p.protocol p.header = true))
    (hsame : (∀ f ∈ other.map Prod.snd, f ∈ calls.map Prod.snd) ∧
      (∀ f ∈ calls.map Prod.snd, f ∈ other.map Prod.snd)) :
    ∃ q q2 r, addDeliveryStatuses cfg p calls = .ok q ∧
      packet_getDeliveryStatus q =
        (calls.map Prod.snd).foldl (· ||| ·) (packet_getDeliveryStatus p) ∧
      addDeliveryStatuses cfg p other = .ok q2 ∧
      packet_getDeliveryStatus q2 = packet_getDeliveryStatus q ∧
      addDeliveryStatuses cfg q later = .ok r ∧
      ∀ i, (packet_getDeliveryStatus q).testBit i = true →
        (packet_getDeliveryStatus r).testBit i = true := by
  have h1 : (∀ c ∈ calls, c.1 = false) ∨
      (p.protocol.hasHeader = true ∧ headerFits p.protocol p.header = true) := by
    rcases hsafe with h | h
    · left; intro c hc; exact h c (by simp [hc])
    · right; exact h
  have h2 : (∀ c ∈ other, c.1 = false) ∨
      (p.protocol.hasHeader = true ∧ headerFits p.protocol p.header = true) := by
    rcases hsafe with h | h
    · left; intro c hc; exact h c (by simp [hc])
    · right; exact h
  refine ⟨_, _, _, addDeliveryStatuses_eq cfg p calls h1, rfl,
    addDeliveryStatuses_eq cfg p other h2, ?_, addDeliveryStatuses_eq cfg _ later ?_, ?_⟩
  · simp only [packet_getDeliveryStatus]
    exact foldl_lor_congr _ _ _ (fun f => ⟨hsame.1 f, hsame.2 f⟩)
  · rcases hsafe with h | h
    · left; intro c hc; exact h c (by simp [hc])
    · right; exact h
  · intro i hi
    simp only [packet_getDeliveryStatus] at hi ⊢
    rw [foldl_lor_testBit, hi]
    rfl

/-- C3 on a fresh packet without tracing: the flags 2, 128, 2 and their rearrangement 128, 2
both give 130, and the later flag 4 keeps those bits. -/
theorem addDeliveryStatus_accumulates_witness :
    ∃ q q2 r,
      addDeliveryStatuses sampleConfig (packet_new_inner 7 3)
        [(false, 2), (false, 128), (false, 2)] = .ok q ∧
      packet_getDeliveryStatus q =
        ([(false, 2), (false, 128), (false, 2)].map Prod.snd).foldl (· ||| ·)
          (packet_getDeliveryStatus (packet_new_inner 7 3)) ∧
      addDeliveryStatuses sampleConfig (packet_new_inner 7 3) [(false, 128), (false, 2)] =
        .ok q2 ∧
      packet_getDeliveryStatus q2 = packet_getDeliveryStatus q ∧
      addDeliveryStatuses sampleConfig q [(false, 4)] = .ok r ∧
      ∀ i, (packet_getDeliveryStatus q).testBit i = true →
        (packet_getDeliveryStatus r).testBit i = true :=
  addDeliveryStatus_accumulates sampleConfig (packet_new_inner 7 3)
    [(false, 2), (false, 128), (false, 2)] [(false, 128), (false, 2)] [(false, 4)]
    (Or.inl (by decide)) (by decide)

/-! ## C4: set-then-get round trip -/

/-- C4: on a fresh packet, `packet_setUDP` and `packet_setTCP` with non-zero addressing return,
the four addressing accessors then return the values passed in, unchanged, and
`packet_getProtocol` returns the tag of the setter; `packet_setLocal` returns for a port above
zero, and after it both port accessors return that port, both address accessors return
`htonl(INADDR_LOOPBACK)`, the tag is Local and the header size is 0. -/
theorem set_get_roundtrip (cfg : Config) (hostID packetID flags srcIP srcPort dstIP dstPort : Nat)
    (sequence : Nat) (src dst : Int) (port : Nat)
    (hnz : srcIP ≠ 0 ∧ srcPort ≠ 0 ∧ dstIP ≠ 0 ∧ dstPort ≠ 0) :
    (∃ u, packet_setUDP (packet_new_inner hostID packetID) flags srcIP srcPort dstIP dstPort =
        .ok u ∧
      packet_getSourceIP cfg u = .ok srcIP ∧ packet_getSourcePort u = .ok srcPort ∧
      packet_getDestinationIP cfg u = .ok dstIP ∧ packet_getDestinationPort u = .ok dstPort ∧
      packet_getProtocol u = .PUDP) ∧
    (∃ t, packet_setTCP (packet_new_inner hostID packetID) flags srcIP srcPort dstIP dstPort
        sequence = .ok t ∧
      packet_getSourceIP cfg t = .ok srcIP ∧ packet_getSourcePort t = .ok srcPort ∧
      packet_getDestinationIP cfg t = .ok dstIP ∧ packet_getDestinationPort t = .ok dstPort ∧
      packet_getProtocol t = .PTCP) ∧
    (0 < port → ∃ l, packet_setLocal (packet_new_inner hostID packetID) flags src dst port =
        .ok l) ∧
    (∀ l, packet_setLocal (packet_new_inner hostID packetID) flags src dst port = .ok l →
      packet_getSourcePort l = .ok port ∧ packet_getDestinationPort l = .ok port ∧
      packet_getSourceIP cfg l = .ok (cfg.htonl INADDR_LOOPBACK) ∧
      packet_getDestinationIP cfg l = .ok (cfg.htonl INADDR_LOOPBACK) ∧
      packet_getProtocol l = .PLOCAL ∧ packet_getHeaderSize cfg l = 0) := by
  refine ⟨⟨_, (packet_setUDP_iff _ _ flags srcIP srcPort dstIP dstPort).2 ⟨rfl, rfl, hnz, rfl⟩,
      rfl, rfl, rfl, rfl, rfl⟩,
    ⟨_, (packet_setTCP_iff _ _ flags srcIP srcPort dstIP dstPort sequence).2 ⟨rfl, rfl, hnz, rfl⟩,
      rfl, rfl, rfl, rfl, rfl⟩, ?_, ?_⟩
  · intro hport
    exact ⟨_, (packet_setLocal_iff _ _ flags src dst port).2 ⟨rfl, rfl, hport, rfl⟩⟩
  · intro l hl
    obtain ⟨_, _, _, hq⟩ := (packet_setLocal_iff _ _ flags src dst port).1 hl
    subst hq
    exact ⟨rfl, rfl, rfl, rfl, rfl, rfl⟩

/-- C4 on host 7: 10.0.0.1:1234 to 10.0.0.2:80 in network byte order, and the local port
htons(80) = 20480. -/
theorem set_get_roundtrip_witness :
    (∃ u, packet_setUDP (packet_new_inner 7 1) 0 16777226 53764 33554442 20480 = .ok u ∧
      packet_getSourceIP sampleConfig u = .ok 16777226 ∧ packet_getSourcePort u = .ok 53764 ∧
      packet_getDestinationIP sampleConfig u = .ok 33554442 ∧
      packet_getDestinationPort u = .ok 20480 ∧ packet_getProtocol u = .PUDP) ∧
    (∃ t, packet_setTCP (packet_new_inner 7 1) 0 16777226 53764 33554442 20480 100 = .ok t ∧
      packet_getSourceIP sampleConfig t = .ok 16777226 ∧ packet_getSourcePort t = .ok 53764 ∧
      packet_getDestinationIP sampleConfig t = .ok 33554442 ∧
      packet_getDestinationPort t = .ok 20480 ∧ packet_getProtocol t = .PTCP) ∧
    (∃ l, packet_setLocal (packet_new_inner 7 1) 0 3 9 20480 = .ok l ∧
      packet_getSourcePort l = .ok 20480 ∧ packet_getDestinationPort l = .ok 20480 ∧
      packet_getSourceIP sampleConfig l = .ok 16777343 ∧
      packet_getDestinationIP sampleConfig l = .ok 16777343 ∧
      packet_getProtocol l = .PLOCAL ∧ packet_getHeaderSize sampleConfig l = 0) := by
  have h := set_get_roundtrip sampleConfig 7 1 0 16777226 53764 33554442 20480 100 3 9 20480
    (by decide)
  obtain ⟨hu, ht, hl, hget⟩ := h
  obtain ⟨l, hl⟩ := hl (by decide)
  exact ⟨hu, ht, l, hl, hget l hl⟩

/-! ## C5: the guards of the header setters -/

theorem header_isSome_step (cfg : Config) (op : Op) (p q : Packet)
    (hp : p.header.isSome = true) (h : op.run cfg p = .ok (some q)) :
    q.header.isSome = true := by
  rcases op_run_frame cfg op p q h with h | h | h | h
  · rw [h.2]; exact hp
  · rw [h.2.2]; exact hp
  · rw [h.2.1] at hp; exact absurd hp (by simp)
  · obtain ⟨_, _, _, _, _, h4⟩ := h
    rw [h4]; rfl

theorem except_map_some_ok (x : Except Fault Packet) (q : Packet)
    (h : x.map some = .ok (some q)) : x = .ok q := by
  cases x with
  | error e => exact absurd h (by simp [Except.map])
  | ok r =>
    simp only [Except.map] at h
    rw [Option.some.inj (Except.ok.inj h)]

/-- A header setter that returns leaves a header on the packet. -/
theorem header_setter_isSome (cfg : Config) (op : Op) (p q : Packet)
    (hs : op.isHeaderSetter = true) (h : op.run cfg p = .ok (some q)) :
    q.header.isSome = true := by
  cases op with
  | setLocal f s d port =>
    obtain ⟨_, _, _, hq⟩ := (packet_setLocal_iff p q f s d port).1 (except_map_some_ok _ _ h)
    rw [hq]; rfl
  | setUDP f a b c d =>
    obtain ⟨_, _, _, hq⟩ := (packet_setUDP_iff p q f a b c d).1 (except_map_some_ok _ _ h)
    rw [hq]; rfl
  | setTCP f a b c d n =>
    obtain ⟨_, _, _, hq⟩ := (packet_setTCP_iff p q f a b c d n).1 (except_map_some_ok _ _ h)
    rw [hq]; rfl
  | _ => exact absurd hs (by simp [Op.isHeaderSetter])

/-- C5: `packet_setUDP` and `packet_setTCP` return if and only if the packet has no header, its
tag is None and the four addressing values are non-zero, and otherwise end in the assertion
fault; and once a header setter has returned, every header setter called on that packet, after
whatever further calls, ends in the assertion fault. -/
theorem header_setters_guard (cfg : Config) (p : Packet) (flags a b c d sequence : Nat) :
    ((∃ q, packet_setUDP p flags a b c d = .ok q) ↔
      (p.header = none ∧ p.protocol = .PNONE ∧ a ≠ 0 ∧ b ≠ 0 ∧ c ≠ 0 ∧ d ≠ 0)) ∧
    ((∃ q, packet_setTCP p flags a b c d sequence = .ok q) ↔
      (p.header = none ∧ p.protocol = .PNONE ∧ a ≠ 0 ∧ b ≠ 0 ∧ c ≠ 0 ∧ d ≠ 0)) ∧
    (¬ (p.header = none ∧ p.protocol = .PNONE ∧ a ≠ 0 ∧ b ≠ 0 ∧ c ≠ 0 ∧ d ≠ 0) →
      packet_setUDP p flags a b c d = .error .assertion ∧
      packet_setTCP p flags a b c d sequence = .error .assertion) ∧
    (∀ (setter : Op) (p1 q : Packet), setter.isHeaderSetter = true →
      setter.run cfg p = .ok (some p1) → ReachFrom cfg anyOp p1 q →
      ∀ (f : Nat) (s t : Int) (port x y z w n : Nat),
        packet_setLocal q f s t port = .error .assertion ∧
        packet_setUDP q f x y z w = .error .assertion ∧
        packet_setTCP q f x y z w n = .error .assertion) := by
  refine ⟨?_, ?_, ?_, ?_⟩
  · constructor
    · rintro ⟨q, hq⟩
      obtain ⟨h1, h2, h3, _⟩ := (packet_setUDP_iff p q flags a b c d).1 hq
      exact ⟨h1, h2, h3⟩
    · rintro ⟨h1, h2, h3⟩
      exact ⟨_, (packet_setUDP_iff p _ flags a b c d).2 ⟨h1, h2, h3, rfl⟩⟩
  · constructor
    · rintro ⟨q, hq⟩
      obtain ⟨h1, h2, h3, _⟩ := (packet_setTCP_iff p q flags a b c d sequence).1 hq
      exact ⟨h1, h2, h3⟩
    · rintro ⟨h1, h2, h3⟩
      exact ⟨_, (packet_setTCP_iff p _ flags a b c d sequence).2 ⟨h1, h2, h3, rfl⟩⟩
  · intro h
    exact ⟨packet_setUDP_fault p flags a b c d h, packet_setTCP_fault p flags a b c d sequence h⟩
  · intro setter p1 q hs hrun hreach f s t port x y z w n
    have h1 : p1.header.isSome = true := header_setter_isSome cfg setter p p1 hs hrun
    have h2 : q.header.isSome = true :=
      reachFrom_induct cfg anyOp (fun x => x.header.isSome = true)
        (fun op a b _ ha hab => header_isSome_step cfg op a b ha hab) p1 q hreach h1
    have h3 : q.header ≠ none := by
      intro hn; rw [hn] at h2; exact absurd h2 (by simp)
    exact ⟨packet_setLocal_fault q f s t port (fun h => h3 h.1),
      packet_setUDP_fault q f x y z w (fun h => h3 h.1),
      packet_setTCP_fault q f x y z w n (fun h => h3 h.1)⟩

/-- C5 on a fresh packet: `packet_setTCP` returns `sampleTCPPacket` before its later calls, and
on `sampleTCPPacket`, reached from there, each of the three setters ends in the assertion
fault. -/
theorem header_setters_guard_witness :
    (∃ q, packet_setTCP (packet_new_inner 7 3) 8 16777226 53764 33554442 20480 100 = .ok q) ∧
    packet_setLocal sampleTCPPacket 0 3 9 20480 = .error .assertion ∧
    packet_setUDP sampleTCPPacket 0 16777226 53764 33554442 20480 = .error .assertion ∧
    packet_setTCP sampleTCPPacket 0 16777226 53764 33554442 20480 100 = .error .assertion := by
  have h := header_setters_guard sampleConfig (packet_new_inner 7 3) 8 16777226 53764 33554442
    20480 100
  obtain ⟨_, htcp, _, hlater⟩ := h
  refine ⟨htcp.2 (by decide), ?_⟩
  exact hlater (.setTCP 8 16777226 53764 33554442 20480 100) _ sampleTCPPacket rfl rfl
    ⟨sampleTCPOps.tail, by decide, rfl⟩ 0 3 9 20480 16777226 53764 33554442 20480 100

/-! ## C6: the SACK flag and the SACK list -/

/-- A run of `packet_updateTCP` calls on a TCP packet returns a TCP packet, and a property of TCP
headers that each call preserves holds at the end when it holds at the start. -/
theorem updateTCPs_induct (cfg : Config) (P : PacketTCPHeader → Prop)
    (hstep : ∀ (h : PacketTCPHeader) (u : TCPUpdate), P h →
      P { h with
          flags := if u.selectiveACKs = [] then h.flags else h.flags ||| cfg.PTCP_SACK
          selectiveACKs := if u.selectiveACKs = [] then h.selectiveACKs else u.selectiveACKs
          acknowledgment := u.acknowledgement
          window := u.window
          timestampValue := u.timestampValue
          timestampEcho := u.timestampEcho })
    (updates : List TCPUpdate) (p : Packet) (h : PacketTCPHeader)
    (hp : p.protocol = .PTCP) (hh : p.header = some (.ofTCP h)) (hP : P h) :
    ∃ q hq, updateTCPs cfg p updates = .ok q ∧ q.protocol = .PTCP ∧
      q.header = some (.ofTCP hq) ∧ P hq := by
  induction updates generalizing p h with
  | nil => exact ⟨p, h, rfl, hp, hh, hP⟩
  | cons u rest ih =>
    have hu := (packet_updateTCP_iff cfg p _ u.acknowledgement u.selectiveACKs u.window
      u.timestampValue u.timestampEcho).2 ⟨hp, h, hh, rfl⟩
    simp only [updateTCPs, hu]
    exact ih _ _ hp rfl (hstep h u hP)

/-- C6 as stated fails: `packet_setTCP` stores the control flags it is given, so a packet set up
with the SACK bit among them, and then updated without SACK entries, has the SACK bit set and
an empty SACK list. -/
theorem sack_flag_without_list :
    ∃ p q h, packet_setTCP (packet_new_inner 0 0) 16 1 1 1 1 0 = .ok p ∧
      updateTCPs sampleConfig p [⟨1, [], 2, 3, 4⟩] = .ok q ∧
      q.header = some (.ofTCP h) ∧
      ¬ (sackFlagSet sampleConfig h ↔ h.selectiveACKs ≠ []) :=
  ⟨_, _, _, rfl, rfl, rfl, by decide⟩

/-- C6, amended: for every TCP packet that `packet_setTCP` followed by any number of
`packet_updateTCP` calls leads to (all of which return), a non-empty stored SACK list implies
that the SACK bit is set; and when the flags given to `packet_setTCP` did not contain the SACK
bit, the SACK bit is set if and only if the stored SACK list is non-empty. -/
theorem sack_flag_invariant (cfg : Config) (p0 p : Packet) (flags a b c d sequence : Nat)
    (updates : List TCPUpdate) (hm : cfg.PTCP_SACK ≠ 0)
    (hset : packet_setTCP p0 flags a b c d sequence = .ok p) :
    ∃ q h, updateTCPs cfg p updates = .ok q ∧ q.header = some (.ofTCP h) ∧
      (h.selectiveACKs ≠ [] → sackFlagSet cfg h) ∧
      (flags &&& cfg.PTCP_SACK = 0 → (sackFlagSet cfg h ↔ h.selectiveACKs ≠ [])) := by
  obtain ⟨_, _, _, hp⟩ := (packet_setTCP_iff p0 p flags a b c d sequence).1 hset
  have key := updateTCPs_induct cfg
    (fun h => (h.selectiveACKs ≠ [] → sackFlagSet cfg h) ∧
      (flags &&& cfg.PTCP_SACK = 0 → sackFlagSet cfg h → h.selectiveACKs ≠ []))
    (by
      intro h u ⟨h1, h2⟩
      by_cases hs : u.selectiveACKs = []
      · simpa [hs] using ⟨h1, h2⟩
      · simp only [hs, if_false, sackFlagSet, lor_land_self]
        exact ⟨fun _ => hm, fun _ _ => hs⟩)
    updates p ⟨flags, a, b, c, d, sequence, 0, [], 0, 0, 0⟩ (by rw [hp]) (by rw [hp])
    ⟨fun h => absurd rfl h, fun h0 hs => absurd h0 hs⟩
  obtain ⟨q, hq, hrun, _, hhead, h1, h2⟩ := key
  exact ⟨q, hq, hrun, hhead, h1, fun h0 => ⟨h2 h0, h1⟩⟩

/-- C6 on a packet set up with the ACK flag only: after an update without SACK entries, one with
[5, 6] and another without, the list is [5, 6] and the SACK bit is set. -/
theorem sack_flag_invariant_witness :
    ∃ q h, updateTCPs sampleConfig (tcpPacketWithSequence 100)
        [⟨1, [], 2, 3, 4⟩, ⟨5, [5, 6], 6, 7, 8⟩, ⟨9, [], 10, 11, 12⟩] = .ok q ∧
      q.header = some (.ofTCP h) ∧
      (h.selectiveACKs ≠ [] → sackFlagSet sampleConfig h) ∧
      (0 &&& sampleConfig.PTCP_SACK = 0 →
        (sackFlagSet sampleConfig h ↔ h.selectiveACKs ≠ [])) :=
  sack_flag_invariant sampleConfig (packet_new_inner 0 0) (tcpPacketWithSequence 100)
    0 1 1 1 1 100 [⟨1, [], 2, 3, 4⟩, ⟨5, [5, 6], 6, 7, 8⟩, ⟨9, [], 10, 11, 12⟩]
    (by decide) rfl

/-! ## C7: the priority of a copy -/

/-- C7 fails on the code: `packet_copy` takes the priority over only inside the branch for an
attached payload, so the copy of a packet without payload whose priority `packet_setPriority`
set to 1.0 has priority 0.0. -/
theorem packet_copy_drops_priority :
    ∃ c, packet_copy (packet_setPriority (packet_new_inner 0 0) gdoubleOne) = .ok c ∧
      packet_getPriority (packet_setPriority (packet_new_inner 0 0) gdoubleOne) = gdoubleOne ∧
      packet_getPriority c = 0 ∧
      packet_getPriority c ≠
        packet_getPriority (packet_setPriority (packet_new_inner 0 0) gdoubleOne) :=
  ⟨_, rfl, rfl, rfl, by decide⟩

/-! ## C8: the protocol tag is stable -/

/-- C8: once the tag of a packet is Local, UDP or TCP, every packet observed after any sequence
of successful calls without `packet_setMock` (copies included) has that same tag. -/
theorem protocol_tag_stable (cfg : Config) (p q : Packet)
    (hp : p.protocol.hasHeader = true) (hr : ReachFrom cfg noSetMock p q) :
    packet_getProtocol q = packet_getProtocol p := by
  refine reachFrom_induct cfg noSetMock (fun x => packet_getProtocol x = packet_getProtocol p)
    ?_ p q hr rfl
  intro op a b hop ha hrun
  simp only [packet_getProtocol] at ha ⊢
  rcases op_run_frame cfg op a b hrun with h | h | h | h
  · rw [h.1, ha]
  · rw [h.1] at hop; exact absurd hop (by simp [noSetMock, Op.isSetMock])
  · rw [ha] at h; rw [h.1] at hp; exact absurd hp (by simp [ProtocolType.hasHeader])
  · rw [h.2.1, ← ha, h.1]

theorem sampleLaterPacket_reachFrom :
    ReachFrom sampleConfig noSetMock sampleTCPPacket sampleLaterPacket :=
  ⟨sampleLaterOps, by decide, rfl⟩

/-- C8 from `sampleTCPPacket` to `sampleLaterPacket`, eight calls later. -/
theorem protocol_tag_stable_witness :
    sampleTCPPacket.protocol.hasHeader = true ∧
    runOps sampleConfig sampleTCPPacket sampleLaterOps = .ok (some sampleLaterPacket) ∧
    packet_getProtocol sampleLaterPacket = packet_getProtocol sampleTCPPacket :=
  ⟨rfl, rfl, protocol_tag_stable sampleConfig sampleTCPPacket sampleLaterPacket rfl
    sampleLaterPacket_reachFrom⟩

/-! ## C9: tag and header -/

/-- C9 as stated fails: `packet_setMock` on a fresh packet leaves the tag Mock and no header. -/
theorem mock_tag_without_header :
    Reachable sampleConfig anyOp (packet_setMock (packet_new_inner 0 0)) ∧
    ¬ ((packet_setMock (packet_new_inner 0 0)).header.isSome = true ↔
        (packet_setMock (packet_new_inner 0 0)).protocol ≠ .PNONE) :=
  ⟨⟨0, 0, [.setMock], by decide, rfl⟩, by decide⟩

/-- Without `packet_setMock` no reachable packet has the tag Mock. -/
theorem reachable_not_mock (cfg : Config) (p : Packet) (hr : Reachable cfg noSetMock p) :
    p.protocol ≠ .PMOCK := by
  obtain ⟨hostID, packetID, h⟩ := hr
  refine reachFrom_induct cfg noSetMock (fun x => x.protocol ≠ .PMOCK) ?_ _ p h
    (by simp [packet_new_inner])
  intro op a b hop ha hrun
  rcases op_run_frame cfg op a b hrun with h | h | h | h
  · rw [h.1]; exact ha
  · rw [h.1] at hop; exact absurd hop (by simp [noSetMock, Op.isSetMock])
  · intro hb; rw [hb] at h; exact absurd h.2.2.1 (by simp [ProtocolType.hasHeader])
  · rw [h.2.1]; simp

/-- C9, amended: in every packet reachable through the public operations, `packet_setMock`
included, a tag Local, UDP or TCP comes with a header and the tag None comes without one; and in
every packet reachable without `packet_setMock` a header is present if and only if the tag is
not None. -/
theorem tag_header_coherence (cfg : Config) (p : Packet) :
    (Reachable cfg anyOp p →
      (p.protocol.hasHeader = true → p.header.isSome = true) ∧
      (p.protocol = .PNONE → p.header = none)) ∧
    (Reachable cfg noSetMock p → (p.header.isSome = true ↔ p.protocol ≠ .PNONE)) := by
  constructor
  · intro hr
    have hf := reachable_headerFits cfg anyOp p hr
    cases hp : p.protocol <;> cases hd : p.header <;>
      simp [hp, hd, headerFits, ProtocolType.hasHeader] at hf ⊢
  · intro hr
    have hf := reachable_headerFits cfg noSetMock p hr
    have hm := reachable_not_mock cfg p hr
    cases hp : p.protocol <;> cases hd : p.header <;>
      simp [hp, hd, headerFits] at hf hm ⊢

/-- C9 on `sampleTCPPacket`, reached without `packet_setMock`: the tag is TCP and a header is
present. -/
theorem tag_header_coherence_witness :
    (sampleTCPPacket.protocol.hasHeader = true → sampleTCPPacket.header.isSome = true) ∧
    (sampleTCPPacket.header.isSome = true ↔ sampleTCPPacket.protocol ≠ .PNONE) :=
  ⟨((tag_header_coherence sampleConfig sampleTCPPacket).1 sampleTCPPacket_reachable).1,
    (tag_header_coherence sampleConfig sampleTCPPacket).2 ⟨7, 3, sampleTCPOps, by decide, rfl⟩⟩

/-! ## C10: the sequence comparator -/

/-- C10: on two TCP packets `packet_compareTCPSequence` returns -1, 0 or 1 as the first
sequence number is below, equal to or above the second as plain unsigned numbers, and the
result is the same for any two TCP packets with these sequence numbers. -/
theorem packet_compareTCPSequence_order (a b : Packet) (ha hb : PacketTCPHeader)
    (hpa : a.protocol = .PTCP) (hha : a.header = some (.ofTCP ha))
    (hpb : b.protocol = .PTCP) (hhb : b.header = some (.ofTCP hb)) :
    ∃ r, packet_compareTCPSequence a b = .ok r ∧
      (ha.sequence < hb.sequence → r = -1) ∧
      (ha.sequence = hb.sequence → r = 0) ∧
      (ha.sequence > hb.sequence → r = 1) ∧
      (∀ (a2 b2 : Packet) (ha2 hb2 : PacketTCPHeader),
        a2.protocol = .PTCP → a2.header = some (.ofTCP ha2) →
        b2.protocol = .PTCP → b2.header = some (.ofTCP hb2) →
        ha2.sequence = ha.sequence → hb2.sequence = hb.sequence →
        packet_compareTCPSequence a2 b2 = .ok r) := by
  have hcmp : ∀ (x y : Packet) (hx hy : PacketTCPHeader),
      x.protocol = .PTCP → x.header = some (.ofTCP hx) →
      y.protocol = .PTCP → y.header = some (.ofTCP hy) →
      packet_compareTCPSequence x y =
        .ok (if hx.sequence < hy.sequence then -1 else if hx.sequence > hy.sequence then 1
          else 0) := by
    intro x y hx hy h1 h2 h3 h4
    simp [packet_compareTCPSequence, utility_debugAssert, h1, h2, h3, h4, asTCP, bind,
      Except.bind, pure, Except.pure]
  refine ⟨_, hcmp a b ha hb hpa hha hpb hhb, ?_, ?_, ?_, ?_⟩
  · intro h; simp [h]
  · intro h; simp [h]
  · intro h
    have : ¬ ha.sequence < hb.sequence := by omega
    simp [this, h]
  · intro a2 b2 ha2 hb2 h1 h2 h3 h4 h5 h6
    rw [hcmp a2 b2 ha2 hb2 h1 h2 h3 h4, h5, h6]

/-- C10 without wraparound: sequence 4294967295 compares greater than sequence 0. -/
theorem packet_compareTCPSequence_order_witness :
    packet_compareTCPSequence (tcpPacketWithSequence 4294967295) (tcpPacketWithSequence 0) =
      .ok 1 := by
  obtain ⟨r, hr, _, _, hgt, _⟩ := packet_compareTCPSequence_order
    (tcpPacketWithSequence 4294967295) (tcpPacketWithSequence 0) _ _ rfl rfl rfl rfl
  rw [hr, hgt (by decide)]

/-! ## C11: the rendering of the SACK list -/

/-- C11 fails on the code: the SACK loop of `packet_toString` takes whatever entry follows a
lone first entry as the end of a span, so the list [5, 10] is rendered as the span "5-10",
which covers 6 to 9, and not as "5 10". A run followed by a lone entry, [5, 6, 7, 10], and the
empty list are rendered as "5-7 10" and "NA". -/
theorem sack_rendering_joins_lone_entries :
    renderSACKs [5, 10] "" = "5-10" ∧
    (packet_toString sampleConfig sampleSparsePacket).map Prod.fst =
      .ok ("packetID=0:0 10.0.0.1:1234 -> 10.0.0.2:80 seq=100 ack=0 sack=5-10 window=0 " ++
        "bytes=0 header= tsval=0 tsechoreply=0") ∧
    renderSACKs [5, 7, 9] "" = "5-7 9" ∧
    renderSACKs [5, 6, 7, 10] "" = "5-7 10" ∧
    renderSACKs [] "" = "NA" :=
  ⟨by decide, by rfl, by decide, by decide, by decide⟩

/-! ## C12: reference counting -/

theorem runOps_append (cfg : Config) (p : Packet) (ops rest : List Op) (q : Packet)
    (h : runOps cfg p ops = .ok (some q)) : runOps cfg p (ops ++ rest) = runOps cfg q rest := by
  induction ops generalizing p with
  | nil =>
    simp only [runOps] at h
    rw [Option.some.inj (Except.ok.inj h)]
    rfl
  | cons op ops ih =>
    obtain ⟨r, h1, h2⟩ := runOps_cons_ok cfg p q op ops h
    simp only [List.cons_append, runOps, h1]
    exact ih r h2

theorem runOps_cons_of_ok (cfg : Config) (p r : Packet) (op : Op) (rest : List Op)
    (h : op.run cfg p = .ok (some r)) : runOps cfg p (op :: rest) = runOps cfg r rest := by
  simp only [runOps, h]

theorem runOps_last_freed (cfg : Config) (p : Packet) (op : Op)
    (h : op.run cfg p = .ok none) : runOps cfg p [op] = .ok none := by
  simp only [runOps, h]
  rfl

/-- A run of `packet_ref` calls adds their number to the count, modulo 2^32. -/
theorem runOps_replicate_ref (cfg : Config) (k : Nat) (p : Packet) (rest : List Op)
    (hp : p.referenceCount < 4294967296) :
    runOps cfg p (List.replicate k .ref ++ rest) =
      runOps cfg { p with referenceCount := (p.referenceCount + k) % 4294967296 } rest := by
  induction k generalizing p with
  | zero =>
    have : (p.referenceCount + 0) % 4294967296 = p.referenceCount := Nat.mod_eq_of_lt hp
    rw [this]
    rfl
  | succ k ih =>
    have hlt : (packet_ref p).referenceCount < 4294967296 := Nat.mod_lt _ (by decide)
    have hstep : runOps cfg p (List.replicate (k + 1) .ref ++ rest) =
        runOps cfg (packet_ref p) (List.replicate k .ref ++ rest) := rfl
    rw [hstep, ih (packet_ref p) hlt]
    have hc : ((packet_ref p).referenceCount + k) % 4294967296 =
        (p.referenceCount + (k + 1)) % 4294967296 := by
      simp only [packet_ref]
      omega
    rw [hc]
    rfl

/-- The call `packet_unref` on a packet with more than one owner. -/
theorem packet_unref_live (cfg : Config) (t : Bool) (p : Packet)
    (h1 : 2 ≤ p.referenceCount) (h2 : p.referenceCount < 4294967296) :
    packet_unref cfg t p = .ok (some { p with referenceCount := p.referenceCount - 1 }) := by
  have hm : (p.referenceCount + 4294967295) % 4294967296 = p.referenceCount - 1 := by omega
  have hne : ¬ (p.referenceCount - 1 = 0) := by omega
  simp [packet_unref, hm, hne, pure, Except.pure]

/-- The call `packet_unref` on the last owner of a packet whose header has the shape of its tag,
when either the call is not traced or the tag is a header tag. -/
theorem packet_unref_last (cfg : Config) (t : Bool) (p : Packet)
    (h1 : p.referenceCount = 1) (hf : headerFits p.protocol p.header = true)
    (ht : t = false ∨ p.protocol.hasHeader = true) :
    packet_unref cfg t p = .ok none := by
  have hadd : ∃ q, packet_addDeliveryStatus cfg t { p with referenceCount := 0 }
      (cfg.PDS .PDS_DESTROYED) = .ok q ∧ q.protocol = p.protocol ∧ q.header = p.header := by
    cases t with
    | false => exact ⟨_, packet_addDeliveryStatus_quiet cfg _ _, rfl, rfl⟩
    | true =>
      rcases ht with ht | ht
      · exact absurd ht (by simp)
      · exact ⟨_, packet_addDeliveryStatus_traced cfg { p with referenceCount := 0 } _ ht hf,
          rfl, rfl⟩
  obtain ⟨q, hq, hqp, hqh⟩ := hadd
  have hfree : _packet_free q = .ok () := by
    unfold _packet_free
    rw [hqp, hqh]
    cases hp : p.protocol <;> cases hd : p.header <;>
      simp [hp, hd, headerFits, pure, Except.pure, bind, Except.bind] at hf ⊢
    rename_i hdr
    cases hdr <;> simp [headerFits, asTCP] at hf ⊢
  simp [packet_unref, h1, hq, hfree, bind, Except.bind, pure, Except.pure]

/-- While every prefix of a run of `packet_ref` and `packet_unref` calls has taken at least as
many references as it has dropped beyond those held at the start, the packet stays live and its
count is the count at the start plus the references taken minus those dropped. -/
theorem runOps_refs_live (cfg : Config) (ops : List Op) (p : Packet)
    (hops : ∀ op ∈ ops, op.isRef = true ∨ op.isUnref = true)
    (hn : 1 ≤ p.referenceCount)
    (hbound : p.referenceCount + countRefs ops < 4294967296)
    (hlive : ∀ k ≤ ops.length,
      countUnrefs (ops.take k) < p.referenceCount + countRefs (ops.take k)) :
    runOps cfg p ops = .ok (some
      { p with referenceCount := p.referenceCount + countRefs ops - countUnrefs ops }) := by
  induction ops generalizing p with
  | nil => simp [runOps, countRefs, countUnrefs]
  | cons op ops ih =>
    have hrest : ∀ o ∈ ops, o.isRef = true ∨ o.isUnref = true :=
      fun o ho => hops o (List.mem_cons_of_mem _ ho)
    cases op with
    | ref =>
      have hc1 : countRefs (Op.ref :: ops) = countRefs ops + 1 := by
        simp [countRefs, Op.isRef]
      have hc2 : countUnrefs (Op.ref :: ops) = countUnrefs ops := by
        simp [countUnrefs, Op.isUnref]
      rw [hc1] at hbound
      have hm : (p.referenceCount + 1) % 4294967296 = p.referenceCount + 1 :=
        Nat.mod_eq_of_lt (by omega)
      have hstep : runOps cfg p (Op.ref :: ops) = runOps cfg (packet_ref p) ops := rfl
      have hpr : packet_ref p = { p with referenceCount := p.referenceCount + 1 } := by
        simp only [packet_ref, hm]
      have hih := ih { p with referenceCount := p.referenceCount + 1 } hrest
        (Nat.le_add_left 1 _) (by show p.referenceCount + 1 + countRefs ops < 4294967296; omega)
        (by
          intro k hk
          have h := hlive (k + 1) (Nat.succ_le_succ hk)
          have e1 : countRefs (List.take (k + 1) (Op.ref :: ops)) =
              countRefs (List.take k ops) + 1 := by
            simp [countRefs, Op.isRef]
          have e2 : countUnrefs (List.take (k + 1) (Op.ref :: ops)) =
              countUnrefs (List.take k ops) := by
            simp [countUnrefs, Op.isUnref]
          rw [e1, e2] at h
          show countUnrefs (List.take k ops) < p.referenceCount + 1 + countRefs (List.take k ops)
          omega)
      rw [hstep, hpr, hih, hc1, hc2]
      have e : p.referenceCount + 1 + countRefs ops - countUnrefs ops =
          p.referenceCount + (countRefs ops + 1) - countUnrefs ops := by omega
      show Except.ok (some { p with
        referenceCount := p.referenceCount + 1 + countRefs ops - countUnrefs ops }) = _
      rw [e]
    | unref t =>
      have hc1 : countRefs (Op.unref t :: ops) = countRefs ops := by
        simp [countRefs, Op.isRef]
      have hc2 : countUnrefs (Op.unref t :: ops) = countUnrefs ops + 1 := by
        simp [countUnrefs, Op.isUnref]
      rw [hc1] at hbound
      have h1 := hlive 1 (Nat.succ_le_succ (Nat.zero_le _))
      have e0 : countUnrefs (List.take 1 (Op.unref t :: ops)) = 1 := by
        simp [countUnrefs, Op.isUnref]
      have e0r : countRefs (List.take 1 (Op.unref t :: ops)) = 0 := by
        simp [countRefs, Op.isRef]
      rw [e0, e0r] at h1
      have h2 : 2 ≤ p.referenceCount := by omega
      have hstep : runOps cfg p (Op.unref t :: ops) =
          runOps cfg { p with referenceCount := p.referenceCount - 1 } ops :=
        runOps_cons_of_ok cfg p _ (.unref t) ops (packet_unref_live cfg t p h2 (by omega))
      have hih := ih { p with referenceCount := p.referenceCount - 1 } hrest
        (by show 1 ≤ p.referenceCount - 1; omega)
        (by show p.referenceCount - 1 + countRefs ops < 4294967296; omega)
        (by
          intro k hk
          have h := hlive (k + 1) (Nat.succ_le_succ hk)
          have e1 : countRefs (List.take (k + 1) (Op.unref t :: ops)) =
              countRefs (List.take k ops) := by
            simp [countRefs, Op.isRef]
          have e2 : countUnrefs (List.take (k + 1) (Op.unref t :: ops)) =
              countUnrefs (List.take k ops) + 1 := by
            simp [countUnrefs, Op.isUnref]
          rw [e1, e2] at h
          show countUnrefs (List.take k ops) < p.referenceCount - 1 + countRefs (List.take k ops)
          omega)
      rw [hstep, hih, hc1, hc2]
      have e : p.referenceCount - 1 + countRefs ops - countUnrefs ops =
          p.referenceCount + countRefs ops - (countUnrefs ops + 1) := by omega
      show Except.ok (some { p with
        referenceCount := p.referenceCount - 1 + countRefs ops - countUnrefs ops }) = _
      rw [e]
    | _ =>
      have := hops _ (List.mem_cons_self _ _)
      simp [Op.isRef, Op.isUnref] at this

/-- C12 as stated fails in two ways. On a fresh packet with trace diagnostics enabled the
`packet_unref` that matches the single owner does not destroy the packet: it panics inside
`packet_toString`, the tag being None. And the count is a `guint`: after 2^32 calls of
`packet_ref` it is 1 again, and the first `packet_unref` destroys the packet although the
number of unrefs is far from 1 plus the number of refs. -/
theorem refcount_unref_panics_or_wraps :
    runOps sampleConfig (packet_new_inner 0 0) [.unref true] = .error .panic ∧
    runOps sampleConfig (packet_new_inner 0 0)
      (List.replicate 4294967296 .ref ++ [.unref false]) = .ok none := by
  have h := runOps_replicate_ref sampleConfig 4294967296 (packet_new_inner 0 0)
    [.unref false] (by decide)
  exact ⟨rfl, h.trans rfl⟩

/-- C12, amended: on a live packet with count n between 1 and 2^32 - 1, `packet_ref` followed
by `packet_unref` returns the very same packet. And on a packet with count 1 whose header has
the shape of its tag, along a sequence of `packet_ref` and `packet_unref` calls that takes fewer
than 2^32 - 1 references and in which no unref has yet matched 1 plus the refs made so far, the
packet is live, with count 1 + refs - unrefs and nothing else changed; the next `packet_unref`,
the first at which the unrefs equal 1 plus the refs, destroys it, provided trace diagnostics are
disabled or the tag is Local, UDP or TCP. -/
theorem refcount_lifecycle (cfg : Config) (p : Packet) (t : Bool) (ops : List Op) :
    (1 ≤ p.referenceCount → p.referenceCount < 4294967296 →
      packet_unref cfg t (packet_ref p) = .ok (some p)) ∧
    (p.referenceCount = 1 → headerFits p.protocol p.header = true →
      (∀ op ∈ ops, op.isRef = true ∨ op.isUnref = true) →
      countRefs ops < 4294967295 →
      (∀ k ≤ ops.length, countUnrefs (ops.take k) ≤ countRefs (ops.take k)) →
      runOps cfg p ops =
        .ok (some { p with referenceCount := 1 + countRefs ops - countUnrefs ops }) ∧
      (countUnrefs ops = countRefs ops → (t = false ∨ p.protocol.hasHeader = true) →
        runOps cfg p (ops ++ [.unref t]) = .ok none)) := by
  constructor
  · intro h1 h2
    have hm : ((p.referenceCount + 1) % 4294967296 + 4294967295) % 4294967296 =
        p.referenceCount := by omega
    have hne : ¬ (p.referenceCount = 0) := by omega
    unfold packet_unref packet_ref
    simp only [hm, hne, if_false, pure, Except.pure]
  · intro h1 hf hops hb hlive
    have hrun := runOps_refs_live cfg ops p hops (by omega) (by omega)
      (by intro k hk; have := hlive k hk; omega)
    rw [h1] at hrun
    refine ⟨hrun, ?_⟩
    intro heq ht
    rw [runOps_append cfg p ops [.unref t] _ hrun]
    have hlast := packet_unref_last cfg t
      { p with referenceCount := 1 + countRefs ops - countUnrefs ops }
      (by show 1 + countRefs ops - countUnrefs ops = 1; omega) hf ht
    exact runOps_last_freed cfg _ (.unref t) hlast

/-- C12 on concrete packets: `sampleTCPPacket`, held twice, is itself again after a ref and an
unref; and the TCP packet with sequence 100, held once, is live with count 1 after two refs and
two unrefs and destroyed by the third unref, traced. -/
theorem refcount_lifecycle_witness :
    packet_unref sampleConfig true (packet_ref sampleTCPPacket) = .ok (some sampleTCPPacket) ∧
    runOps sampleConfig (tcpPacketWithSequence 100) [.ref, .unref true, .ref, .unref false] =
      .ok (some (tcpPacketWithSequence 100)) ∧
    runOps sampleConfig (tcpPacketWithSequence 100)
      [.ref, .unref true, .ref, .unref false, .unref true] = .ok none := by
  have h1 := (refcount_lifecycle sampleConfig sampleTCPPacket true []).1 (by decide) (by decide)
  have h2 := (refcount_lifecycle sampleConfig (tcpPacketWithSequence 100) true
    [.ref, .unref true, .ref, .unref false]).2 rfl rfl (by decide) (by decide) (by decide)
  exact ⟨h1, h2.1, h2.2 (by decide) (Or.inr rfl)⟩

/-! ## C13 and C14: the size accessors -/

/-- C13: for every packet, whatever its tag and with or without payload, `packet_getTotalSize`
is `packet_getPayloadSize` plus `packet_getHeaderSize`. -/
theorem total_size_is_sum (cfg : Config) (p : Packet) :
    packet_getTotalSize cfg p = packet_getPayloadSize cfg p + packet_getHeaderSize cfg p := by
  unfold packet_getTotalSize
  rfl

/-- C14: `packet_getHeaderSize` is CONFIG_HEADER_SIZE_UDPIP under the tag UDP,
CONFIG_HEADER_SIZE_TCPIP under TCP and 0 under Local, Mock and None, whatever the payload;
`packet_getPayloadSize` is CONFIG_MTU under the tag Mock whatever the payload, and under every
other tag the length of the attached payload, or 0 without one. -/
theorem size_accessors_by_tag (cfg : Config) (p : Packet) :
    (p.protocol = .PUDP → packet_getHeaderSize cfg p = cfg.CONFIG_HEADER_SIZE_UDPIP) ∧
    (p.protocol = .PTCP → packet_getHeaderSize cfg p = cfg.CONFIG_HEADER_SIZE_TCPIP) ∧
    (p.protocol = .PLOCAL ∨ p.protocol = .PMOCK ∨ p.protocol = .PNONE →
      packet_getHeaderSize cfg p = 0) ∧
    (∀ pl : Option Payload,
      packet_getHeaderSize cfg { p with payload := pl } = packet_getHeaderSize cfg p) ∧
    (p.protocol = .PMOCK → ∀ pl : Option Payload,
      packet_getPayloadSize cfg { p with payload := pl } = cfg.CONFIG_MTU) ∧
    (p.protocol ≠ .PMOCK → ∀ pl, p.payload = some pl →
      packet_getPayloadSize cfg p = payload_getLength pl) ∧
    (p.protocol ≠ .PMOCK → p.payload = none → packet_getPayloadSize cfg p = 0) := by
  refine ⟨?_, ?_, ?_, ?_, ?_, ?_, ?_⟩
  · intro h; simp [packet_getHeaderSize, h]
  · intro h; simp [packet_getHeaderSize, h]
  · intro h; rcases h with h | h | h <;> simp [packet_getHeaderSize, h]
  · intro pl; rfl
  · intro h pl; simp [packet_getPayloadSize, h]
  · intro h pl hpl; simp [packet_getPayloadSize, h, hpl]
  · intro h hpl; simp [packet_getPayloadSize, h, hpl]

/-- C14 on `sampleLaterPacket`, a TCP packet with a payload of 77 bytes, and on the same packet
after `packet_setMock`. -/
theorem size_accessors_by_tag_witness :
    packet_getHeaderSize sampleConfig sampleLaterPacket = 40 ∧
    packet_getPayloadSize sampleConfig sampleLaterPacket = 77 ∧
    packet_getHeaderSize sampleConfig (packet_setMock sampleLaterPacket) = 0 ∧
    packet_getPayloadSize sampleConfig (packet_setMock sampleLaterPacket) = 1500 := by
  have h := size_accessors_by_tag sampleConfig sampleLaterPacket
  have hm := size_accessors_by_tag sampleConfig (packet_setMock sampleLaterPacket)
  exact ⟨h.2.1 rfl, h.2.2.2.2.2.1 (by decide) _ rfl, hm.2.2.1 (Or.inr (Or.inl rfl)),
    hm.2.2.2.2.1 rfl _⟩

/-! ## C15: the addressing accessors -/

/-- C15: each of the four addressing accessors panics if and only if the tag is not Local, UDP
or TCP, and on every reachable packet with one of these tags each of them returns a value. The
accessors take the packet read-only and hand back nothing but that value. -/
theorem accessors_panic_iff (cfg : Config) (p : Packet) :
    (packet_getSourceIP cfg p = .error .panic ↔ p.protocol.hasHeader = false) ∧
    (packet_getSourcePort p = .error .panic ↔ p.protocol.hasHeader = false) ∧
    (packet_getDestinationIP cfg p = .error .panic ↔ p.protocol.hasHeader = false) ∧
    (packet_getDestinationPort p = .error .panic ↔ p.protocol.hasHeader = false) ∧
    (Reachable cfg anyOp p → p.protocol.hasHeader = true →
      ∃ a b c d, packet_getSourceIP cfg p = .ok a ∧ packet_getSourcePort p = .ok b ∧
        packet_getDestinationIP cfg p = .ok c ∧ packet_getDestinationPort p = .ok d) := by
  refine ⟨?_, ?_, ?_, ?_, ?_⟩
  · unfold packet_getSourceIP
    cases hp : p.protocol <;> cases hd : p.header <;>
      simp [ProtocolType.hasHeader, utility_panic, asUDP, asTCP, pure, Except.pure, bind,
        Except.bind]
    all_goals (rename_i hdr; cases hdr <;> simp [asUDP, asTCP])
  · unfold packet_getSourcePort
    cases hp : p.protocol <;> cases hd : p.header <;>
      simp [ProtocolType.hasHeader, utility_panic, asLocal, asUDP, asTCP, pure, Except.pure,
        bind, Except.bind]
    all_goals (rename_i hdr; cases hdr <;> simp [asLocal, asUDP, asTCP])
  · unfold packet_getDestinationIP
    cases hp : p.protocol <;> cases hd : p.header <;>
      simp [ProtocolType.hasHeader, utility_panic, asUDP, asTCP, pure, Except.pure, bind,
        Except.bind]
    all_goals (rename_i hdr; cases hdr <;> simp [asUDP, asTCP])
  · unfold packet_getDestinationPort
    cases hp : p.protocol <;> cases hd : p.header <;>
      simp [ProtocolType.hasHeader, utility_panic, asLocal, asUDP, asTCP, pure, Except.pure,
        bind, Except.bind]
    all_goals (rename_i hdr; cases hdr <;> simp [asLocal, asUDP, asTCP])
  · intro hr hh
    have hf := reachable_headerFits cfg anyOp p hr
    unfold packet_getSourceIP packet_getSourcePort packet_getDestinationIP
      packet_getDestinationPort
    cases hp : p.protocol <;> cases hd : p.header <;>
      simp [hp, hd, ProtocolType.hasHeader, headerFits] at hh hf
    all_goals (
      rename_i hdr
      cases hdr <;> simp [headerFits] at hf
      all_goals simp [asLocal, asUDP, asTCP, pure, Except.pure, bind, Except.bind])

/-- C15 on `sampleTCPPacket` and on a fresh packet. -/
theorem accessors_panic_iff_witness :
    (∃ a b c d, packet_getSourceIP sampleConfig sampleTCPPacket = .ok a ∧
      packet_getSourcePort sampleTCPPacket = .ok b ∧
      packet_getDestinationIP sampleConfig sampleTCPPacket = .ok c ∧
      packet_getDestinationPort sampleTCPPacket = .ok d) ∧
    packet_getSourceIP sampleConfig (packet_new_inner 0 0) = .error .panic :=
  ⟨(accessors_panic_iff sampleConfig sampleTCPPacket).2.2.2.2 sampleTCPPacket_reachable rfl,
    (accessors_panic_iff sampleConfig (packet_new_inner 0 0)).1.2 rfl⟩

/-! ## C16: what `packet_updateTCP` writes -/

theorem testBit_lor_of_not (x m i : Nat) (h : m.testBit i = false) :
    (x ||| m).testBit i = x.testBit i := by
  rw [Nat.testBit_or, h, Bool.or_false]

/-- C16: `packet_updateTCP` on a TCP packet returns and sets acknowledgment, window,
timestampValue and timestampEcho to its arguments, with or without SACK entries; it leaves the
sequence number, both addresses and both ports, every control-flag bit outside PTCP_SACK, the
tag, the payload handle, the priority, hostID, packetID, the reference count, the status
bitmask and the status log as they were. -/
theorem packet_updateTCP_frame (cfg : Config) (p : Packet) (h : PacketTCPHeader) (ack : Nat)
    (sacks : List Nat) (window tsv tse : Nat)
    (hp : p.protocol = .PTCP) (hh : p.header = some (.ofTCP h)) :
    ∃ q hq, packet_updateTCP cfg p ack sacks window tsv tse = .ok q ∧
      q.header = some (.ofTCP hq) ∧
      hq.acknowledgment = ack ∧ hq.window = window ∧
      hq.timestampValue = tsv ∧ hq.timestampEcho = tse ∧
      hq.sequence = h.sequence ∧
      hq.sourceIP = h.sourceIP ∧ hq.sourcePort = h.sourcePort ∧
      hq.destinationIP = h.destinationIP ∧ hq.destinationPort = h.destinationPort ∧
      (∀ i, cfg.PTCP_SACK.testBit i = false → hq.flags.testBit i = h.flags.testBit i) ∧
      q.protocol = p.protocol ∧ q.payload = p.payload ∧ q.priority = p.priority ∧
      q.hostID = p.hostID ∧ q.packetID = p.packetID ∧
      q.referenceCount = p.referenceCount ∧
      q.allStatus = p.allStatus ∧ q.orderedStatus = p.orderedStatus := by
  refine ⟨_, _, (packet_updateTCP_iff cfg p _ ack sacks window tsv tse).2 ⟨hp, h, hh, rfl⟩, rfl,
    rfl, rfl, rfl, rfl, rfl, rfl, rfl, rfl, rfl, ?_, rfl, rfl, rfl, rfl, rfl, rfl, rfl, rfl⟩
  intro i hi
  by_cases hs : sacks = []
  · simp [hs]
  · simp [hs, testBit_lor_of_not _ _ i hi]

/-- C16 on `sampleTCPPacket`, with an update that carries SACK entries. -/
theorem packet_updateTCP_frame_witness :
    ∃ q hq, packet_updateTCP sampleConfig sampleTCPPacket 77 [1, 2] 500 21 22 = .ok q ∧
      q.header = some (.ofTCP hq) ∧
      hq.acknowledgment = 77 ∧ hq.window = 500 ∧
      hq.timestampValue = 21 ∧ hq.timestampEcho = 22 ∧
      hq.sequence = sampleTCPHeader.sequence ∧
      hq.sourceIP = sampleTCPHeader.sourceIP ∧ hq.sourcePort = sampleTCPHeader.sourcePort ∧
      hq.destinationIP = sampleTCPHeader.destinationIP ∧
      hq.destinationPort = sampleTCPHeader.destinationPort ∧
      (∀ i, sampleConfig.PTCP_SACK.testBit i = false →
        hq.flags.testBit i = sampleTCPHeader.flags.testBit i) ∧
      q.protocol = sampleTCPPacket.protocol ∧ q.payload = sampleTCPPacket.payload ∧
      q.priority = sampleTCPPacket.priority ∧
      q.hostID = sampleTCPPacket.hostID ∧ q.packetID = sampleTCPPacket.packetID ∧
      q.referenceCount = sampleTCPPacket.referenceCount ∧
      q.allStatus = sampleTCPPacket.allStatus ∧
      q.orderedStatus = sampleTCPPacket.orderedStatus :=
  packet_updateTCP_frame sampleConfig sampleTCPPacket sampleTCPHeader 77 [1, 2] 500 21 22 rfl rfl

/-! ## C17: the payload is attached once -/

/-- A successful call keeps the payload handle of a packet that has one. -/
theorem op_run_payload (cfg : Config) (op : Op) (p q : Packet) (pl : Payload)
    (hp : p.payload = some pl) (h : op.run cfg p = .ok (some q)) : q.payload = some pl := by
  cases op with
  | setPayload thread ptr len =>
    obtain ⟨hn, _⟩ := packet_setPayload_eq p q thread ptr len (except_map_some_ok _ _ h)
    rw [hn] at hp
    exact absurd hp (by simp)
  | copy =>
    rw [packet_copy_eq p q (except_map_some_ok _ _ h)]
    exact hp
  | ref =>
    rw [← Option.some.inj (Except.ok.inj h)]
    exact hp
  | unref t =>
    rw [packet_unref_eq cfg t p q h]
    exact hp
  | setPriority v =>
    rw [← Option.some.inj (Except.ok.inj h)]
    exact hp
  | setMock =>
    rw [← Option.some.inj (Except.ok.inj h)]
    exact hp
  | setLocal f s d port =>
    obtain ⟨_, _, _, hq⟩ := (packet_setLocal_iff p q f s d port).1 (except_map_some_ok _ _ h)
    rw [hq]
    exact hp
  | setUDP f a b c d =>
    obtain ⟨_, _, _, hq⟩ := (packet_setUDP_iff p q f a b c d).1 (except_map_some_ok _ _ h)
    rw [hq]
    exact hp
  | setTCP f a b c d n =>
    obtain ⟨_, _, _, hq⟩ := (packet_setTCP_iff p q f a b c d n).1 (except_map_some_ok _ _ h)
    rw [hq]
    exact hp
  | updateTCP ack sacks window tsv tse =>
    obtain ⟨_, _, _, hq⟩ :=
      (packet_updateTCP_iff cfg p q ack sacks window tsv tse).1 (except_map_some_ok _ _ h)
    rw [hq]
    exact hp
  | render =>
    simp only [Op.run, Except.map] at h
    split at h
    · exact absurd h (by simp)
    · rename_i r hr
      rw [← Option.some.inj (Except.ok.inj h), packet_toString_snd cfg p r hr]
      exact hp
  | addDeliveryStatus t status =>
    rw [packet_addDeliveryStatus_eq cfg t p q status (except_map_some_ok _ _ h)]
    exact hp

/-- C17: `packet_setPayload` ends in the assertion fault when the packet already has a payload,
when the virtual pointer is null or when no thread is supplied, and attaches the new payload
otherwise; and a payload handle that is present stays the same through every later sequence of
successful public operations on the live packet, copies included. -/
theorem payload_attached_once (cfg : Config) (p : Packet) (thread : Option Thread)
    (ptr : PluginVirtualPtr) (len : Nat) :
    ((p.payload ≠ none ∨ ptr.val = 0 ∨ thread = none) →
      packet_setPayload p thread ptr len = .error .assertion) ∧
    (p.payload = none → ptr.val ≠ 0 → ∀ t, thread = some t →
      ∃ q, packet_setPayload p thread ptr len = .ok q ∧
        q.payload = some (payload_new t ptr len)) ∧
    (∀ pl q, p.payload = some pl → ReachFrom cfg anyOp p q → q.payload = some pl) := by
  refine ⟨?_, ?_, ?_⟩
  · intro h
    unfold packet_setPayload utility_debugAssert
    cases thread with
    | none => simp [bind, Except.bind]
    | some t =>
      by_cases h2 : ptr.val = 0
      · simp [h2, bind, Except.bind]
      · by_cases h3 : p.payload = none
        · rcases h with h | h | h
          · exact absurd h3 h
          · exact absurd h h2
          · exact absurd h (by simp)
        · simp [h2, h3, bind, Except.bind]
  · intro h1 h2 t ht
    subst ht
    refine ⟨{ p with payload := some (payload_new t ptr len),
                     priority := t.nextPacketPriority }, ?_, rfl⟩
    simp [packet_setPayload, utility_debugAssert, h1, h2, bind, Except.bind, pure, Except.pure]
  · intro pl q hpl hr
    exact reachFrom_induct cfg anyOp (fun x => x.payload = some pl)
      (fun op a b _ ha hab => op_run_payload cfg op a b pl ha hab) p q hr hpl

/-- C17 on `sampleLaterPacket`, which carries a payload: a second `packet_setPayload` faults, and
after a copy, a priority override and `packet_setMock` the handle is the same. -/
theorem payload_attached_once_witness :
    packet_setPayload sampleLaterPacket (some ⟨2, 10⟩) ⟨8192⟩ 5 = .error .assertion ∧
    (∃ q, runOps sampleConfig sampleLaterPacket [.copy, .setPriority 4, .setMock] =
        .ok (some q) ∧
      q.payload = some { handle := 1, length := 77 }) := by
  have h := payload_attached_once sampleConfig sampleLaterPacket (some ⟨2, 10⟩) ⟨8192⟩ 5
  refine ⟨h.1 (Or.inl (by decide)), _, rfl, ?_⟩
  exact h.2.2 _ _ rfl ⟨[.copy, .setPriority 4, .setMock], by decide, rfl⟩

/-! ## C19: `packet_setMock` and the header -/

/-- C19 as stated fails: on a UDP packet `packet_setMock` turns the header size from
CONFIG_HEADER_SIZE_UDPIP into 0 and makes the addressing accessors panic. -/
theorem setMock_hides_header :
    ∃ u, packet_setUDP (packet_new_inner 7 1) 0 16777226 53764 33554442 20480 = .ok u ∧
      packet_getHeaderSize sampleConfig u = 28 ∧
      packet_getHeaderSize sampleConfig (packet_setMock u) = 0 ∧
      packet_getSourceIP sampleConfig u = .ok 16777226 ∧
      packet_getSourceIP sampleConfig (packet_setMock u) = .error .panic ∧
      packet_getDestinationPort u = .ok 20480 ∧
      packet_getDestinationPort (packet_setMock u) = .error .panic :=
  ⟨_, rfl, rfl, rfl, rfl, rfl, rfl, rfl⟩

/-- C19, amended: `packet_setMock` writes the tag and nothing else: the stored header and every
other field of the packet are what they were. What is read through the tag changes: the header
size is 0 afterwards (as it was for a Local packet), the four addressing accessors panic, and
`packet_getPayloadSize` is CONFIG_MTU. -/
theorem setMock_effect (cfg : Config) (p : Packet) :
    (packet_setMock p).header = p.header ∧
    (packet_setMock p).payload = p.payload ∧
    (packet_setMock p).priority = p.priority ∧
    (packet_setMock p).referenceCount = p.referenceCount ∧
    (packet_setMock p).hostID = p.hostID ∧
    (packet_setMock p).packetID = p.packetID ∧
    (packet_setMock p).allStatus = p.allStatus ∧
    (packet_setMock p).orderedStatus = p.orderedStatus ∧
    packet_getProtocol (packet_setMock p) = .PMOCK ∧
    packet_getHeaderSize cfg (packet_setMock p) = 0 ∧
    (p.protocol = .PLOCAL →
      packet_getHeaderSize cfg (packet_setMock p) = packet_getHeaderSize cfg p) ∧
    packet_getSourceIP cfg (packet_setMock p) = .error .panic ∧
    packet_getSourcePort (packet_setMock p) = .error .panic ∧
    packet_getDestinationIP cfg (packet_setMock p) = .error .panic ∧
    packet_getDestinationPort (packet_setMock p) = .error .panic ∧
    packet_getPayloadSize cfg (packet_setMock p) = cfg.CONFIG_MTU := by
  refine ⟨rfl, rfl, rfl, rfl, rfl, rfl, rfl, rfl, rfl, rfl, ?_, rfl, rfl, rfl, rfl, rfl⟩
  intro h
  simp [packet_getHeaderSize, packet_setMock, h]

/-- C19 on a Local packet: the header size is 0 before and after `packet_setMock`. -/
theorem setMock_effect_witness :
    ∃ l, packet_setLocal (packet_new_inner 7 1) 0 3 9 20480 = .ok l ∧
      packet_getHeaderSize sampleConfig (packet_setMock l) = packet_getHeaderSize sampleConfig l ∧
      (packet_setMock l).header = l.header :=
  ⟨_, rfl, (setMock_effect sampleConfig _).2.2.2.2.2.2.2.2.2.2.1 rfl,
    (setMock_effect sampleConfig _).1⟩

/-! ## C20: the comparator as an ordering -/

/-- The value of `packet_compareTCPSequence` on two TCP packets. -/
theorem packet_compareTCPSequence_eq (x y : Packet) (hx hy : PacketTCPHeader)
    (h1 : x.protocol = .PTCP) (h2 : x.header = some (.ofTCP hx))
    (h3 : y.protocol = .PTCP) (h4 : y.header = some (.ofTCP hy)) :
    packet_compareTCPSequence x y =
      .ok (if hx.sequence < hy.sequence then -1 else if hx.sequence > hy.sequence then 1
        else 0) := by
  simp [packet_compareTCPSequence, utility_debugAssert, h1, h2, h3, h4, asTCP, bind,
    Except.bind, pure, Except.pure]

/-- C20: on TCP packets `packet_compareTCPSequence` always returns, compare(a, a) = 0,
compare(a, b) = -compare(b, a), compare(a, b) = 0 exactly when the sequence numbers are equal,
and compare(a, b) <= 0 with compare(b, c) <= 0 gives compare(a, c) <= 0. -/
theorem packet_compareTCPSequence_ordering (a b c : Packet) (ha hb hc : PacketTCPHeader)
    (hpa : a.protocol = .PTCP) (hha : a.header = some (.ofTCP ha))
    (hpb : b.protocol = .PTCP) (hhb : b.header = some (.ofTCP hb))
    (hpc : c.protocol = .PTCP) (hhc : c.header = some (.ofTCP hc)) :
    ∃ raa rab rba rbc rac,
      packet_compareTCPSequence a a = .ok raa ∧ packet_compareTCPSequence a b = .ok rab ∧
      packet_compareTCPSequence b a = .ok rba ∧ packet_compareTCPSequence b c = .ok rbc ∧
      packet_compareTCPSequence a c = .ok rac ∧
      raa = 0 ∧ rab = -rba ∧ (rab = 0 ↔ ha.sequence = hb.sequence) ∧
      (rab ≤ 0 → rbc ≤ 0 → rac ≤ 0) := by
  refine ⟨_, _, _, _, _, packet_compareTCPSequence_eq a a ha ha hpa hha hpa hha,
    packet_compareTCPSequence_eq a b ha hb hpa hha hpb hhb,
    packet_compareTCPSequence_eq b a hb ha hpb hhb hpa hha,
    packet_compareTCPSequence_eq b c hb hc hpb hhb hpc hhc,
    packet_compareTCPSequence_eq a c ha hc hpa hha hpc hhc, ?_, ?_, ?_, ?_⟩
  · simp
  · split_ifs <;> first | rfl | omega
  · split_ifs <;> constructor <;> intro h <;> first | contradiction | omega
  · split_ifs <;> intro h1 h2 <;> omega

/-- C20 on the sequence numbers 0, 7 and 4294967295. -/
theorem packet_compareTCPSequence_ordering_witness :
    ∃ raa rab rba rbc rac,
      packet_compareTCPSequence (tcpPacketWithSequence 0) (tcpPacketWithSequence 0) = .ok raa ∧
      packet_compareTCPSequence (tcpPacketWithSequence 0) (tcpPacketWithSequence 7) = .ok rab ∧
      packet_compareTCPSequence (tcpPacketWithSequence 7) (tcpPacketWithSequence 0) = .ok rba ∧
      packet_compareTCPSequence (tcpPacketWithSequence 7)
        (tcpPacketWithSequence 4294967295) = .ok rbc ∧
      packet_compareTCPSequence (tcpPacketWithSequence 0)
        (tcpPacketWithSequence 4294967295) = .ok rac ∧
      raa = 0 ∧ rab = -rba ∧ (rab = 0 ↔ (0 : Nat) = 7) ∧
      (rab ≤ 0 → rbc ≤ 0 → rac ≤ 0) :=
  packet_compareTCPSequence_ordering (tcpPacketWithSequence 0) (tcpPacketWithSequence 7)
    (tcpPacketWithSequence 4294967295) _ _ _ rfl rfl rfl rfl rfl rfl

/-! ## C18: copies do not share memory -/

namespace Mem

theorem get_set (m : Heap) (a x : Addr) (b : Block) :
    (m.set a b).get x = if x = a then some b else m.get x := by
  unfold Heap.get Heap.set
  by_cases h : x = a
  · subst h
    simp [List.lookup]
  · have hb : (x == a) = false := by simpa using h
    simp [List.lookup, hb, h]

theorem lookup_filter_ne (l : List (Addr × Block)) (a x : Addr) :
    List.lookup x (l.filter (fun e => e.1 != a)) = if x = a then none else List.lookup x l := by
  induction l with
  | nil => simp
  | cons e l ih =>
    obtain ⟨k, b⟩ := e
    by_cases hk : k = a
    · subst hk
      by_cases hx : x = k
      · subst hx
        simp [List.filter, ih]
      · have hb : (x == k) = false := by simpa using hx
        simp [List.filter, ih, List.lookup, hb, hx]
    · have hka : (k != a) = true := by simpa using hk
      by_cases hx : x = k
      · subst hx
        simp [List.filter, hka, List.lookup, hk]
      · have hb : (x == k) = false := by simpa using hx
        simp [List.filter, hka, List.lookup, hb, ih]

theorem get_free (m : Heap) (a x : Addr) :
    (m.free a).get x = if x = a then none else m.get x := by
  unfold Heap.get Heap.free
  exact lookup_filter_ne m.blocks a x

theorem lookup_none_of_lt (l : List (Addr × Block)) (n : Addr)
    (h : ∀ e ∈ l, e.1 < n) : List.lookup n l = none := by
  induction l with
  | nil => rfl
  | cons e l ih =>
    obtain ⟨k, b⟩ := e
    have hk : k < n := h (k, b) (List.mem_cons_self _ _)
    have hb : (n == k) = false := by
      have : n ≠ k := Nat.ne_of_gt hk
      simpa using this
    simp only [List.lookup, hb]
    exact ih (fun e he => h e (List.mem_cons_of_mem _ he))

theorem le_top (m : Heap) : ∀ e ∈ m.blocks, e.1 ≤ m.top := by
  unfold Heap.top
  induction m.blocks with
  | nil => intro e he; exact absurd he (List.not_mem_nil _)
  | cons x l ih =>
    intro e he
    simp only [List.map_cons, List.foldr_cons]
    rcases List.mem_cons.1 he with h | h
    · subst h; exact Nat.le_max_left _ _
    · exact Nat.le_trans (ih e h) (Nat.le_max_right _ _)

/-- The bump allocator never returns the address of an allocated block. -/
theorem bumpMalloc_fresh : FreshAllocator bumpMalloc := by
  intro m
  unfold Heap.get bumpMalloc
  exact lookup_none_of_lt _ _ (fun e he => Nat.lt_succ_of_le (le_top m e he))

/-- Two addresses that hold blocks of different content are different. -/
theorem ne_of_get (m : Heap) (a b : Addr) (x y : Block)
    (ha : m.get a = some x) (hb : m.get b = some y) (hxy : x ≠ y) : a ≠ b := by
  intro h
  subst h
  rw [ha] at hb
  exact hxy (Option.some.inj hb)

/-- An allocated address is not the one the allocator returns next. -/
theorem ne_malloc (malloc : Heap → Addr) (hfresh : FreshAllocator malloc) (m : Heap) (a : Addr)
    (h : m.get a ≠ none) : a ≠ malloc m := by
  intro e
  rw [e] at h
  exact h (hfresh m)


theorem viewHeader_congr (m n : Heap) (hp : Option Addr)
    (h1 : ∀ a ∈ hp.toList, n.get a = m.get a) (h2 : ∀ a ∈ listOf m hp, n.get a = m.get a) :
    viewHeader n hp = viewHeader m hp ∧ listOf n hp = listOf m hp := by
  cases hp with
  | none => exact ⟨rfl, rfl⟩
  | some ha =>
    have e1 : n.get ha = m.get ha := h1 ha (by simp)
    cases hg : m.get ha with
    | none => simp [viewHeader, listOf, e1, hg]
    | some b =>
      cases b with
      | tcpHeader hc =>
        cases hl : hc.selectiveACKs with
        | none => simp [viewHeader, listOf, e1, hg, hl]
        | some la =>
          have e2 : n.get la = m.get la := h2 la (by simp [listOf, hg, hl])
          simp [viewHeader, listOf, e1, hg, hl, e2]
      | _ => simp [viewHeader, listOf, e1, hg]

theorem viewQueue_congr (m n : Heap) (qp : Option Addr)
    (h : ∀ a ∈ qp.toList, n.get a = m.get a) : viewQueue n qp = viewQueue m qp := by
  cases qp with
  | none => rfl
  | some qa =>
    have e : n.get qa = m.get qa := h qa (by simp)
    simp only [viewQueue, e]

/-- What is read of a packet depends only on the blocks of its footprint. -/
theorem view_congr (m n : Heap) (x : Addr) (h : ∀ a ∈ footprint m x, n.get a = m.get a) :
    view n x = view m x ∧ footprint n x = footprint m x := by
  have hx : n.get x = m.get x := by
    apply h
    unfold footprint
    split <;> simp
  unfold view footprint at *
  rw [hx]
  cases hg : m.get x with
  | none => exact ⟨rfl, rfl⟩
  | some b =>
    cases b with
    | packet pk =>
      simp only [hg] at h
      have hh := viewHeader_congr m n pk.header
        (fun a ha => h a (by simp [List.mem_cons, ha]))
        (fun a ha => h a (by simp [List.mem_cons, ha]))
      have hq := viewQueue_congr m n pk.orderedStatus
        (fun a ha => h a (by simp [List.mem_cons, ha]))
      simp only [hh.1, hh.2, hq]
      exact ⟨trivial, trivial⟩
    | _ => exact ⟨rfl, rfl⟩

/-- The parts of a packet that can be read: the packet struct, the status queue and whatever the
header pointer leads to. -/
theorem view_inv (m : Heap) (x : Addr) (X : Packet) (h : view m x = some X) :
    ∃ pk qa q, m.get x = some (.packet pk) ∧ pk.orderedStatus = some qa ∧
      m.get qa = some (.queue q) ∧ viewHeader m pk.header = some X.header ∧
      X = { referenceCount := pk.referenceCount
            hostID := pk.hostID
            packetID := pk.packetID
            protocol := pk.protocol
            header := X.header
            payload := pk.payload
            priority := pk.priority
            allStatus := pk.allStatus
            orderedStatus := q } := by
  unfold view at h
  cases hg : m.get x with
  | none => simp [hg] at h
  | some b =>
    cases b with
    | packet pk =>
      simp only [hg] at h
      cases hv : viewHeader m pk.header with
      | none => simp [hv] at h
      | some hd =>
        cases hq : pk.orderedStatus with
        | none => simp [hv, hq, viewQueue] at h
        | some qa =>
          cases hqa : m.get qa with
          | none => simp [hv, hq, viewQueue, hqa] at h
          | some bq =>
            cases bq with
            | queue q =>
              simp only [hv, hq, viewQueue, hqa] at h
              have hX := Option.some.inj h
              subst hX
              exact ⟨pk, qa, q, rfl, hq, hqa, hv, rfl⟩
            | _ => simp [hv, hq, viewQueue, hqa] at h
    | _ => simp [hg] at h

/-- A header pointer that reads as a TCP header leads to a TCP header block whose list pointer
is `NULL` or leads to a list block. -/
theorem viewHeader_tcp_inv (m : Heap) (hp : Option Addr) (h : PacketTCPHeader)
    (hv : viewHeader m hp = some (some (.ofTCP h))) :
    ∃ ha hc, hp = some ha ∧ m.get ha = some (.tcpHeader hc) ∧
      ((hc.selectiveACKs = none ∧ h = hc.toHeader []) ∨
       (∃ la l, hc.selectiveACKs = some la ∧ m.get la = some (.list l) ∧ h = hc.toHeader l)) := by
  cases hp with
  | none => simp [viewHeader] at hv
  | some ha =>
    unfold viewHeader at hv
    cases hg : m.get ha with
    | none => simp [hg] at hv
    | some b =>
      cases b with
      | tcpHeader hc =>
        simp only [hg] at hv
        cases hl : hc.selectiveACKs with
        | none =>
          simp only [hl] at hv
          exact ⟨ha, hc, rfl, hg, Or.inl ⟨hl, (Header.ofTCP.inj (Option.some.inj
            (Option.some.inj hv))).symm⟩⟩
        | some la =>
          simp only [hl] at hv
          cases hla : m.get la with
          | none => simp [hla] at hv
          | some bl =>
            cases bl with
            | list l =>
              simp only [hla] at hv
              exact ⟨ha, hc, rfl, hg, Or.inr ⟨la, l, hl, hla, (Header.ofTCP.inj
                (Option.some.inj (Option.some.inj hv))).symm⟩⟩
            | _ => simp [hla] at hv
      | _ => simp [hg] at hv


/-- The blocks a readable header pointer leads to are allocated and are neither packet structs
nor queues. -/
theorem viewHeader_blocks (m : Heap) (hp : Option Addr) (H : Option Header)
    (hv : viewHeader m hp = some H) :
    ∀ a ∈ hp.toList ++ listOf m hp,
      ∃ b, m.get a = some b ∧ (∀ c, b ≠ .packet c) ∧ (∀ q, b ≠ .queue q) := by
  cases hp with
  | none => intro a ha; simp [listOf] at ha
  | some ha =>
    unfold viewHeader at hv
    cases hg : m.get ha with
    | none => simp [hg] at hv
    | some b =>
      cases b with
      | packet c => simp [hg] at hv
      | queue q => simp [hg] at hv
      | list l => simp [hg] at hv
      | localHeader h =>
        intro a hma
        simp [listOf, hg] at hma
        subst hma
        exact ⟨_, hg, by simp, by simp⟩
      | udpHeader h =>
        intro a hma
        simp [listOf, hg] at hma
        subst hma
        exact ⟨_, hg, by simp, by simp⟩
      | tcpHeader hc =>
        simp only [hg] at hv
        cases hl : hc.selectiveACKs with
        | none =>
          intro a hma
          simp [listOf, hg, hl] at hma
          subst hma
          exact ⟨_, hg, by simp, by simp⟩
        | some la =>
          simp only [hl] at hv
          cases hla : m.get la with
          | none => simp [hla] at hv
          | some bl =>
            cases bl with
            | list l =>
              intro a hma
              simp [listOf, hg, hl] at hma
              rcases hma with hma | hma
              · subst hma
                exact ⟨_, hg, by simp, by simp⟩
              · subst hma
                exact ⟨_, hla, by simp, by simp⟩
            | _ => simp [hla] at hv

/-- Every block of the footprint of a readable packet is allocated. -/
theorem footprint_live (m : Heap) (x : Addr) (X : Packet) (hv : view m x = some X) :
    ∀ a ∈ footprint m x, m.get a ≠ none := by
  obtain ⟨pk, qa, q, hx, hq, hqa, hh, _⟩ := view_inv m x X hv
  intro a ha
  simp only [footprint, hx, hq, List.mem_cons, List.mem_append, Option.toList] at ha
  rcases ha with ha | (ha | ha) | ha
  · subst ha; simp [hx]
  · obtain ⟨b, hb, _⟩ := viewHeader_blocks m pk.header _ hh a (List.mem_append_left _ ha)
    simp [hb]
  · obtain ⟨b, hb, _⟩ := viewHeader_blocks m pk.header _ hh a (List.mem_append_right _ ha)
    simp [hb]
  · simp at ha
    subst ha; simp [hqa]

/-- A store to the packet struct that keeps both pointers: what is read of the packet changes in
the stored fields only, and the footprint stays. -/
theorem view_set_packet (m : Heap) (x : Addr) (X : Packet) (pk pc : PacketCell)
    (hv : view m x = some X) (hx : m.get x = some (.packet pk))
    (hh : pc.header = pk.header) (hq : pc.orderedStatus = pk.orderedStatus) :
    view (m.set x (.packet pc)) x =
      some { referenceCount := pc.referenceCount
             hostID := pc.hostID
             packetID := pc.packetID
             protocol := pc.protocol
             header := X.header
             payload := pc.payload
             priority := pc.priority
             allStatus := pc.allStatus
             orderedStatus := X.orderedStatus } ∧
    footprint (m.set x (.packet pc)) x = footprint m x := by
  obtain ⟨pk0, qa, q, hx0, hq0, hqa, hvh, hX⟩ := view_inv m x X hv
  rw [hx] at hx0
  have hpk : pk0 = pk := (Block.packet.inj (Option.some.inj hx0)).symm
  subst hpk
  have hne : ∀ a ∈ pk0.header.toList ++ listOf m pk0.header, a ≠ x := by
    intro a ha
    obtain ⟨b, hb, hnp, _⟩ := viewHeader_blocks m pk0.header _ hvh a ha
    exact ne_of_get m a x _ _ hb hx (hnp pk0)
  have hqx : qa ≠ x := ne_of_get m qa x _ _ hqa hx (by simp)
  have hcong := viewHeader_congr m (m.set x (.packet pc)) pk0.header
    (fun a ha => by rw [get_set, if_neg (hne a (List.mem_append_left _ ha))])
    (fun a ha => by rw [get_set, if_neg (hne a (List.mem_append_right _ ha))])
  have hqv : viewQueue (m.set x (.packet pc)) (some qa) = some q := by
    simp [viewQueue, get_set, hqx, hqa]
  constructor
  · unfold view
    rw [get_set, if_pos rfl]
    simp only [hh, hq, hq0, hcong.1, hvh, hqv]
    rw [hX]
  · unfold footprint
    rw [get_set, if_pos rfl, hx]
    simp only [hh, hq, hcong.2]

/-- A store to the status queue: what is read of the packet changes in the status log only, and
the footprint stays. -/
theorem view_set_queue (m : Heap) (x qa : Addr) (X : Packet) (pk : PacketCell) (q : List Nat)
    (hv : view m x = some X) (hx : m.get x = some (.packet pk))
    (hq : pk.orderedStatus = some qa) :
    view (m.set qa (.queue q)) x = some { X with orderedStatus := q } ∧
    footprint (m.set qa (.queue q)) x = footprint m x := by
  obtain ⟨pk0, qa0, q0, hx0, hq0, hqa, hvh, hX⟩ := view_inv m x X hv
  rw [hx] at hx0
  have hpk : pk0 = pk := (Block.packet.inj (Option.some.inj hx0)).symm
  subst hpk
  rw [hq] at hq0
  have hqq : qa0 = qa := (Option.some.inj hq0).symm
  subst hqq
  have hne : ∀ a ∈ pk0.header.toList ++ listOf m pk0.header, a ≠ qa0 := by
    intro a ha
    obtain ⟨b, hb, _, hnq⟩ := viewHeader_blocks m pk0.header _ hvh a ha
    exact ne_of_get m a qa0 _ _ hb hqa (hnq q0)
  have hxq : x ≠ qa0 := ne_of_get m x qa0 _ _ hx hqa (by simp)
  have hcong := viewHeader_congr m (m.set qa0 (.queue q)) pk0.header
    (fun a ha => by rw [get_set, if_neg (hne a (List.mem_append_left _ ha))])
    (fun a ha => by rw [get_set, if_neg (hne a (List.mem_append_right _ ha))])
  constructor
  · unfold view
    rw [get_set, if_neg hxq, hx]
    simp only [hcong.1, hvh, hq, viewQueue, get_set, if_pos]
    rw [hX]
  · unfold footprint
    rw [get_set, if_neg hxq, hx]
    simp only [hcong.2]


/-- The step `packet_setPriority` on the heap follows the step on the value and writes the
packet struct only. -/
theorem packet_setPriority_step (m : Heap) (x : Addr) (X : Packet) (v : gdouble)
    (hv : view m x = some X) :
    ∃ n, packet_setPriority m x v = .ok n ∧
      view n x = some (Shadow.packet_setPriority X v) ∧
      (∀ a, a ∉ footprint m x → n.get a = m.get a) ∧
      footprint n x = footprint m x := by
  obtain ⟨pk, qa, q, hx, hq, hqa, hvh, hX⟩ := view_inv m x X hv
  have hs := view_set_packet m x X pk { pk with priority := v } hv hx rfl rfl
  refine ⟨_, by simp [packet_setPriority, hx], ?_, ?_, hs.2⟩
  · rw [hs.1, hX]
    rfl
  · intro a ha
    have hax : a ≠ x := by
      intro e
      apply ha
      rw [e]
      simp [footprint, hx]
    rw [get_set, if_neg hax]

/-- The step `packet_addDeliveryStatus` on the heap follows the step on the value and writes the
packet struct and the status queue only. -/
theorem packet_addDeliveryStatus_step (cfg : Config) (m : Heap) (x : Addr) (X Y : Packet)
    (t : Bool) (status : Nat) (hv : view m x = some X)
    (hrun : Shadow.packet_addDeliveryStatus cfg t X status = .ok Y) :
    ∃ n, packet_addDeliveryStatus cfg t m x status = .ok n ∧
      view n x = some Y ∧
      (∀ a, a ∉ footprint m x → n.get a = m.get a) ∧
      footprint n x = footprint m x := by
  obtain ⟨pk, qa, q, hx, hq, hqa, hvh, hX⟩ := view_inv m x X hv
  obtain ⟨rc, hid, pid, proto, hdr, pl, prio, st, qp⟩ := pk
  simp only at hq hX hvh
  subst hq
  have hY := packet_addDeliveryStatus_eq cfg t X Y status hrun
  have hxq : x ≠ qa := ne_of_get m x qa _ _ hx hqa (by simp)
  have hxin : x ∈ footprint m x := by simp [footprint, hx]
  have hqin : qa ∈ footprint m x := by simp [footprint, hx]
  -- the store of the status bitmask
  have hs1 := view_set_packet m x X _ ⟨rc, hid, pid, proto, hdr, pl, prio, st ||| status, some qa⟩
    hv hx rfl rfl
  simp only at hs1
  cases t with
  | false =>
    refine ⟨m.set x (.packet ⟨rc, hid, pid, proto, hdr, pl, prio, st ||| status, some qa⟩),
      by simp [packet_addDeliveryStatus, Heap.packetAt, hx], ?_, ?_, hs1.2⟩
    · rw [hs1.1, hY, hX]
      rfl
    · intro a ha
      have hax : a ≠ x := fun e => ha (e ▸ hxin)
      rw [get_set, if_neg hax]
  | true =>
    -- the push to the queue
    have hx1 : (m.set x (.packet ⟨rc, hid, pid, proto, hdr, pl, prio, st ||| status,
        some qa⟩)).get x =
        some (.packet ⟨rc, hid, pid, proto, hdr, pl, prio, st ||| status, some qa⟩) := by
      rw [get_set, if_pos rfl]
    have hs2 := view_set_queue _ x qa _ _ (q ++ [status]) hs1.1 hx1 rfl
    simp only at hs2
    -- the rendering
    have hvalue : ∃ r, Shadow.packet_toString cfg
        { X with allStatus := X.allStatus ||| status,
                 orderedStatus := X.orderedStatus ++ [status] } = .ok r := by
      unfold Shadow.packet_addDeliveryStatus at hrun
      simp only [if_true, bind, Except.bind, pure, Except.pure, g_queue_push_tail] at hrun
      split at hrun
      · exact absurd hrun (by simp)
      · rename_i r hr
        exact ⟨r, hr⟩
    obtain ⟨r, hr⟩ := hvalue
    have hr2 := packet_toString_snd cfg _ r hr
    have hV : ({ referenceCount := rc
                 hostID := hid
                 packetID := pid
                 protocol := proto
                 header := X.header
                 payload := pl
                 priority := prio
                 allStatus := st ||| status
                 orderedStatus := q ++ [status] } : Packet) =
        { X with allStatus := X.allStatus ||| status,
                 orderedStatus := X.orderedStatus ++ [status] } := by
      rw [hX]
    have hx2 : ((m.set x (.packet ⟨rc, hid, pid, proto, hdr, pl, prio, st ||| status,
        some qa⟩)).set qa (.queue (q ++ [status]))).get x =
        some (.packet ⟨rc, hid, pid, proto, hdr, pl, prio, st ||| status, some qa⟩) := by
      rw [get_set, if_neg hxq, hx1]
    have hs3 := view_set_queue _ x qa _ _ r.2.orderedStatus hs2.1 hx2 rfl
    simp only at hs3
    have hts : packet_toString cfg ((m.set x (.packet
        ⟨rc, hid, pid, proto, hdr, pl, prio, st ||| status, some qa⟩)).set qa
          (.queue (q ++ [status]))) x =
        .ok (r.1, ((m.set x (.packet ⟨rc, hid, pid, proto, hdr, pl, prio, st ||| status,
          some qa⟩)).set qa (.queue (q ++ [status]))).set qa (.queue r.2.orderedStatus)) := by
      unfold packet_toString Heap.packetAt
      rw [hx2]
      simp only []
      rw [hs2.1]
      simp only []
      rw [hV, hr]
    have hqa1 : (m.set x (.packet ⟨rc, hid, pid, proto, hdr, pl, prio, st ||| status,
        some qa⟩)).get qa = some (.queue q) := by
      rw [get_set, if_neg hxq.symm, hqa]
    refine ⟨((m.set x (.packet ⟨rc, hid, pid, proto, hdr, pl, prio, st ||| status,
      some qa⟩)).set qa (.queue (q ++ [status]))).set qa (.queue r.2.orderedStatus),
      ?_, ?_, ?_, ?_⟩
    · unfold packet_addDeliveryStatus Heap.packetAt
      rw [hx]
      simp only [if_true]
      unfold Heap.queueAt
      rw [hqa1]
      simp only [g_queue_push_tail]
      rw [hts]
    · rw [hs3.1, hr2, hY, hX]
      simp
    · intro a ha
      have hax : a ≠ x := fun e => ha (e ▸ hxin)
      have haq : a ≠ qa := fun e => ha (e ▸ hqin)
      rw [get_set, if_neg haq, get_set, if_neg haq, get_set, if_neg hax]
    · rw [hs3.2, hs2.2, hs1.2]


/-- What is read of a TCP packet from the four blocks it owns. -/
theorem view_of_blocks (n : Heap) (x ha qa : Addr) (pk : PacketCell) (hc : TCPHeaderCell)
    (q l : List Nat)
    (hx : n.get x = some (.packet pk)) (hh : pk.header = some ha)
    (hq : pk.orderedStatus = some qa)
    (hha : n.get ha = some (.tcpHeader hc)) (hqa : n.get qa = some (.queue q))
    (hl : (hc.selectiveACKs = none ∧ l = []) ∨
      (∃ la, hc.selectiveACKs = some la ∧ n.get la = some (.list l))) :
    view n x = some
      { referenceCount := pk.referenceCount
        hostID := pk.hostID
        packetID := pk.packetID
        protocol := pk.protocol
        header := some (.ofTCP (hc.toHeader l))
        payload := pk.payload
        priority := pk.priority
        allStatus := pk.allStatus
        orderedStatus := q } ∧
    footprint n x = x :: ([ha] ++ hc.selectiveACKs.toList ++ [qa]) := by
  have hvh : viewHeader n (some ha) = some (some (.ofTCP (hc.toHeader l))) := by
    rcases hl with ⟨h1, h2⟩ | ⟨la, h1, h2⟩
    · simp only [viewHeader, hha, h1, h2]
    · simp only [viewHeader, hha, h1, h2]
  constructor
  · unfold view
    rw [hx]
    simp only [hh, hq, hvh, viewQueue, hqa]
  · unfold footprint
    rw [hx]
    simp only [hh, hq, listOf, hha, Option.toList]


/-- The four blocks behind a readable TCP packet. -/
theorem view_tcp_blocks (m : Heap) (x : Addr) (X : Packet) (h : PacketTCPHeader)
    (hv : view m x = some X) (hh : X.header = some (.ofTCP h)) :
    ∃ pk ha qa hc q l, m.get x = some (.packet pk) ∧ pk.header = some ha ∧
      pk.orderedStatus = some qa ∧ m.get ha = some (.tcpHeader hc) ∧
      m.get qa = some (.queue q) ∧
      ((hc.selectiveACKs = none ∧ l = []) ∨
        (∃ la, hc.selectiveACKs = some la ∧ m.get la = some (.list l))) ∧
      h = hc.toHeader l ∧
      X = { referenceCount := pk.referenceCount
            hostID := pk.hostID
            packetID := pk.packetID
            protocol := pk.protocol
            header := some (.ofTCP h)
            payload := pk.payload
            priority := pk.priority
            allStatus := pk.allStatus
            orderedStatus := q } := by
  obtain ⟨pk, qa, q, hx, hq, hqa, hvh, hX⟩ := view_inv m x X hv
  rw [hh] at hvh hX
  obtain ⟨ha, hc, hp, hha, hl⟩ := viewHeader_tcp_inv m pk.header h hvh
  rcases hl with ⟨h1, h2⟩ | ⟨la, l, h1, h2, h3⟩
  · exact ⟨pk, ha, qa, hc, q, [], hx, hp, hq, hha, hqa, Or.inl ⟨h1, rfl⟩, h2, hX⟩
  · exact ⟨pk, ha, qa, hc, q, l, hx, hp, hq, hha, hqa, Or.inr ⟨la, h1, h2⟩, h3, hX⟩

/-- The step `packet_updateTCP` on the heap follows the step on the value; it writes the header
block, frees the old list block and allocates the new one, and touches no other allocated
block. -/
theorem packet_updateTCP_step (malloc : Heap → Addr) (hfresh : FreshAllocator malloc)
    (cfg : Config) (m : Heap) (x : Addr) (X Y : Packet) (ack : Nat) (sacks : List Nat)
    (window tsv tse : Nat) (hv : view m x = some X)
    (hrun : Shadow.packet_updateTCP cfg X ack sacks window tsv tse = .ok Y) :
    ∃ n, packet_updateTCP malloc cfg m x ack sacks window tsv tse = .ok n ∧
      view n x = some Y ∧
      (∀ a, a ∉ footprint m x → m.get a ≠ none → n.get a = m.get a) ∧
      (∀ a ∈ footprint n x, a ∈ footprint m x ∨ m.get a = none) := by
  obtain ⟨hproto, h, hh, hY⟩ := (packet_updateTCP_iff cfg X Y ack sacks window tsv tse).1 hrun
  obtain ⟨pk, ha, qa, hc, q, l, hx, hph, hpq, hha, hqa, hl, hhc, hX⟩ :=
    view_tcp_blocks m x X h hv hh
  have hpp : pk.protocol = .PTCP := by rw [hX] at hproto; exact hproto
  have hxa : x ≠ ha := ne_of_get m x ha _ _ hx hha (by simp)
  have hxq : x ≠ qa := ne_of_get m x qa _ _ hx hqa (by simp)
  have haq : ha ≠ qa := ne_of_get m ha qa _ _ hha hqa (by simp)
  have hfp := (view_of_blocks m x ha qa pk hc q l hx hph hpq hha hqa hl).2
  have hassert : utility_debugAssert (some ha ≠ none ∧ pk.protocol = .PTCP) = .ok () := by
    simp [utility_debugAssert, hpp]
  by_cases hs : sacks = []
  · -- no new list: only the header block is written
    have hrunm : packet_updateTCP malloc cfg m x ack sacks window tsv tse =
        .ok (m.set ha (.tcpHeader { hc with
          acknowledgment := ack, window := window, timestampValue := tsv,
          timestampEcho := tse })) := by
      unfold packet_updateTCP Heap.packetAt
      rw [hx]
      simp only [hph, hassert]
      unfold Heap.tcpAt
      rw [hha]
      simp [hs]
    refine ⟨_, hrunm, ?_, ?_, ?_⟩
    · have hv2 := (view_of_blocks (m.set ha (.tcpHeader { hc with
          acknowledgment := ack, window := window, timestampValue := tsv,
          timestampEcho := tse })) x ha qa pk _ q l
        (by rw [get_set, if_neg hxa, hx]) hph hpq (by rw [get_set, if_pos rfl])
        (by rw [get_set, if_neg haq.symm, hqa])
        (by
          rcases hl with ⟨h1, h2⟩ | ⟨la, h1, h2⟩
          · exact Or.inl ⟨h1, h2⟩
          · have hla : la ≠ ha := ne_of_get m la ha _ _ h2 hha (by simp)
            exact Or.inr ⟨la, h1, by rw [get_set, if_neg hla, h2]⟩)).1
      rw [hv2, hY, hX, hhc]
      simp [hs, TCPHeaderCell.toHeader]
    · intro a hna _
      have : a ≠ ha := by
        intro e; apply hna; rw [hfp, e]; simp
      rw [get_set, if_neg this]
    · intro a hma
      left
      have hfp2 := (view_of_blocks (m.set ha (.tcpHeader { hc with
          acknowledgment := ack, window := window, timestampValue := tsv,
          timestampEcho := tse })) x ha qa pk _ q l
        (by rw [get_set, if_neg hxa, hx]) hph hpq (by rw [get_set, if_pos rfl])
        (by rw [get_set, if_neg haq.symm, hqa])
        (by
          rcases hl with ⟨h1, h2⟩ | ⟨la, h1, h2⟩
          · exact Or.inl ⟨h1, h2⟩
          · have hla : la ≠ ha := ne_of_get m la ha _ _ h2 hha (by simp)
            exact Or.inr ⟨la, h1, by rw [get_set, if_neg hla, h2]⟩)).2
      rw [hfp2] at hma
      rw [hfp]
      exact hma
  · -- a new list: the old list block is freed, a new one allocated, the header written
    have hlen : sacks.length > 0 := List.length_pos.mpr hs
    -- the heap after the old list has been freed
    obtain ⟨mf, hmf, hkeep, hgone⟩ : ∃ mf : Heap,
        mf = (match hc.selectiveACKs with
              | some la => m.free la
              | none => m) ∧
        (∀ a, a ∈ [x, ha, qa] → mf.get a = m.get a) ∧
        (∀ a, mf.get a = none → a ∈ hc.selectiveACKs.toList ∨ m.get a = none) ∧
        (∀ a, m.get a ≠ none → a ∉ hc.selectiveACKs.toList → mf.get a = m.get a) := by
      refine ⟨_, rfl, ?_, ?_, ?_⟩
      · intro a hma
        rcases hl with ⟨h1, _⟩ | ⟨la, h1, h2⟩
        · simp only [h1]
        · simp only [h1]
          have : a ≠ la := by
            simp only [List.mem_cons, List.mem_singleton, List.not_mem_nil, or_false] at hma
            rcases hma with e | e | e
            · rw [e]; exact ne_of_get m x la _ _ hx h2 (by simp)
            · rw [e]; exact ne_of_get m ha la _ _ hha h2 (by simp)
            · rw [e]; exact ne_of_get m qa la _ _ hqa h2 (by simp)
          rw [get_free, if_neg this]
      · intro a hma
        rcases hl with ⟨h1, _⟩ | ⟨la, h1, h2⟩
        · simp only [h1] at hma
          exact Or.inr hma
        · simp only [h1] at hma ⊢
          rw [get_free] at hma
          by_cases e : a = la
          · left; simp [e]
          · rw [if_neg e] at hma; exact Or.inr hma
      · intro a _ hna
        rcases hl with ⟨h1, _⟩ | ⟨la, h1, h2⟩
        · simp only [h1]
        · simp only [h1] at hna ⊢
          have : a ≠ la := by simpa using hna
          rw [get_free, if_neg this]
    obtain ⟨hgone, hrest⟩ := hgone
    have hbx : x ≠ malloc mf :=
      ne_malloc malloc hfresh mf x (by rw [hkeep x (by simp), hx]; simp)
    have hba : ha ≠ malloc mf :=
      ne_malloc malloc hfresh mf ha (by rw [hkeep ha (by simp), hha]; simp)
    have hbq : qa ≠ malloc mf :=
      ne_malloc malloc hfresh mf qa (by rw [hkeep qa (by simp), hqa]; simp)
    have hrunm : packet_updateTCP malloc cfg m x ack sacks window tsv tse =
        .ok ((mf.set (malloc mf) (.list sacks)).set ha (.tcpHeader { hc with
          flags := hc.flags ||| cfg.PTCP_SACK
          selectiveACKs := some (malloc mf)
          acknowledgment := ack, window := window, timestampValue := tsv,
          timestampEcho := tse })) := by
      unfold packet_updateTCP Heap.packetAt
      rw [hx]
      simp only [hph, hassert]
      unfold Heap.tcpAt
      rw [hha]
      simp only [hs, hlen, ne_eq, not_false_eq_true, and_self, if_true, g_list_copy]
      subst hmf
      rfl
    have hblocks := view_of_blocks ((mf.set (malloc mf) (.list sacks)).set ha (.tcpHeader
        { hc with
          flags := hc.flags ||| cfg.PTCP_SACK
          selectiveACKs := some (malloc mf)
          acknowledgment := ack, window := window, timestampValue := tsv,
          timestampEcho := tse })) x ha qa pk _ q sacks
      (by rw [get_set, if_neg hxa, get_set, if_neg hbx, hkeep x (by simp), hx]) hph hpq
      (by rw [get_set, if_pos rfl])
      (by rw [get_set, if_neg haq.symm, get_set, if_neg hbq, hkeep qa (by simp), hqa])
      (Or.inr ⟨malloc mf, rfl, by rw [get_set, if_neg hba.symm, get_set, if_pos rfl]⟩)
    refine ⟨_, hrunm, ?_, ?_, ?_⟩
    · rw [hblocks.1, hY, hX, hhc]
      simp [hs, TCPHeaderCell.toHeader]
    · intro a hna hlive
      have h1 : a ≠ ha := by
        intro e; apply hna; rw [hfp, e]; simp
      have h2 : a ∉ hc.selectiveACKs.toList := by
        intro e; apply hna; rw [hfp]; simp [e]
      have h3 : mf.get a = m.get a := hrest a hlive h2
      have h4 : a ≠ malloc mf := ne_malloc malloc hfresh mf a (by rw [h3]; exact hlive)
      rw [get_set, if_neg h1, get_set, if_neg h4, h3]
    · intro a hma
      rw [hblocks.2] at hma
      rw [hfp]
      simp only [List.mem_cons, List.mem_append, List.mem_singleton, Option.toList,
        List.not_mem_nil, or_false] at hma
      rcases hma with e | (e | e) | e
      · left; simp [e]
      · left; simp [e]
      · rcases hgone a (by rw [e]; exact hfresh mf) with h1 | h1
        · left; simp [h1]
        · right; exact h1
      · left; simp [e]


/-- The queue part of `packet_copy` puts the entries of the queue into a block that was not
allocated before and touches no allocated block. -/
theorem copyQueue_spec (malloc : Heap → Addr) (hfresh : FreshAllocator malloc) (m : Heap)
    (qa : Addr) (q : List Nat) (hqa : m.get qa = some (.queue q)) :
    ∃ n a, copyQueue malloc m (some qa) = .ok (n, some a) ∧ m.get a = none ∧
      n.get a = some (.queue q) ∧ (∀ x, m.get x ≠ none → n.get x = m.get x) := by
  refine ⟨m.set (malloc m) (.queue q), malloc m, ?_, hfresh m, ?_, ?_⟩
  · simp [copyQueue, Heap.queueAt, hqa, g_queue_copy]
  · rw [get_set, if_pos rfl]
  · intro x hx
    rw [get_set, if_neg (ne_malloc malloc hfresh m x hx)]

/-- The TCP arm of the header switch of `packet_copy` puts a header with the same fields into a
block that was not allocated before, with a SACK list of the same entries in another such
block, and touches no allocated block. -/
theorem copyHeader_tcp_spec (malloc : Heap → Addr) (hfresh : FreshAllocator malloc) (m : Heap)
    (ha : Addr) (hc : TCPHeaderCell) (l : List Nat)
    (hha : m.get ha = some (.tcpHeader hc))
    (hl : (hc.selectiveACKs = none ∧ l = []) ∨
      (∃ la, hc.selectiveACKs = some la ∧ m.get la = some (.list l))) :
    ∃ n a hcc, copyHeader malloc m .PTCP (some ha) = .ok (n, some a) ∧ m.get a = none ∧
      n.get a = some (.tcpHeader hcc) ∧ hcc.toHeader l = hc.toHeader l ∧
      ((hcc.selectiveACKs = none ∧ l = []) ∨
        (∃ lb, hcc.selectiveACKs = some lb ∧ n.get lb = some (.list l) ∧ m.get lb = none)) ∧
      (∀ x, m.get x ≠ none → n.get x = m.get x) := by
  have hne : ha ≠ malloc m := ne_malloc malloc hfresh m ha (by rw [hha]; simp)
  rcases hl with ⟨h1, h2⟩ | ⟨la, h1, h2⟩
  · refine ⟨(m.set (malloc m) (.tcpHeader hc)).set (malloc m)
        (.tcpHeader { hc with selectiveACKs := none }), malloc m,
      { hc with selectiveACKs := none }, ?_, hfresh m, ?_, rfl, Or.inl ⟨rfl, h2⟩, ?_⟩
    · simp [copyHeader, Heap.tcpAt, hha, h1]
    · rw [get_set, if_pos rfl]
    · intro x hx
      have := ne_malloc malloc hfresh m x hx
      rw [get_set, if_neg this, get_set, if_neg this]
  · -- the heap in which the list of the copy is allocated
    obtain ⟨m2, hm2⟩ : ∃ m2 : Heap, m2 = (m.set (malloc m) (.tcpHeader hc)).set (malloc m)
        (.tcpHeader { hc with selectiveACKs := none }) := ⟨_, rfl⟩
    have hkeep : ∀ x, m.get x ≠ none → m2.get x = m.get x := by
      intro x hx
      have := ne_malloc malloc hfresh m x hx
      rw [hm2, get_set, if_neg this, get_set, if_neg this]
    have hla2 : m2.get la = some (.list l) := by
      rw [hkeep la (by rw [h2]; simp), h2]
    have hb : m2.get (malloc m2) = none := hfresh m2
    have hba : malloc m2 ≠ malloc m := by
      intro e
      rw [e, hm2, get_set, if_pos rfl] at hb
      exact absurd hb (by simp)
    have hbdead : m.get (malloc m2) = none := by
      by_contra hlive
      have := hkeep _ hlive
      rw [hb] at this
      exact hlive this.symm
    refine ⟨(m2.set (malloc m2) (.list l)).set (malloc m)
        (.tcpHeader { hc with selectiveACKs := some (malloc m2) }), malloc m,
      { hc with selectiveACKs := some (malloc m2) }, ?_, hfresh m, ?_, rfl,
      Or.inr ⟨malloc m2, rfl, ?_, hbdead⟩, ?_⟩
    · simp only [copyHeader, Heap.tcpAt, hha, h1]
      rw [← hm2]
      simp only [Heap.listAt, hla2, g_list_copy]
    · rw [get_set, if_pos rfl]
    · rw [get_set, if_neg hba, get_set, if_pos rfl]
    · intro x hx
      have h3 := ne_malloc malloc hfresh m x hx
      have h4 : x ≠ malloc m2 := ne_malloc malloc hfresh m2 x (by rw [hkeep x hx]; exact hx)
      rw [get_set, if_neg h3, get_set, if_neg h4, hkeep x hx]


/-- The call `packet_copy` on the heap, on a readable TCP packet: it returns the address of a
packet that reads as the copy of the value, all of whose blocks were not allocated before, and
it touches no block that was allocated. -/
theorem packet_copy_tcp (malloc : Heap → Addr) (hfresh : FreshAllocator malloc) (m : Heap)
    (p : Addr) (P : Packet) (h : PacketTCPHeader)
    (hv : view m p = some P) (hp : P.protocol = .PTCP) (hh : P.header = some (.ofTCP h)) :
    ∃ n c C, packet_copy malloc m p = .ok (n, c) ∧ Shadow.packet_copy P = .ok C ∧
      view n c = some C ∧
      (∀ a, m.get a ≠ none → n.get a = m.get a) ∧
      (∀ a ∈ footprint n c, m.get a = none) := by
  obtain ⟨pk, ha, qa, hc, q, l, hx, hph, hpq, hha, hqa, hl, hhc, hX⟩ :=
    view_tcp_blocks m p P h hv hh
  obtain ⟨rc, hid, pid, proto, hdr, pl, prio, st, qp⟩ := pk
  simp only at hph hpq hX
  subst hph hpq
  have hproto : proto = .PTCP := by rw [hX] at hp; exact hp
  subst hproto
  -- the value-level copy
  obtain ⟨C, hC⟩ := Shadow.packet_copy_ok P (by rw [hp, hh]; rfl) (by rw [hp]; simp)
  have hCeq := Shadow.packet_copy_eq P C hC
  -- the block of the copy
  obtain ⟨cp0, hcp0⟩ : ∃ cp0 : PacketCell, cp0 =
      ⟨1, hid, pid, .PNONE, none, none, 0, 0, none⟩ := ⟨_, rfl⟩
  obtain ⟨m0, hm0⟩ : ∃ m0 : Heap, m0 = m.set (malloc m) (.packet cp0) := ⟨_, rfl⟩
  have hk0 : ∀ a, m.get a ≠ none → m0.get a = m.get a := by
    intro a ha'
    rw [hm0, get_set, if_neg (ne_malloc malloc hfresh m a ha')]
  have h00 : m0.get (malloc m) = some (.packet cp0) := by rw [hm0, get_set, if_pos rfl]
  -- the queue
  obtain ⟨m1, a1, hcq, hd1, hg1, hk1⟩ := copyQueue_spec malloc hfresh m0 qa q
    (by rw [hk0 qa (by rw [hqa]; simp), hqa])
  -- the header
  have hl1 : (hc.selectiveACKs = none ∧ l = []) ∨
      (∃ la, hc.selectiveACKs = some la ∧ m1.get la = some (.list l)) := by
    rcases hl with hl | ⟨la, e1, e2⟩
    · exact Or.inl hl
    · refine Or.inr ⟨la, e1, ?_⟩
      have e3 : m0.get la = m.get la := hk0 la (by rw [e2]; simp)
      rw [hk1 la (by rw [e3, e2]; simp), e3, e2]
  have hha1 : m1.get ha = some (.tcpHeader hc) := by
    have e3 : m0.get ha = m.get ha := hk0 ha (by rw [hha]; simp)
    rw [hk1 ha (by rw [e3, hha]; simp), e3, hha]
  obtain ⟨m2, a2, hcc, hch, hd2, hg2, hsame, hl2, hk2⟩ :=
    copyHeader_tcp_spec malloc hfresh m1 ha hc l hha1 hl1
  -- liveness of the new blocks along the way
  have h01 : m1.get (malloc m) = some (.packet cp0) := by
    rw [hk1 _ (by rw [h00]; simp), h00]
  have h02 : m2.get (malloc m) = some (.packet cp0) := by
    rw [hk2 _ (by rw [h01]; simp), h01]
  have h12 : m2.get a1 = some (.queue q) := by
    rw [hk2 _ (by rw [hg1]; simp), hg1]
  have ha10 : a1 ≠ malloc m := ne_of_get m2 a1 (malloc m) _ _ h12 h02 (by simp)
  have ha20 : a2 ≠ malloc m := ne_of_get m2 a2 (malloc m) _ _ hg2 h02 (by simp)
  have hdead : ∀ a, m1.get a = none → m.get a = none := by
    intro a hna
    by_contra hlive
    have e3 : m0.get a = m.get a := hk0 a hlive
    have e4 : m1.get a = m0.get a := hk1 a (by rw [e3]; exact hlive)
    rw [hna] at e4
    rw [← e4] at e3
    exact hlive e3.symm
  have hdead0 : ∀ a, m0.get a = none → m.get a = none := by
    intro a hna
    by_contra hlive
    have e3 : m0.get a = m.get a := hk0 a hlive
    rw [hna] at e3
    exact hlive e3.symm
  -- the final store
  obtain ⟨cpf, hcpf⟩ : ∃ cpf : PacketCell, cpf =
      ⟨1, hid, pid, .PTCP, some a2,
        (match pl with | some x => some x | none => none),
        (match pl with | some _ => prio | none => 0), st, some a1⟩ := ⟨_, rfl⟩
  have hrun : packet_copy malloc m p = .ok (m2.set (malloc m) (.packet cpf), malloc m) := by
    unfold packet_copy Heap.packetAt
    rw [hx]
    simp only []
    rw [← hcp0, ← hm0, hcq]
    simp only []
    rw [hch]
    simp only []
    rw [hcpf, hcp0]
    cases pl <;> rfl
  have hblocks := view_of_blocks (m2.set (malloc m) (.packet cpf)) (malloc m) a2 a1 cpf hcc q l
    (by rw [get_set, if_pos rfl]) (by rw [hcpf]) (by rw [hcpf])
    (by rw [get_set, if_neg ha20, hg2]) (by rw [get_set, if_neg ha10, h12])
    (by
      rcases hl2 with hl2 | ⟨lb, e1, e2, e3⟩
      · exact Or.inl hl2
      · refine Or.inr ⟨lb, e1, ?_⟩
        have : lb ≠ malloc m := by
          intro e
          rw [e, h01] at e3
          exact absurd e3 (by simp)
        rw [get_set, if_neg this, e2])
  refine ⟨_, _, C, hrun, hC, ?_, ?_, ?_⟩
  · rw [hblocks.1, hCeq, hX, hcpf, hsame, ← hhc]
    cases pl <;> rfl
  · intro a hlive
    have e0 : m0.get a = m.get a := hk0 a hlive
    have e1 : m1.get a = m0.get a := hk1 a (by rw [e0]; exact hlive)
    have e2 : m2.get a = m1.get a := hk2 a (by rw [e1, e0]; exact hlive)
    rw [get_set, if_neg (ne_malloc malloc hfresh m a hlive), e2, e1, e0]
  · intro a hma
    rw [hblocks.2] at hma
    simp only [List.mem_cons, List.mem_append, List.mem_singleton, List.not_mem_nil,
      or_false] at hma
    rcases hma with e | (e | e) | e
    · rw [e]; exact hfresh m
    · rw [e]; exact hdead a2 hd2
    · rcases hl2 with ⟨e1, _⟩ | ⟨lb, e1, _, e3⟩
      · rw [e1] at e; simp at e
      · rw [e1] at e
        simp at e
        rw [e]; exact hdead lb e3
    · rw [e]; exact hdead0 a1 hd1


/-- Each of the three calls on the heap follows the same call on the value, and touches no
allocated block outside the footprint of the packet it is made on; the footprint afterwards
consists of blocks of the old footprint and of blocks that were not allocated. -/
theorem mutation_step (malloc : Heap → Addr) (hfresh : FreshAllocator malloc) (cfg : Config)
    (m : Heap) (x : Addr) (X Y : Packet) (call : Mutation) (hv : view m x = some X)
    (hrun : call.toOp.run cfg X = .ok (some Y)) :
    ∃ n, call.run malloc cfg m x = .ok n ∧ view n x = some Y ∧
      (∀ a, a ∉ footprint m x → m.get a ≠ none → n.get a = m.get a) ∧
      (∀ a ∈ footprint n x, a ∈ footprint m x ∨ m.get a = none) := by
  cases call with
  | updateTCP ack sacks window tsv tse =>
    exact packet_updateTCP_step malloc hfresh cfg m x X Y ack sacks window tsv tse hv
      (except_map_some_ok _ _ hrun)
  | addDeliveryStatus t status =>
    obtain ⟨n, h1, h2, h3, h4⟩ := packet_addDeliveryStatus_step cfg m x X Y t status hv
      (except_map_some_ok _ _ hrun)
    exact ⟨n, h1, h2, fun a ha _ => h3 a ha, fun a ha => Or.inl (h4 ▸ ha)⟩
  | setPriority v =>
    obtain ⟨n, h1, h2, h3, h4⟩ := packet_setPriority_step m x X v hv
    have hY : Y = Shadow.packet_setPriority X v := (Option.some.inj (Except.ok.inj hrun)).symm
    exact ⟨n, h1, by rw [h2, hY], fun a ha _ => h3 a ha, fun a ha => Or.inl (h4 ▸ ha)⟩

/-- A call on one packet leaves a packet with a disjoint footprint as it was, and the footprints
stay disjoint. -/
theorem mutation_keeps_other (malloc : Heap → Addr) (hfresh : FreshAllocator malloc)
    (cfg : Config) (m : Heap) (x y : Addr) (X Y Z : Packet) (call : Mutation)
    (hv : view m x = some X) (hvy : view m y = some Z)
    (hsep : ∀ a ∈ footprint m y, a ∉ footprint m x)
    (hrun : call.toOp.run cfg X = .ok (some Y)) :
    ∃ n, call.run malloc cfg m x = .ok n ∧ view n x = some Y ∧ view n y = some Z ∧
      (∀ a ∈ footprint n y, a ∉ footprint n x) := by
  obtain ⟨n, h1, h2, h3, h4⟩ := mutation_step malloc hfresh cfg m x X Y call hv hrun
  have hlive := footprint_live m y Z hvy
  have hc := view_congr m n y (fun a ha => h3 a (hsep a ha) (hlive a ha))
  refine ⟨n, h1, h2, by rw [hc.1, hvy], ?_⟩
  intro a ha hax
  rw [hc.2] at ha
  rcases h4 a hax with h5 | h5
  · exact hsep a ha h5
  · exact hlive a ha h5

/-- A sequence of calls on one packet leaves a packet with a disjoint footprint as it was. -/
theorem mutations_keep_other (malloc : Heap → Addr) (hfresh : FreshAllocator malloc)
    (cfg : Config) (calls : List Mutation) (m : Heap) (x y : Addr) (X Y Z : Packet)
    (hv : view m x = some X) (hvy : view m y = some Z)
    (hsep : ∀ a ∈ footprint m y, a ∉ footprint m x)
    (hrun : runOps cfg X (calls.map Mutation.toOp) = .ok (some Y)) :
    ∃ n, Mutation.runAll malloc cfg x m calls = .ok n ∧ view n x = some Y ∧
      view n y = some Z := by
  induction calls generalizing m X with
  | nil =>
    simp only [List.map_nil, runOps] at hrun
    have e : X = Y := Option.some.inj (Except.ok.inj hrun)
    exact ⟨m, rfl, by rw [hv, e], hvy⟩
  | cons call rest ih =>
    obtain ⟨X1, hr1, hr2⟩ := runOps_cons_ok cfg X Y call.toOp (rest.map Mutation.toOp) hrun
    obtain ⟨n1, h1, h2, h3, h4⟩ :=
      mutation_keeps_other malloc hfresh cfg m x y X X1 Z call hv hvy hsep hr1
    obtain ⟨n, h5, h6, h7⟩ := ih n1 X1 h2 h3 h4 hr2
    exact ⟨n, by simp only [Mutation.runAll, h1, h5], h6, h7⟩

/-- C18: on the heap, `packet_copy` of a TCP packet returns a packet that reads as the copy and
is built from blocks of its own: the footprints of the original and of the copy are disjoint,
and the payload handle is the one field both hold. Hence any sequence of `packet_updateTCP`
(also one that replaces the SACK list), `packet_addDeliveryStatus` and `packet_setPriority`
calls on the copy leaves the original as it was, SACK list and status log included, and any
such sequence on the original leaves the copy as it was. -/
theorem copy_independence (malloc : Heap → Addr) (hfresh : FreshAllocator malloc)
    (cfg : Config) (m : Heap) (p : Addr) (P : Packet) (h : PacketTCPHeader)
    (hv : view m p = some P) (hp : P.protocol = .PTCP) (hh : P.header = some (.ofTCP h)) :
    ∃ n c C, packet_copy malloc m p = .ok (n, c) ∧ Shadow.packet_copy P = .ok C ∧
      view n c = some C ∧ view n p = some P ∧ C.payload = P.payload ∧
      (∀ a ∈ footprint n p, a ∉ footprint n c) ∧
      (∀ (calls : List Mutation) (C2 : Packet),
        runOps cfg C (calls.map Mutation.toOp) = .ok (some C2) →
        ∃ n2, Mutation.runAll malloc cfg c n calls = .ok n2 ∧ view n2 c = some C2 ∧
          view n2 p = some P) ∧
      (∀ (calls : List Mutation) (P2 : Packet),
        runOps cfg P (calls.map Mutation.toOp) = .ok (some P2) →
        ∃ n2, Mutation.runAll malloc cfg p n calls = .ok n2 ∧ view n2 p = some P2 ∧
          view n2 c = some C) := by
  obtain ⟨n, c, C, hrun, hC, hvc, hkeep, hnew⟩ := packet_copy_tcp malloc hfresh m p P h hv hp hh
  have hlive := footprint_live m p P hv
  have hcong := view_congr m n p (fun a ha => hkeep a (hlive a ha))
  have hvp : view n p = some P := by rw [hcong.1, hv]
  have hsep : ∀ a ∈ footprint n p, a ∉ footprint n c := by
    intro a ha hac
    rw [hcong.2] at ha
    exact hlive a ha (hnew a hac)
  refine ⟨n, c, C, hrun, hC, hvc, hvp, ?_, hsep, ?_, ?_⟩
  · rw [Shadow.packet_copy_eq P C hC]
  · intro calls C2 hr
    exact mutations_keep_other malloc hfresh cfg calls n c p C C2 P hvc hvp hsep hr
  · intro calls P2 hr
    exact mutations_keep_other malloc hfresh cfg calls n p c P P2 C hvp hvc
      (fun a ha hap => hsep a hap ha) hr

/-- C18 on `sampleHeap`, which holds `sampleTCPPacket` at address 1, with the bump allocator. -/
theorem copy_independence_witness :
    ∃ n c C, packet_copy bumpMalloc sampleHeap 1 = .ok (n, c) ∧
      Shadow.packet_copy sampleTCPPacket = .ok C ∧
      view n c = some C ∧ view n 1 = some sampleTCPPacket ∧
      C.payload = sampleTCPPacket.payload ∧
      (∀ a ∈ footprint n 1, a ∉ footprint n c) ∧
      (∀ (calls : List Mutation) (C2 : Packet),
        runOps sampleConfig C (calls.map Mutation.toOp) = .ok (some C2) →
        ∃ n2, Mutation.runAll bumpMalloc sampleConfig c n calls = .ok n2 ∧
          view n2 c = some C2 ∧ view n2 1 = some sampleTCPPacket) ∧
      (∀ (calls : List Mutation) (P2 : Packet),
        runOps sampleConfig sampleTCPPacket (calls.map Mutation.toOp) = .ok (some P2) →
        ∃ n2, Mutation.runAll bumpMalloc sampleConfig 1 n calls = .ok n2 ∧
          view n2 1 = some P2 ∧ view n2 c = some C) :=
  copy_independence bumpMalloc bumpMalloc_fresh sampleConfig sampleHeap 1 sampleTCPPacket
    sampleTCPHeader rfl rfl rfl

end Mem

/-! ## C21: the ordered status log -/

/-- What a successful call does to the ordered status log and to the tag: the log grows by the
flag of a traced `packet_addDeliveryStatus` and by nothing else; the tag stays, or becomes Mock,
or is the tag of the header setter that was called. -/
theorem op_run_log (cfg : Config) (op : Op) (p q : Packet) (h : op.run cfg p = .ok (some q)) :
    q.orderedStatus = p.orderedStatus ++ op.tracedStatus.toList ∧
    (q.protocol = p.protocol ∨ q.protocol = .PMOCK ∨ op.setterTag = some q.protocol) := by
  cases op with
  | setPayload thread ptr len =>
    simp only [Op.run, Except.map] at h
    split at h
    · exact absurd h (by simp)
    · rename_i r hr
      injection h with h; injection h with h; subst h
      obtain ⟨_, t, _, hq⟩ := packet_setPayload_eq p r thread ptr len hr
      simp [hq, Op.tracedStatus]
  | copy =>
    simp only [Op.run, Except.map] at h
    split at h
    · exact absurd h (by simp)
    · rename_i r hr
      injection h with h; injection h with h; subst h
      simp [packet_copy_eq p r hr, Op.tracedStatus]
  | ref =>
    simp only [Op.run] at h
    injection h with h; injection h with h; subst h
    simp [packet_ref, Op.tracedStatus]
  | unref t =>
    simp only [Op.run] at h
    simp [packet_unref_eq cfg t p q h, Op.tracedStatus]
  | setPriority v =>
    simp only [Op.run] at h
    injection h with h; injection h with h; subst h
    simp [packet_setPriority, Op.tracedStatus]
  | setMock =>
    simp only [Op.run] at h
    injection h with h; injection h with h; subst h
    simp [packet_setMock, Op.tracedStatus]
  | setLocal flags s d port =>
    simp only [Op.run, Except.map] at h
    split at h
    · exact absurd h (by simp)
    · rename_i r hr
      injection h with h; injection h with h; subst h
      obtain ⟨_, _, _, hq⟩ := (packet_setLocal_iff p r flags s d port).1 hr
      simp [hq, Op.tracedStatus, Op.setterTag]
  | setUDP flags a b c d =>
    simp only [Op.run, Except.map] at h
    split at h
    · exact absurd h (by simp)
    · rename_i r hr
      injection h with h; injection h with h; subst h
      obtain ⟨_, _, _, hq⟩ := (packet_setUDP_iff p r flags a b c d).1 hr
      simp [hq, Op.tracedStatus, Op.setterTag]
  | setTCP flags a b c d sequence =>
    simp only [Op.run, Except.map] at h
    split at h
    · exact absurd h (by simp)
    · rename_i r hr
      injection h with h; injection h with h; subst h
      obtain ⟨_, _, _, hq⟩ := (packet_setTCP_iff p r flags a b c d sequence).1 hr
      simp [hq, Op.tracedStatus, Op.setterTag]
  | updateTCP ack sacks window tsv tse =>
    simp only [Op.run, Except.map] at h
    split at h
    · exact absurd h (by simp)
    · rename_i r hr
      injection h with h; injection h with h; subst h
      obtain ⟨_, hd, _, hq⟩ := (packet_updateTCP_iff cfg p r ack sacks window tsv tse).1 hr
      simp [hq, Op.tracedStatus]
  | render =>
    simp only [Op.run, Except.map] at h
    split at h
    · exact absurd h (by simp)
    · rename_i r hr
      injection h with h; injection h with h; subst h
      simp [packet_toString_snd cfg p r hr, Op.tracedStatus]
  | addDeliveryStatus t status =>
    simp only [Op.run, Except.map] at h
    split at h
    · exact absurd h (by simp)
    · rename_i r hr
      injection h with h; injection h with h; subst h
      cases t <;> simp [packet_addDeliveryStatus_eq cfg _ p r status hr, Op.tracedStatus]

/-- Along a successful sequence of calls the ordered status log grows by the flags of the traced
`packet_addDeliveryStatus` calls, in call order. -/
theorem runOps_log (cfg : Config) (ops : List Op) (p q : Packet)
    (h : runOps cfg p ops = .ok (some q)) :
    q.orderedStatus = p.orderedStatus ++ tracedStatuses ops := by
  induction ops generalizing p with
  | nil =>
    simp only [runOps] at h
    rw [← Option.some.inj (Except.ok.inj h)]
    simp [tracedStatuses]
  | cons op rest ih =>
    obtain ⟨r, h1, h2⟩ := runOps_cons_ok cfg p q op rest h
    rw [ih r h2, (op_run_log cfg op p r h1).1]
    cases hts : op.tracedStatus <;> simp [tracedStatuses, List.filterMap_cons, hts]

theorem tracedStatuses_length (ops : List Op) :
    (tracedStatuses ops).length = ops.countP (fun op => op.tracedStatus.isSome) := by
  induction ops with
  | nil => rfl
  | cons op rest ih =>
    cases hts : op.tracedStatus <;>
      simp [tracedStatuses, List.filterMap_cons, List.countP_cons, hts] at ih ⊢ <;> exact ih

/-- C21: with trace diagnostics disabled `packet_addDeliveryStatus` returns on every packet and
changes the status bitmask only, so the ordered status log stays as it was; with trace
diagnostics enabled, on a packet whose tag is Local, UDP or TCP (with the header of that tag) it
returns and the new log is the old log with the flag appended at the end, whether or not the
flag is already in the log. Hence after a run of calls the log is the old log followed by the
flags of the traced calls in call order, its length has grown by the number of traced calls, and
along every sequence of public operations that starts at `packet_new_inner` the log is the list
of the flags of the traced `packet_addDeliveryStatus` calls, in call order. -/
theorem ordered_status_gating (cfg : Config) (p : Packet) (flag : Nat)
    (calls : List (Bool × Nat))
    (hh : p.protocol.hasHeader = true) (hf : headerFits p.protocol p.header = true) :
    (∀ x : Packet, ∃ y, packet_addDeliveryStatus cfg false x flag = .ok y ∧
      y.orderedStatus = x.orderedStatus ∧ y = { x with allStatus := x.allStatus ||| flag }) ∧
    (∃ q, packet_addDeliveryStatus cfg true p flag = .ok q ∧
      q.orderedStatus = p.orderedStatus ++ [flag] ∧
      q = { p with allStatus := p.allStatus ||| flag,
                   orderedStatus := p.orderedStatus ++ [flag] }) ∧
    (∃ r, addDeliveryStatuses cfg p calls = .ok r ∧
      r.orderedStatus = p.orderedStatus ++ (calls.filter (fun c => c.1)).map Prod.snd ∧
      r.orderedStatus.length = p.orderedStatus.length + calls.countP (fun c => c.1)) ∧
    (∀ (hostID packetID : Nat) (ops : List Op) (q : Packet),
      runOps cfg (packet_new_inner hostID packetID) ops = .ok (some q) →
        q.orderedStatus = tracedStatuses ops ∧
        q.orderedStatus.length = ops.countP (fun op => op.tracedStatus.isSome)) := by
  refine ⟨fun x => ⟨_, packet_addDeliveryStatus_quiet cfg x flag, rfl, rfl⟩,
    ⟨_, packet_addDeliveryStatus_traced cfg p flag hh hf, rfl, rfl⟩,
    ⟨_, addDeliveryStatuses_eq cfg p calls (Or.inr ⟨hh, hf⟩), rfl, ?_⟩, ?_⟩
  · simp [List.countP_eq_length_filter]
  · intro hostID packetID ops q hrun
    have hlog : q.orderedStatus = tracedStatuses ops := by
      rw [runOps_log cfg ops _ q hrun]
      rfl
    exact ⟨hlog, by rw [hlog, tracedStatuses_length]⟩

/-- C21 on `sampleTCPPacket`, whose log is [2, 128]: without tracing the flag 4 leaves the log
alone, with tracing it is appended, the run traced 4, untraced 8, traced 4 appends 4 twice, and
the log [2, 128] is the list of the flags traced by the calls that built the packet. -/
theorem ordered_status_gating_witness :
    sampleTCPPacket.protocol.hasHeader = true ∧
    headerFits sampleTCPPacket.protocol sampleTCPPacket.header = true ∧
    (∀ x : Packet, ∃ y, packet_addDeliveryStatus sampleConfig false x 4 = .ok y ∧
      y.orderedStatus = x.orderedStatus ∧ y = { x with allStatus := x.allStatus ||| 4 }) ∧
    (∃ q, packet_addDeliveryStatus sampleConfig true sampleTCPPacket 4 = .ok q ∧
      q.orderedStatus = sampleTCPPacket.orderedStatus ++ [4] ∧
      q = { sampleTCPPacket with allStatus := sampleTCPPacket.allStatus ||| 4,
                                 orderedStatus := sampleTCPPacket.orderedStatus ++ [4] }) ∧
    (∃ r, addDeliveryStatuses sampleConfig sampleTCPPacket [(true, 4), (false, 8), (true, 4)] =
        .ok r ∧
      r.orderedStatus = sampleTCPPacket.orderedStatus ++
        ([(true, 4), (false, 8), (true, 4)].filter (fun c => c.1)).map Prod.snd ∧
      r.orderedStatus.length = sampleTCPPacket.orderedStatus.length +
        [(true, 4), (false, 8), (true, 4)].countP (fun c => c.1)) ∧
    sampleTCPPacket.orderedStatus = tracedStatuses sampleTCPOps ∧
    sampleTCPPacket.orderedStatus.length =
      sampleTCPOps.countP (fun op => op.tracedStatus.isSome) :=
  have h := ordered_status_gating sampleConfig sampleTCPPacket 4
    [(true, 4), (false, 8), (true, 4)] rfl rfl
  ⟨rfl, rfl, h.1, h.2.1, h.2.2.1, h.2.2.2 7 3 sampleTCPOps sampleTCPPacket rfl⟩
/-! ## C22: `packet_toString` leaves the packet as it was -/

theorem intercalate_go_append (sep : String) (l : List String) (acc x : String) :
    String.intercalate.go (acc ++ x) sep l = acc ++ String.intercalate.go x sep l := by
  induction l generalizing x with
  | nil => rfl
  | cons a l ih =>
    simp only [String.intercalate.go]
    rw [String.append_assoc, String.append_assoc, ← String.append_assoc x sep a]
    exact ih _

theorem intercalate_cons_cons (sep a b : String) (l : List String) :
    sep.intercalate (a :: b :: l) = a ++ sep ++ sep.intercalate (b :: l) := by
  simp only [String.intercalate, String.intercalate.go]
  exact intercalate_go_append sep l (a ++ sep) b

/-- The text of the last `k` iterations of the status loop over a queue of `n` entries, when they
start with `k` entries still to be printed: the names of the first `k` entries of the queue,
separated by commas. -/
theorem statusLoop_fst (cfg : Config) (n : Nat) :
    ∀ (k : Nat) (q : List Nat) (s : String), k ≤ q.length → k ≤ n →
      (statusLoop cfg n k q s).1 = s ++ ",".intercalate ((q.take k).map (statusName cfg)) := by
  intro k
  induction k with
  | zero =>
    intro q s _ _
    simp [statusLoop, String.intercalate]
  | succ k ih =>
    intro q s hk hn
    cases q with
    | nil => simp at hk
    | cons x q =>
      have hk2 : k ≤ q.length := by simpa using hk
      simp only [statusLoop, g_queue_pop_head, g_queue_push_tail]
      rw [ih _ _ (by simp; omega) (by omega), List.take_append_of_le_length hk2]
      cases k with
      | zero =>
        have hc : ¬ (n - (0 + 1) < n - 1) := by omega
        simp [hc, String.intercalate, String.intercalate.go, statusName]
      | succ j =>
        have hc : n - (j + 1 + 1) < n - 1 := by omega
        cases q with
        | nil => simp at hk2
        | cons y q =>
          simp only [hc, if_true, List.take_succ_cons, List.map_cons]
          rw [intercalate_cons_cons]
          simp only [String.append_assoc, statusName]

/-- The text of the whole status loop: the names of the entries in queue order, separated by
commas. -/
theorem statusLoop_text (cfg : Config) (q : List Nat) (s : String) :
    (statusLoop cfg q.length q.length q s).1 =
      s ++ ",".intercalate (q.map (statusName cfg)) := by
  rw [statusLoop_fst cfg q.length q.length q s (le_refl _) (le_refl _), List.take_length]

/-- C22: on every packet whose tag is Local, UDP or TCP (with the header of that tag) and for
every content of the ordered status log, `packet_toString` returns the packet it was given, log
included: after `k` iterations of the status loop the queue is the log rotated by `k`, after all
of them it is the log again. The text is the text of the same packet with an empty log,
followed, when the log is not empty, by " status=" and the names of the log entries in log order,
separated by commas. -/
theorem packet_toString_read_only (cfg : Config) (p : Packet)
    (hh : p.protocol.hasHeader = true) (hf : headerFits p.protocol p.header = true) :
    ∃ body, packet_toString cfg { p with orderedStatus := [] } =
        .ok (body, { p with orderedStatus := [] }) ∧
      packet_toString cfg p =
        .ok (body ++ (if p.orderedStatus = [] then ""
          else " status=" ++ ",".intercalate (p.orderedStatus.map (statusName cfg))), p) ∧
      (∀ (k : Nat) (s : String), k ≤ p.orderedStatus.length →
        (statusLoop cfg p.orderedStatus.length k p.orderedStatus s).2 =
          p.orderedStatus.rotate k) ∧
      (∀ s : String,
        (statusLoop cfg p.orderedStatus.length p.orderedStatus.length p.orderedStatus s).2 =
          p.orderedStatus) := by
  obtain ⟨s, hs⟩ := packet_toString_ok cfg p hh hf
  obtain ⟨s0, hs0⟩ := packet_toString_ok cfg { p with orderedStatus := [] } hh hf
  have hs1 := hs
  have hs2 := hs0
  unfold packet_toString at hs1 hs2
  simp only at hs1 hs2
  split at hs1
  · exact absurd hs1 (by simp)
  rename_i t ht
  split at hs2
  · exact absurd hs2 (by simp)
  rename_i t0 ht0
  have ht1 : renderProtocol cfg p _ _ = .ok t0 := ht0
  have htt : t0 = t := Except.ok.inj (ht1.symm.trans ht)
  have e0 : s0 = t := by
    have h : _ = s0 := congrArg Prod.fst (Except.ok.inj hs2)
    rw [← htt, ← h]
    rfl
  have e1 : s = t ++ (if p.orderedStatus = [] then ""
      else " status=" ++ ",".intercalate (p.orderedStatus.map (statusName cfg))) := by
    have h : _ = s := congrArg Prod.fst (Except.ok.inj hs1)
    simp only [statusLoop_text] at h
    rw [← h]
    cases hq : p.orderedStatus with
    | nil => simp [String.intercalate]
    | cons x q => simp [String.append_assoc]
  refine ⟨s0, hs0, ?_, ?_, ?_⟩
  · rw [hs, e1, e0]
  · intro k s hk
    rw [statusLoop_snd cfg _ k _ s hk, List.rotate_eq_drop_append_take hk]
  · intro s
    exact statusLoop_full cfg _ s

/-- C22 on `sampleTCPPacket`, whose log is [2, 128]: the text ends with the names of both
entries in log order and the packet is handed back as it was. -/
theorem packet_toString_read_only_witness :
    sampleTCPPacket.protocol.hasHeader = true ∧
    headerFits sampleTCPPacket.protocol sampleTCPPacket.header = true ∧
    (∃ body, packet_toString sampleConfig { sampleTCPPacket with orderedStatus := [] } =
        .ok (body, { sampleTCPPacket with orderedStatus := [] }) ∧
      packet_toString sampleConfig sampleTCPPacket =
        .ok (body ++ (if sampleTCPPacket.orderedStatus = [] then ""
          else " status=" ++
            ",".intercalate (sampleTCPPacket.orderedStatus.map (statusName sampleConfig))),
          sampleTCPPacket) ∧
      (∀ (k : Nat) (s : String), k ≤ sampleTCPPacket.orderedStatus.length →
        (statusLoop sampleConfig sampleTCPPacket.orderedStatus.length k
          sampleTCPPacket.orderedStatus s).2 = sampleTCPPacket.orderedStatus.rotate k) ∧
      (∀ s : String,
        (statusLoop sampleConfig sampleTCPPacket.orderedStatus.length
          sampleTCPPacket.orderedStatus.length sampleTCPPacket.orderedStatus s).2 =
          sampleTCPPacket.orderedStatus)) ∧
    packet_toString sampleConfig sampleTCPPacket =
      .ok ("packetID=7:3 10.0.0.1:1234 -> 10.0.0.2:80 seq=100 ack=55 sack=5-7 10 " ++
        "window=1000 bytes=0 header=ACK tsval=11 tsechoreply=12 " ++
        "status=SND_CREATED,SND_INTERFACE_SENT", sampleTCPPacket) :=
  ⟨rfl, rfl, packet_toString_read_only sampleConfig sampleTCPPacket rfl rfl, by rfl⟩
/-! ## C23: the header under a header tag -/

theorem hasHeader_false_iff (t : ProtocolType) :
    t.hasHeader = false ↔ ¬ (t = .PLOCAL ∨ t = .PUDP ∨ t = .PTCP) := by
  cases t <;> simp [ProtocolType.hasHeader]

/-- The call `_packet_free` returns on a packet whose header has the shape of its tag. -/
theorem packet_free_ok (p : Packet) (hf : headerFits p.protocol p.header = true) :
    _packet_free p = .ok () := by
  unfold _packet_free
  cases hp : p.protocol <;> cases hd : p.header <;>
    simp [hp, hd, headerFits, pure, Except.pure, bind, Except.bind] at hf ⊢
  rename_i hdr
  cases hdr <;> simp [headerFits, asTCP] at hf ⊢

/-- On a packet whose header has the shape of its tag the only fault of `packet_toString` is the
panic of the default arm, taken when the tag is not a header tag. -/
theorem packet_toString_error (cfg : Config) (p : Packet) (e : Fault)
    (hf : headerFits p.protocol p.header = true) (h : packet_toString cfg p = .error e) :
    e = .panic ∧ p.protocol.hasHeader = false := by
  cases hh : p.protocol.hasHeader with
  | true =>
    obtain ⟨s, hs⟩ := packet_toString_ok cfg p hh hf
    rw [hs] at h
    exact absurd h (by simp)
  | false =>
    rw [packet_toString_panic cfg p hh] at h
    exact ⟨(Except.error.inj h).symm, rfl⟩

/-- On a packet whose header has the shape of its tag the only fault of
`packet_addDeliveryStatus` is the panic of `packet_toString`, with the trace switch on and a tag
that is not a header tag. -/
theorem packet_addDeliveryStatus_error (cfg : Config) (t : Bool) (p : Packet) (status : Nat)
    (e : Fault) (hf : headerFits p.protocol p.header = true)
    (h : packet_addDeliveryStatus cfg t p status = .error e) :
    t = true ∧ e = .panic ∧ p.protocol.hasHeader = false := by
  cases t with
  | false =>
    rw [packet_addDeliveryStatus_quiet] at h
    exact absurd h (by simp)
  | true =>
    cases hh : p.protocol.hasHeader with
    | true =>
      rw [packet_addDeliveryStatus_traced cfg p status hh hf] at h
      exact absurd h (by simp)
    | false =>
      rw [packet_addDeliveryStatus_panic cfg p status hh] at h
      exact ⟨rfl, (Except.error.inj h).symm, rfl⟩

/-- The last `packet_unref` of a packet whose tag is not a header tag panics when it is traced. -/
theorem packet_unref_panic (cfg : Config) (p : Packet) (h1 : p.referenceCount = 1)
    (hh : p.protocol.hasHeader = false) : packet_unref cfg true p = .error .panic := by
  have hadd := packet_addDeliveryStatus_panic cfg { p with referenceCount := 0 }
    (cfg.PDS .PDS_DESTROYED) hh
  simp [packet_unref, h1, hadd, bind, Except.bind]

/-- On a packet whose header has the shape of its tag the only fault of `packet_unref` is the
panic of `packet_toString`. -/
theorem packet_unref_error (cfg : Config) (t : Bool) (p : Packet) (e : Fault)
    (hf : headerFits p.protocol p.header = true) (h : packet_unref cfg t p = .error e) :
    e = .panic := by
  unfold packet_unref at h
  simp only [bind, Except.bind, pure, Except.pure] at h
  split at h
  · split at h
    · rename_i e2 he
      have h2 := packet_addDeliveryStatus_error cfg t
        { p with referenceCount := (p.referenceCount + 4294967295) % 4294967296 } _ e2 hf he
      rw [← Except.error.inj h]
      exact h2.2.1
    · rename_i q hq
      have hq2 := packet_addDeliveryStatus_eq cfg t _ q _ hq
      have hfq : headerFits q.protocol q.header = true := by rw [hq2]; exact hf
      rw [packet_free_ok q hfq] at h
      exact absurd h (by simp)
  · exact absurd h (by simp)

/-- On a packet whose header has the shape of its tag no tag-directed cast of the accessors, of
`packet_copyTCPSelectiveACKs`, of `packet_updateTCP` or of `packet_copy` reads an absent header or
a header of another shape. -/
theorem casts_defined (cfg : Config) (p : Packet) (hf : headerFits p.protocol p.header = true) :
    packet_getSourceIP cfg p ≠ .error .undefined ∧
    packet_getSourcePort p ≠ .error .undefined ∧
    packet_getDestinationIP cfg p ≠ .error .undefined ∧
    packet_getDestinationPort p ≠ .error .undefined ∧
    packet_copyTCPSelectiveACKs p ≠ .error .undefined ∧
    packet_copy p ≠ .error .undefined ∧
    (∀ ack sacks window tsv tse,
      packet_updateTCP cfg p ack sacks window tsv tse ≠ .error .undefined) := by
  obtain ⟨rc, hid, pid, proto, hdr, pl, prio, st, q⟩ := p
  rcases hdr with _ | (h | h | h) <;> cases proto <;> simp [headerFits] at hf <;>
    simp [packet_getSourceIP, packet_getSourcePort, packet_getDestinationIP,
      packet_getDestinationPort, packet_copyTCPSelectiveACKs, packet_copy, packet_updateTCP,
      utility_debugAssert, utility_panic, asLocal, asUDP, asTCP, bind, Except.bind, pure,
      Except.pure]

/-- On two packets whose headers have the shape of their tags `packet_compareTCPSequence` reads
no absent header and no header of another shape. -/
theorem compare_defined (p q : Packet) (hfp : headerFits p.protocol p.header = true)
    (hfq : headerFits q.protocol q.header = true) :
    packet_compareTCPSequence p q ≠ .error .undefined := by
  obtain ⟨rc, hid, pid, proto, hdr, pl, prio, st, l⟩ := p
  obtain ⟨rc2, hid2, pid2, proto2, hdr2, pl2, prio2, st2, l2⟩ := q
  rcases hdr with _ | (h | h | h) <;> cases proto <;> simp [headerFits] at hfp <;>
    rcases hdr2 with _ | (h2 | h2 | h2) <;> cases proto2 <;> simp [headerFits] at hfq <;>
    simp [packet_compareTCPSequence, utility_debugAssert, asTCP, bind, Except.bind, pure,
      Except.pure]

/-- A packet that carries a header tag at the end of a sequence of calls carried it from the
start, or the sequence contains a call of the header setter of that tag. -/
theorem runOps_setter (cfg : Config) (ops : List Op) (p q : Packet)
    (h : runOps cfg p ops = .ok (some q)) (hh : q.protocol.hasHeader = true) :
    q.protocol = p.protocol ∨ ∃ op ∈ ops, op.setterTag = some q.protocol := by
  induction ops generalizing p with
  | nil =>
    simp only [runOps] at h
    left
    rw [← Option.some.inj (Except.ok.inj h)]
  | cons op rest ih =>
    obtain ⟨r, h1, h2⟩ := runOps_cons_ok cfg p q op rest h
    rcases ih r h2 with hq | ⟨o, ho, hs⟩
    · rcases (op_run_log cfg op p r h1).2 with h3 | h3 | h3
      · left; rw [hq, h3]
      · rw [hq, h3] at hh
        exact absurd hh (by simp [ProtocolType.hasHeader])
      · right
        exact ⟨op, List.mem_cons_self _ _, by rw [hq]; exact h3⟩
    · right
      exact ⟨o, List.mem_cons_of_mem _ ho, hs⟩

/-- C23: in every packet that a sequence of public operations, `packet_setMock` and `packet_copy`
included, leads to from `packet_new_inner`, a tag Local, UDP or TCP comes with a header of the
shape of that tag, which the cast under that tag reads, and the sequence contains a call of the
setter of that tag. Hence no tag-directed cast of the accessors, of `packet_updateTCP`, of
`packet_compareTCPSequence`, of `packet_toString` (also when reached through
`packet_addDeliveryStatus` and `packet_unref`), of `packet_copy` or of `_packet_free` reads an
absent header or a header of another shape. -/
theorem header_matches_tag (cfg : Config) (hostID packetID : Nat) (ops : List Op) (p : Packet)
    (hrun : runOps cfg (packet_new_inner hostID packetID) ops = .ok (some p)) :
    (p.protocol = .PLOCAL → ∃ h, p.header = some (.ofLocal h) ∧ asLocal p.header = .ok h) ∧
    (p.protocol = .PUDP → ∃ h, p.header = some (.ofUDP h) ∧ asUDP p.header = .ok h) ∧
    (p.protocol = .PTCP → ∃ h, p.header = some (.ofTCP h) ∧ asTCP p.header = .ok h) ∧
    (p.protocol.hasHeader = true → ∃ op ∈ ops, op.setterTag = some p.protocol) ∧
    packet_getSourceIP cfg p ≠ .error .undefined ∧
    packet_getSourcePort p ≠ .error .undefined ∧
    packet_getDestinationIP cfg p ≠ .error .undefined ∧
    packet_getDestinationPort p ≠ .error .undefined ∧
    packet_copyTCPSelectiveACKs p ≠ .error .undefined ∧
    packet_copy p ≠ .error .undefined ∧
    (∀ ack sacks window tsv tse,
      packet_updateTCP cfg p ack sacks window tsv tse ≠ .error .undefined) ∧
    packet_toString cfg p ≠ .error .undefined ∧
    (∀ t status, packet_addDeliveryStatus cfg t p status ≠ .error .undefined) ∧
    (∀ t, packet_unref cfg t p ≠ .error .undefined) ∧
    _packet_free p = .ok () ∧
    (∀ (hostID2 packetID2 : Nat) (ops2 : List Op) (q : Packet),
      runOps cfg (packet_new_inner hostID2 packetID2) ops2 = .ok (some q) →
        packet_compareTCPSequence p q ≠ .error .undefined ∧
        packet_compareTCPSequence q p ≠ .error .undefined) := by
  have hf : headerFits p.protocol p.header = true :=
    reachable_headerFits cfg anyOp p ⟨hostID, packetID, ops, fun _ _ => rfl, hrun⟩
  obtain ⟨c1, c2, c3, c4, c5, c6, c7⟩ := casts_defined cfg p hf
  refine ⟨?_, ?_, ?_, ?_, c1, c2, c3, c4, c5, c6, c7, ?_, ?_, ?_, packet_free_ok p hf, ?_⟩
  · intro hp
    rw [hp] at hf
    cases hd : p.header with
    | none => rw [hd] at hf; exact absurd hf (by simp [headerFits])
    | some hdr =>
      rw [hd] at hf
      cases hdr <;> simp [headerFits, asLocal] at hf ⊢
  · intro hp
    rw [hp] at hf
    cases hd : p.header with
    | none => rw [hd] at hf; exact absurd hf (by simp [headerFits])
    | some hdr =>
      rw [hd] at hf
      cases hdr <;> simp [headerFits, asUDP] at hf ⊢
  · intro hp
    rw [hp] at hf
    cases hd : p.header with
    | none => rw [hd] at hf; exact absurd hf (by simp [headerFits])
    | some hdr =>
      rw [hd] at hf
      cases hdr <;> simp [headerFits, asTCP] at hf ⊢
  · intro hh
    rcases runOps_setter cfg ops _ p hrun hh with h | h
    · rw [h] at hh
      exact absurd hh (by simp [packet_new_inner, ProtocolType.hasHeader])
    · exact h
  · intro h
    exact absurd (packet_toString_error cfg p _ hf h).1 (by simp)
  · intro t status h
    exact absurd (packet_addDeliveryStatus_error cfg t p status _ hf h).2.1 (by simp)
  · intro t h
    exact absurd (packet_unref_error cfg t p _ hf h) (by simp)
  · intro hostID2 packetID2 ops2 q hq
    have hfq : headerFits q.protocol q.header = true :=
      reachable_headerFits cfg anyOp q ⟨hostID2, packetID2, ops2, fun _ _ => rfl, hq⟩
    exact ⟨compare_defined p q hf hfq, compare_defined q p hfq hf⟩

/-- C23 on `sampleTCPPacket`, which `sampleTCPOps` builds: it carries a TCP header, the calls
contain `packet_setTCP`, and neither the source address accessor nor `_packet_free` reads a
header that is not there. -/
theorem header_matches_tag_witness :
    runOps sampleConfig (packet_new_inner 7 3) sampleTCPOps = .ok (some sampleTCPPacket) ∧
    (∃ h, sampleTCPPacket.header = some (.ofTCP h) ∧ asTCP sampleTCPPacket.header = .ok h) ∧
    (∃ op ∈ sampleTCPOps, op.setterTag = some sampleTCPPacket.protocol) ∧
    packet_getSourceIP sampleConfig sampleTCPPacket ≠ .error .undefined ∧
    _packet_free sampleTCPPacket = .ok () :=
  have h := header_matches_tag sampleConfig 7 3 sampleTCPOps sampleTCPPacket rfl
  ⟨rfl, h.2.2.1 rfl, h.2.2.2.1 rfl, h.2.2.2.2.1, h.2.2.2.2.2.2.2.2.2.2.2.2.2.2.1⟩
/-! ## C24: when `packet_addDeliveryStatus` faults -/

/-- C24: with trace diagnostics disabled `packet_addDeliveryStatus` returns on every packet. With
trace diagnostics enabled, on a packet whose header, if any, is the one of its tag (as in every
reachable packet), it faults if and only if the tag is not Local, UDP or TCP, and the fault is
then the panic of `packet_toString` on the packet with the status added. In particular, with
trace enabled, `packet_addDeliveryStatus` and the `packet_unref` of the last reference panic on a
packet whose tag is None or Mock, such as a packet fresh from `packet_new_inner` and the same
packet after `packet_setMock`. -/
theorem addDeliveryStatus_faults (cfg : Config) (p : Packet) (status : Nat)
    (hf : headerFits p.protocol p.header = true) :
    (∀ x : Packet, ∃ y, packet_addDeliveryStatus cfg false x status = .ok y) ∧
    ((∃ e, packet_addDeliveryStatus cfg true p status = .error e) ↔
      ¬ (p.protocol = .PLOCAL ∨ p.protocol = .PUDP ∨ p.protocol = .PTCP)) ∧
    (∀ e, packet_addDeliveryStatus cfg true p status = .error e →
      e = .panic ∧
      packet_toString cfg { p with allStatus := p.allStatus ||| status,
                                   orderedStatus := p.orderedStatus ++ [status] } =
        .error .panic) ∧
    (p.protocol = .PNONE ∨ p.protocol = .PMOCK →
      packet_addDeliveryStatus cfg true p status = .error .panic) ∧
    (p.protocol = .PNONE ∨ p.protocol = .PMOCK → p.referenceCount = 1 →
      packet_unref cfg true p = .error .panic) ∧
    (∀ hostID packetID : Nat,
      packet_addDeliveryStatus cfg true (packet_new_inner hostID packetID) status =
        .error .panic ∧
      packet_unref cfg true (packet_new_inner hostID packetID) = .error .panic ∧
      packet_addDeliveryStatus cfg true (packet_setMock (packet_new_inner hostID packetID))
        status = .error .panic ∧
      packet_unref cfg true (packet_setMock (packet_new_inner hostID packetID)) =
        .error .panic) := by
  have hnm : p.protocol = .PNONE ∨ p.protocol = .PMOCK → p.protocol.hasHeader = false := by
    rintro (h | h) <;> rw [h] <;> rfl
  refine ⟨fun x => ⟨_, packet_addDeliveryStatus_quiet cfg x status⟩, ⟨?_, ?_⟩, ?_,
    fun h => packet_addDeliveryStatus_panic cfg p status (hnm h),
    fun h h1 => packet_unref_panic cfg p h1 (hnm h), ?_⟩
  · rintro ⟨e, he⟩
    exact (hasHeader_false_iff _).1 (packet_addDeliveryStatus_error cfg true p status e hf he).2.2
  · intro h
    exact ⟨_, packet_addDeliveryStatus_panic cfg p status ((hasHeader_false_iff _).2 h)⟩
  · intro e he
    obtain ⟨_, h1, h2⟩ := packet_addDeliveryStatus_error cfg true p status e hf he
    exact ⟨h1, packet_toString_panic cfg _ h2⟩
  · intro hostID packetID
    exact ⟨packet_addDeliveryStatus_panic cfg _ status rfl,
      packet_unref_panic cfg _ rfl rfl,
      packet_addDeliveryStatus_panic cfg _ status rfl,
      packet_unref_panic cfg _ rfl rfl⟩

/-- C24 on `sampleTCPPacket` after `packet_setMock`: a Mock packet that carries a TCP header. -/
theorem addDeliveryStatus_faults_witness :
    headerFits (packet_setMock sampleTCPPacket).protocol (packet_setMock sampleTCPPacket).header =
      true ∧
    ((∃ e, packet_addDeliveryStatus sampleConfig true (packet_setMock sampleTCPPacket) 4 =
        .error e) ↔
      ¬ ((packet_setMock sampleTCPPacket).protocol = .PLOCAL ∨
        (packet_setMock sampleTCPPacket).protocol = .PUDP ∨
        (packet_setMock sampleTCPPacket).protocol = .PTCP)) ∧
    packet_addDeliveryStatus sampleConfig true (packet_setMock sampleTCPPacket) 4 =
      .error .panic ∧
    packet_unref sampleConfig true (packet_new_inner 7 3) = .error .panic :=
  ⟨rfl,
    (addDeliveryStatus_faults sampleConfig (packet_setMock sampleTCPPacket) 4 rfl).2.1,
    (addDeliveryStatus_faults sampleConfig (packet_setMock sampleTCPPacket) 4 rfl).2.2.2.1
      (Or.inr rfl),
    ((addDeliveryStatus_faults sampleConfig (packet_setMock sampleTCPPacket) 4 rfl).2.2.2.2.2
      7 3).2.1⟩

/-! ## C25: when `packet_copy` panics -/

/-- The call `packet_copy` panics exactly on a packet that carries a header under a tag that is
not a header tag. -/
theorem packet_copy_panic_iff (p : Packet) :
    packet_copy p = .error .panic ↔ (p.header ≠ none ∧ p.protocol.hasHeader = false) := by
  obtain ⟨rc, hid, pid, proto, hdr, pl, prio, st, q⟩ := p
  rcases hdr with _ | (h | h | h) <;> cases proto <;>
    simp [packet_copy, ProtocolType.hasHeader, utility_panic, asLocal, asUDP, asTCP, bind,
      Except.bind, pure, Except.pure]

/-- A header setter that returns leaves a header on the packet. -/
theorem header_setter_leaves_header (cfg : Config) (op : Op) (p q : Packet)
    (hs : op.isHeaderSetter = true) (h : op.run cfg p = .ok (some q)) : q.header ≠ none := by
  have hq := header_setter_isSome cfg op p q hs h
  revert hq
  cases q.header <;> simp

/-- C25: `packet_copy` panics if and only if the packet carries a header and its tag is not
Local, UDP or TCP, and on a packet whose header, if any, is the one of its tag (as in every
reachable packet) it returns in every other case. So it returns on a packet without header, such
as a packet fresh from `packet_new_inner` and the same packet after `packet_setMock`; it panics
on the packet that a successful header setter followed by `packet_setMock` leaves; and it returns
on every packet reachable without `packet_setMock`. -/
theorem packet_copy_panics_iff (cfg : Config) (p : Packet) :
    (packet_copy p = .error .panic ↔
      (p.header ≠ none ∧
        ¬ (p.protocol = .PLOCAL ∨ p.protocol = .PUDP ∨ p.protocol = .PTCP))) ∧
    (headerFits p.protocol p.header = true →
      ((∃ c, packet_copy p = .ok c) ↔
        ¬ (p.header ≠ none ∧
          ¬ (p.protocol = .PLOCAL ∨ p.protocol = .PUDP ∨ p.protocol = .PTCP)))) ∧
    (p.header = none → ∃ c, packet_copy p = .ok c) ∧
    (∀ hostID packetID : Nat,
      (∃ c, packet_copy (packet_new_inner hostID packetID) = .ok c) ∧
      (∃ c, packet_copy (packet_setMock (packet_new_inner hostID packetID)) = .ok c)) ∧
    (∀ (op : Op) (q : Packet), op.isHeaderSetter = true → op.run cfg p = .ok (some q) →
      packet_copy (packet_setMock q) = .error .panic) ∧
    (Reachable cfg noSetMock p → ∃ c, packet_copy p = .ok c) := by
  have hnone : ∀ x : Packet, x.header = none → ∃ c, packet_copy x = .ok c := by
    intro x hx
    unfold packet_copy
    simp only [bind, Except.bind, pure, Except.pure, g_queue_copy, hx]
    exact ⟨_, rfl⟩
  refine ⟨?_, ?_, hnone p, fun hostID packetID => ⟨hnone _ rfl, hnone _ rfl⟩, ?_, ?_⟩
  · rw [packet_copy_panic_iff, hasHeader_false_iff]
  · intro hf
    constructor
    · rintro ⟨c, hc⟩ ⟨hd, ht⟩
      have hpanic := (packet_copy_panic_iff p).2 ⟨hd, (hasHeader_false_iff _).2 ht⟩
      rw [hpanic] at hc
      exact absurd hc (by simp)
    · intro h
      by_cases hm : p.protocol = .PMOCK
      · have hd : p.header = none := by
          by_contra hd
          exact h ⟨hd, by rw [hm]; simp⟩
        exact hnone p hd
      · exact packet_copy_ok p hf hm
  · intro op q hs hrun
    exact (packet_copy_panic_iff _).2 ⟨header_setter_leaves_header cfg op p q hs hrun, rfl⟩
  · intro hr
    exact packet_copy_ok p (reachable_headerFits cfg noSetMock p hr)
      (reachable_not_mock cfg p hr)

/-- C25 on a packet fresh from `packet_new_inner`: copying it returns, and after `packet_setTCP`
followed by `packet_setMock` copying panics. -/
theorem packet_copy_panics_iff_witness :
    (∃ c, packet_copy (packet_new_inner 7 3) = .ok c) ∧
    (Op.setTCP 8 16777226 53764 33554442 20480 100).run sampleConfig (packet_new_inner 7 3) =
      .ok (some sampleFreshTCPPacket) ∧
    packet_copy (packet_setMock sampleFreshTCPPacket) = .error .panic :=
  ⟨(packet_copy_panics_iff sampleConfig (packet_new_inner 7 3)).2.2.1 rfl, rfl,
    (packet_copy_panics_iff sampleConfig (packet_new_inner 7 3)).2.2.2.2.1
      (.setTCP 8 16777226 53764 33554442 20480 100) sampleFreshTCPPacket rfl rfl⟩
/-! ## C26: the SACK list and the sentinel of the SACK loop -/

/-- C26 fails on the code: the SACK loop of `packet_toString` reads the entries as `gint` and
uses -1 for "no entry yet", so the sequence number 4294967295, which reads as -1, is taken for
no entry. The TCP packet whose SACK list is [4294967295] is rendered with "sack=NA", like a
packet without SACK entries; in [4294967295, 0, 1, 9] the first entry is dropped; after
[5, 10] the entry 4294967295 is rendered as "NA"; and a first entry 3000000000 is printed
as the negative number it reads as. -/
theorem sack_sentinel_rendered_as_absent :
    runOps sampleConfig (packet_new_inner 0 0) sampleSentinelOps =
      .ok (some sampleSentinelPacket) ∧
    (packet_toString sampleConfig sampleSentinelPacket).map Prod.fst =
      .ok ("packetID=0:0 10.0.0.1:1234 -> 10.0.0.2:80 seq=100 ack=0 sack=NA window=0 " ++
        "bytes=0 header=ACK tsval=0 tsechoreply=0") ∧
    GPOINTER_TO_INT 4294967295 = -1 ∧
    renderSACKs [4294967295] "" = "NA" ∧
    renderSACKs [4294967295] "" = renderSACKs [] "" ∧
    renderSACKs [4294967295, 0, 1, 9] "" = "0-1 9" ∧
    renderSACKs [5, 10, 4294967295] "" = "5-10 NA" ∧
    renderSACKs [3000000000] "" = "-1294967296" :=
  ⟨by rfl, by rfl, by decide, by decide, by decide, by decide, by decide, by decide⟩

end Shadow
